import Mathlib

/-!
k4RecCalorimeter: calorimeter reconstruction components.

A shallow embedding of the Gaudi components `MuonCaloHitDigi`,
`RewriteHCalBarrelBitfield`, `CellPositionsCaloDiscsTool` and `MassInv`.

Conventions of the embedding.

* Cell identifiers (`uint64_t`) are natural numbers holding the 64 bit
  pattern; signed 64 bit values (`long64`) are integers, and the conversions
  between the two are explicit (`toInt64`, `toUInt64`).
* Single and double precision numbers are elements of arbitrary types; where a
  component only copies or adds them, the conversions and the addition are
  parameters without any algebraic law, so the statements hold for the machine
  arithmetic as well as for exact arithmetic.
* For `MassInv`, whose statements are about sums, quotients and comparisons,
  the numbers are the elements of a linearly ordered field: the arithmetic is
  exact and rounding is not modelled. The field has no NaN and no infinity:
  the division of `newEta` by the energy of a corrected cluster is an error
  when the energy is 0. The conversions of a `double` to `int` are explicit
  (`doubleToInt`).
* A call that leaves a method through an exception of the geometry library,
  through a null pointer or through an access out of a vector is a value
  `Except.error`; a normal return is `Except.ok`.
* The functions of `cmath`, of ROOT and of the segmentations, and `std::sort`,
  are parameters of the methods that call them.
* Logging (`debug()`, `info()`, `error()`) has no effect on the results and is
  left out.
* The method `initialize` of a component is called `initialise` here.
-/

namespace K4RecCalorimeter

/-! ## Framework and geometry data -/

/-- Gaudi status code, with the two values that the components return. -/
inductive StatusCode where
  | SUCCESS
  | FAILURE
  deriving DecidableEq, Repr

/-- Method `StatusCode::isFailure()`. -/
def StatusCode.isFailure : StatusCode → Bool
  | .SUCCESS => false
  | .FAILURE => true

/-- The dynamic class of a readout segmentation, as seen by `dynamic_cast`. -/
inductive Segmentation where
  | FCCSWGridPhiEta_k4geo
  | FCCSWGridPhiTheta_k4geo
  | MultiSegmentation
  | other
  deriving DecidableEq, Repr

/-- The cast `dynamic_cast<FCCSWGridPhiEta_k4geo*>`; `none` is the null pointer. -/
def Segmentation.castPhiEta (s : Segmentation) : Option Segmentation :=
  if s = .FCCSWGridPhiEta_k4geo then some s else none

/-- The cast `dynamic_cast<FCCSWGridPhiTheta_k4geo*>`. -/
def Segmentation.castPhiTheta (s : Segmentation) : Option Segmentation :=
  if s = .FCCSWGridPhiTheta_k4geo then some s else none

/-- The cast `dynamic_cast<MultiSegmentation*>`. -/
def Segmentation.castMulti (s : Segmentation) : Option Segmentation :=
  if s = .MultiSegmentation then some s else none

/-- One field of a cell identifier description `name:offset:width`; the width
is written negative in the description when the field is signed. -/
structure BitFieldElement where
  name : String
  offset : Nat
  width : Nat
  isSigned : Bool
  deriving DecidableEq, Repr

/-- A readout of the detector description: its segmentation and the fields of
its identifier description (`idSpec()`). -/
structure Readout where
  segmentation : Segmentation
  idSpec : List BitFieldElement
  deriving DecidableEq, Repr

/-- One layer of a `LayeredCalorimeterData` extension. -/
structure Layer (D : Type) where
  distance : D
  sensitive_thickness : D

/-- A detector element; `extension` is its `LayeredCalorimeterData` extension,
`none` when it has none. -/
structure DetElement (D : Type) where
  extension : Option (List (Layer D))

/-- The detector description served by the geometry service, as the components
use it: the map of the readouts and the sub-detector elements, both keyed by
name. -/
structure Detector (D : Type) where
  readouts : List (String × Readout)
  detectors : List (String × DetElement D)

/-- The test `readouts().find(name) == readouts().end()`. -/
def Detector.readoutMissing {D : Type} (det : Detector D) (name : String) : Bool :=
  (det.readouts.lookup name).isNone

/-- Modelled from the spec: the accessor `Detector::readout(name)` of the
geometry library, whose code is not part of the sources. The library throws
when no readout has that name. -/
def Detector.readout {D : Type} (det : Detector D) (name : String) : Except String Readout :=
  match det.readouts.lookup name with
  | some r => .ok r
  | none => .error ("readout not found: " ++ name)

/-- Accessor `Detector::detector(name)`; `none` is an invalid handle. -/
def Detector.detector {D : Type} (det : Detector D) (name : String) : Option (DetElement D) :=
  det.detectors.lookup name

/-- What the host framework hands to `initialize` of an algorithm or tool that
asks for the geometry service: the status of the `initialize` of the base
class and the detector behind `service("GeoSvc")`, `none` when the service is
not found. -/
structure Services (D : Type) where
  baseInitialize : StatusCode
  geoSvc : Option (Detector D)

/-! ## Bit-field decoder of the geometry library

The decoder (`BitField64`, later `BitFieldCoder`) belongs to the geometry
library. Its fields are modelled on 64 bit patterns: a field is read by masking
and shifting, and written after a range check that throws. -/

/-- Conversion of a 64 bit pattern to `long64` (two-complement value). -/
def toInt64 (n : Nat) : Int :=
  if n % 2 ^ 64 < 2 ^ 63 then ((n % 2 ^ 64 : Nat) : Int) else ((n % 2 ^ 64 : Nat) : Int) - 2 ^ 64

/-- Conversion of an integer to the 64 bit pattern of `uint64_t`. -/
def toUInt64 (v : Int) : Nat := (v % 2 ^ 64).toNat

namespace BitFieldElement

/-- Modelled from the spec: the mask `((1 << width) - 1) << offset` of a field
of the bit-field decoder of the geometry library. -/
def mask (f : BitFieldElement) : Nat := (2 ^ f.width - 1) <<< f.offset

/-- Modelled from the spec: the bits of the field, `(id & mask) >> offset`. -/
def rawValue (f : BitFieldElement) (id : Nat) : Nat := (id &&& f.mask) >>> f.offset

/-- Modelled from the spec: the value of the field decoded from the identifier
`id` by the decoder of the geometry library: the bits of the field, for
a signed field read as a two-complement number of `width` bits (the top bit of
the field set means `2 ^ width` is subtracted). -/
def value (f : BitFieldElement) (id : Nat) : Int :=
  if f.isSigned && (f.rawValue id &&& (1 <<< (f.width - 1)) != 0) then
    (f.rawValue id : Int) - 2 ^ f.width
  else toInt64 (f.rawValue id)

/-- Modelled from the spec: the smallest value accepted by an assignment to
the field. -/
def minVal (f : BitFieldElement) : Int :=
  if f.isSigned then 2 ^ (f.width - 1) - 2 ^ f.width else 0

/-- Modelled from the spec: the largest value accepted by an assignment to the
field; the library takes `1 << width` for an unsigned field. -/
def maxVal (f : BitFieldElement) : Int :=
  if f.isSigned then 2 ^ (f.width - 1) - 1 else 2 ^ f.width

/-- Modelled from the spec: the assignment of `v` to the field in the bit
pattern `b` by the decoder of the geometry library: a value out of range throws, otherwise the bits of the field are cleared and replaced by
`(v << offset) & mask`. -/
def set (f : BitFieldElement) (b : Nat) (v : Int) : Except String Nat :=
  if v < f.minVal ∨ v > f.maxVal then .error ("out of range: " ++ f.name)
  else .ok ((b &&& ((2 ^ 64 - 1) ^^^ f.mask)) ||| ((toUInt64 v <<< f.offset) &&& f.mask))

/-- The value `v` fits the width of the field: `0 ≤ v < 2 ^ width` for an
unsigned field, `-2 ^ (width - 1) ≤ v < 2 ^ (width - 1)` for a signed one. -/
def fits (f : BitFieldElement) (v : Int) : Prop :=
  if f.isSigned then -(2 ^ f.width) ≤ 2 * v ∧ 2 * v < 2 ^ f.width else 0 ≤ v ∧ v < 2 ^ f.width

instance (f : BitFieldElement) (v : Int) : Decidable (f.fits v) := by
  unfold fits; infer_instance

/-- The two fields occupy different bits. -/
def disjoint (f g : BitFieldElement) : Prop :=
  f.offset + f.width ≤ g.offset ∨ g.offset + g.width ≤ f.offset

instance (f g : BitFieldElement) : Decidable (f.disjoint g) := by
  unfold disjoint; infer_instance

end BitFieldElement

/-- Modelled from the spec: a decoder `BitField64` of the geometry library: the
fields of the description and the current 64 bit value. -/
structure BitField64 where
  fields : List BitFieldElement
  value : Nat
  deriving DecidableEq, Repr

namespace BitField64

/-- Modelled from the spec: the access `decoder[name]`: the field registered
last under that name; an unknown name throws. -/
def index (d : BitField64) (name : String) : Except String BitFieldElement :=
  match d.fields.reverse.find? (fun f => f.name == name) with
  | some f => .ok f
  | none => .error ("unknown field: " ++ name)

/-- Modelled from the spec: reading `decoder[name]` as a number. -/
def get (d : BitField64) (name : String) : Except String Int :=
  match d.index name with
  | .error e => .error e
  | .ok f => .ok (f.value d.value)

/-- Modelled from the spec: the assignment `decoder[name] = v`. -/
def assign (d : BitField64) (name : String) (v : Int) : Except String BitField64 :=
  match d.index name with
  | .error e => .error e
  | .ok f =>
    match f.set d.value v with
    | .error e => .error e
    | .ok b => .ok { d with value := b }

/-- Modelled from the spec: the method `setValue` of the decoder. -/
def setValue (d : BitField64) (v : Nat) : BitField64 := { d with value := v }

/-- Modelled from the spec: the method `getValue` of the decoder. -/
def getValue (d : BitField64) : Nat := d.value

/-- The names `decoder[i].name()` for `i < decoder.size()`, in decoder order. -/
def fieldNames (d : BitField64) : List String := d.fields.map (fun f => f.name)

/-- A description accepted by the library: every field lies within the 64
bits and fields of different names do not overlap. -/
def wellFormed (fields : List BitFieldElement) : Prop :=
  (∀ a ∈ fields, a.offset + a.width ≤ 64) ∧
  (∀ a ∈ fields, ∀ b ∈ fields, a.name ≠ b.name → a.disjoint b)

instance (fields : List BitFieldElement) : Decidable (wellFormed fields) := by
  unfold wellFormed; infer_instance

/-- The value of the field `name` decoded from the cell identifier `id` with
the decoder of the given fields. -/
def decode (fields : List BitFieldElement) (name : String) (id : Nat) : Except String Int :=
  get { fields := fields, value := id } name

/-- The value `v` fits the width of the field `name` of the description. -/
def fitsWidth (fields : List BitFieldElement) (name : String) (v : Int) : Prop :=
  ∃ f, index { fields := fields, value := 0 } name = .ok f ∧ f.fits v

end BitField64

/-- The decoder `idSpec().decoder()` of a readout, in the interface of the
former geometry library. -/
def Readout.decoder (r : Readout) : BitField64 := { fields := r.idSpec, value := 0 }

/-! ## Conversions of machine integers -/

/-- Conversion of an integer to `unsigned int` (32 bits). -/
def toUInt32 (v : Int) : Nat := (v % 2 ^ 32).toNat

/-- Conversion of an unsigned value to `int` (32 bits, two-complement). -/
def toInt32 (n : Nat) : Int :=
  if n % 2 ^ 32 < 2 ^ 31 then ((n % 2 ^ 32 : Nat) : Int) else ((n % 2 ^ 32 : Nat) : Int) - 2 ^ 32

/-- Conversion of a `long64` to `int` (32 bits, two-complement). -/
def toInt (v : Int) : Int := (v + 2 ^ 31) % 2 ^ 32 - 2 ^ 31

/-! ## MuonCaloHitDigi -/

/-- The members of `edm4hep::SimTrackerHit` read by the digitiser. -/
structure SimTrackerHit (F : Type) where
  cellID : Nat
  eDep : F

/-- The members of `edm4hep::CalorimeterHit` written by the components. -/
structure CalorimeterHit (F P : Type) where
  cellID : Nat
  energy : F
  position : P

/-- The algorithm `MuonCaloHitDigi`: its properties and its data members.
`m_cellsMap` is the `std::unordered_map<uint64_t, double>`, kept as an
association list with one entry per key. -/
structure MuonCaloHitDigi (D : Type) where
  m_barrelDetectorName : String
  m_endcapDetectorName : String
  m_readoutName : String
  m_barrelSysId : Nat
  m_decoder : Option (List BitFieldElement)
  m_segmentation : Option Segmentation
  m_cellsCellIDEncoding : Option (List BitFieldElement)
  m_layerPositions : List (List D)
  m_cellsMap : List (Nat × D)

/-- What `MuonCaloHitDigi::execute` calls on the phi-theta segmentation and in
`cmath`, with the double precision numbers in `D`: the methods `theta` and
`position` of the segmentation, `std::sin`, `std::cos` and the constant
`M_PI`. -/
structure PhiThetaGeometry (D : Type) where
  theta : Nat → D
  position : Nat → D × D × D
  sin : D → D
  cos : D → D
  pi : D

namespace MuonCaloHitDigi

/-- The position of the centre of every layer of one detector:
`distance + sensitive_thickness / 2.`. -/
def layerCentres {D : Type} [Add D] [Div D] [OfNat D 2] (layers : List (Layer D)) : List D :=
  layers.map (fun theLayer => theLayer.distance + theLayer.sensitive_thickness / 2)

/-- The call `m_layerPositions.resize(2)`: the two entries of the resized
vector. -/
def resizeTwo {D : Type} : List (List D) → List D × List D
  | [] => ([], [])
  | [a] => (a, [])
  | a :: b :: _ => (a, b)

/-- Method `MuonCaloHitDigi::initialize`, on the detector `det` behind the
geometry service. The null test of the detector pointer is left out: the
pointer has been used before the test is reached. -/
def initialise {D : Type} [Add D] [Div D] [OfNat D 2] (self : MuonCaloHitDigi D)
    (det : Detector D) : Except String (StatusCode × MuonCaloHitDigi D) :=
  if det.readoutMissing self.m_readoutName then .ok (StatusCode.FAILURE, self)
  else
    match det.readout self.m_readoutName with
    | .error e => .error e
    | .ok readout =>
      match readout.segmentation.castPhiTheta with
      | none => .ok (StatusCode.FAILURE, { self with m_segmentation := none })
      | some seg =>
        let self1 : MuonCaloHitDigi D :=
          { self with
            m_segmentation := some seg
            m_decoder := some readout.idSpec
            m_cellsCellIDEncoding := some readout.idSpec }
        match det.detector self.m_barrelDetectorName with
        | none => .ok (StatusCode.FAILURE, self1)
        | some caloDetElemBarrel =>
          match det.detector self.m_endcapDetectorName with
          | none => .ok (StatusCode.FAILURE, self1)
          | some caloDetElemEndcap =>
            match caloDetElemBarrel.extension, caloDetElemEndcap.extension with
            | some barrelLayers, some endcapLayers =>
              let resized := resizeTwo self1.m_layerPositions
              .ok (StatusCode.SUCCESS,
                { self1 with
                  m_layerPositions :=
                    [resized.1 ++ layerCentres barrelLayers,
                      resized.2 ++ layerCentres endcapLayers] })
            | _, _ => .ok (StatusCode.FAILURE, self1)

/-- The statement `m_cellsMap[cellID] += eDep`: `operator[]` inserts a zero
for a key that is not yet in the map, then the deposit is added. -/
def cellsMapAdd {D : Type} [Add D] [Zero D] : List (Nat × D) → Nat → D → List (Nat × D)
  | [], c, e => [(c, 0 + e)]
  | (k, v) :: rest, c, e =>
    if k = c then (k, v + e) :: rest else (k, v) :: cellsMapAdd rest c e

/-- The first loop of `execute`: every input hit is added to the map, in
input order; `widen` is the conversion of the deposit from `float` to `double`. -/
def fillCellsMap {F D : Type} [Add D] [Zero D] (widen : F → D) :
    List (Nat × D) → List (SimTrackerHit F) → List (Nat × D)
  | m, [] => m
  | m, h :: rest => fillCellsMap widen (cellsMapAdd m h.cellID (widen h.eDep)) rest

/-- The energy summed for cell `c`: the deposits of the input hits of that
cell, added in input order to the zero the map entry starts from. -/
def summedEDep {F D : Type} [Add D] [Zero D] (widen : F → D)
    (input_sim_hits : List (SimTrackerHit F)) (c : Nat) : D :=
  ((input_sim_hits.filter (fun h => h.cellID = c)).map (fun h => widen h.eDep)).foldl
    (fun acc e => acc + e) 0

/-- The access `m_layerPositions[iDet][layer]`, the `int` index `layer` being
converted to an unsigned index: a negative index is out of the vector. -/
def layerPosition {D : Type} (self : MuonCaloHitDigi D) (iDet : Nat) (layer : Int) :
    Except String D :=
  match self.m_layerPositions[iDet]? with
  | none => .error "index out of range"
  | some positions =>
    if layer < 0 then .error "index out of range"
    else
      match positions[layer.toNat]? with
      | none => .error "index out of range"
      | some position => .ok position

/-- The variable `radius` of the body of the second loop of `execute`: the
position of the layer for the barrel, whose system identifier is compared with
`m_barrelSysId` as an unsigned number, and for every other system the
position of the layer of the endcap times `sin(theta) / cos(theta)`, `theta`
being replaced by `M_PI - theta` above `M_PI / 2`. -/
def radius {D : Type} [LT D] [DecidableRel (fun a b : D => a < b)] [Mul D] [Div D] [Sub D]
    [OfNat D 2] (self : MuonCaloHitDigi D)
    (geo : PhiThetaGeometry D) (cellID : Nat) (systemId layer : Int) : Except String D :=
  if toUInt32 systemId = self.m_barrelSysId then layerPosition self 0 layer
  else
    match self.m_segmentation with
    | none => .error "null segmentation"
    | some _ =>
      let theta := geo.theta cellID
      let theta1 := if theta > geo.pi / 2 then geo.pi - theta else theta
      match layerPosition self 1 layer with
      | .error e => .error e
      | .ok position => .ok (geo.sin theta1 / geo.cos theta1 * position)

/-- The position given to the output hit of the cell `cellID` by the body of
the second loop of `execute`; `narrow` is the conversion to the single
precision of `edm4hep::Vector3f`. -/
def hitPosition {F D : Type} [LT D] [DecidableRel (fun a b : D => a < b)] [Mul D] [Div D]
    [Sub D] [OfNat D 2] (self : MuonCaloHitDigi D) (geo : PhiThetaGeometry D) (narrow : D → F) (cellID : Nat) : Except String (F × F × F) :=
  match self.m_decoder with
  | none => .error "null decoder"
  | some fields =>
    match BitField64.decode fields "system" cellID with
    | .error e => .error e
    | .ok systemValue =>
      let systemId := toInt systemValue
      match BitField64.decode fields "layer" cellID with
      | .error e => .error e
      | .ok layerValue =>
        let layer := toInt layerValue
        match radius self geo cellID systemId layer with
        | .error e => .error e
        | .ok radius =>
          match self.m_segmentation with
          | none => .error "null segmentation"
          | some _ =>
            let localPos := geo.position cellID
            .ok (narrow (localPos.1 * radius), narrow (localPos.2.1 * radius),
              narrow (localPos.2.2 * radius))

/-- The second loop of `execute`: one output hit per entry of the map, in the
order of the traversal, with the cell identifier, the summed energy narrowed
by `setEnergy` and the position. -/
def createCells {F D : Type} [LT D] [DecidableRel (fun a b : D => a < b)] [Mul D] [Div D]
    [Sub D] [OfNat D 2] (self : MuonCaloHitDigi D) (geo : PhiThetaGeometry D) (narrow : D → F) :
    List (Nat × D) → Except String (List (CalorimeterHit F (F × F × F)))
  | [] => .ok []
  | cell :: rest =>
    match hitPosition self geo narrow cell.1 with
    | .error e => .error e
    | .ok position =>
      match createCells self geo narrow rest with
      | .error e => .error e
      | .ok hits => .ok ({ cellID := cell.1, energy := narrow cell.2, position := position } :: hits)

/-- Method `MuonCaloHitDigi::execute`, on the segmentation and the functions
of `geo`. The map is cleared, filled from the input collection and one output
hit is created per map entry. The order in which an `unordered_map` is
traversed is unspecified: `iter` gives the traversal order of a map. An
access out of a vector or through a null pointer is an error, as an exception
of the decoder is. The result is the status code, the output collection and
the algorithm with its updated `m_cellsMap`. -/
def execute {F D : Type} [LT D] [DecidableRel (fun a b : D => a < b)] [Add D]
    [Zero D] [Mul D] [Div D] [Sub D] [OfNat D 2] (widen : F → D) (narrow : D → F)
    (geo : PhiThetaGeometry D) (iter : List (Nat × D) → List (Nat × D))
    (self : MuonCaloHitDigi D) (input_sim_hits : List (SimTrackerHit F)) :
    Except String (StatusCode × List (CalorimeterHit F (F × F × F)) × MuonCaloHitDigi D) :=
  let cleared : List (Nat × D) := []
  let cells := fillCellsMap widen cleared input_sim_hits
  match createCells self geo narrow (iter cells) with
  | .error e => .error e
  | .ok output_digi_hits =>
    .ok (StatusCode.SUCCESS, output_digi_hits, { self with m_cellsMap := cells })

/-- The factor `rho` of the position of a hit as the specification words it,
for the system `s`, the cell `cellID` and its layer `theLayer`: the centre of
the layer for the barrel, and otherwise the centre of the layer times the
tangent of `theta'`, which is `theta` up to `pi / 2` and `pi - theta` above. -/
def describedRho {D : Type} [LE D] [DecidableRel (fun a b : D => a ≤ b)] [Add D] [Mul D] [Div D]
    [Sub D] [OfNat D 2] (geo : PhiThetaGeometry D) (barrelSysId s : Nat) (cellID : Nat)
    (theLayer : Layer D) : D :=
  let centre := theLayer.distance + theLayer.sensitive_thickness / 2
  if s = barrelSysId then centre
  else
    let theta := geo.theta cellID
    let theta1 := if theta ≤ geo.pi / 2 then theta else geo.pi - theta
    geo.sin theta1 / geo.cos theta1 * centre

end MuonCaloHitDigi

/-! ## RewriteHCalBarrelBitfield -/

/-- The members of `fcc::CaloHit` set by the algorithm. -/
structure CaloHit (F : Type) where
  cellId : Nat
  energy : F
  time : F
  deriving DecidableEq, Repr

/-- The algorithm `RewriteHCalBarrelBitfield`: the properties and the data
members that `initialize` and `execute` use (the header of the class is not
part of the sources). The two readouts are taken to be different, so
that their decoders are two objects, each with its own current value, which
stays between hits and between events. -/
structure RewriteHCalBarrelBitfield (D : Type) where
  m_oldReadoutName : String
  m_newReadoutName : String
  m_oldIdentifiers : List String
  m_debugPrint : Nat
  m_detectorIdentifiers : List String
  m_geoSvc : Option (Detector D)
  m_oldDecoder : Option BitField64
  m_newDecoder : Option BitField64
  m_segmentation : Option Segmentation

namespace RewriteHCalBarrelBitfield

/-- The loop of `initialize` over the fields of the old decoder: a field that
`std::find` does not find among the identifiers to remove is pushed to the
detector identifiers. -/
def collectDetectorIdentifiers (m_oldIdentifiers : List String) :
    List String → List String → List String
  | m_detectorIdentifiers, [] => m_detectorIdentifiers
  | m_detectorIdentifiers, field :: rest =>
    if field ∈ m_oldIdentifiers then
      collectDetectorIdentifiers m_oldIdentifiers m_detectorIdentifiers rest
    else collectDetectorIdentifiers m_oldIdentifiers (m_detectorIdentifiers ++ [field]) rest

/-- The loop of `initialize` over the detector identifiers: `true` when it
meets an identifier that is not among the fields of the new decoder. -/
def missingInNewFields (newFields : List String) : List String → Bool
  | [] => false
  | detectorField :: rest =>
    if detectorField ∈ newFields then missingInNewFields newFields rest else true

/-- Method `RewriteHCalBarrelBitfield::initialize`. The result is the status
code and the algorithm with its updated members. -/
def initialise {D : Type} (self : RewriteHCalBarrelBitfield D) (svc : Services D) :
    Except String (StatusCode × RewriteHCalBarrelBitfield D) :=
  if svc.baseInitialize.isFailure then .ok (StatusCode.FAILURE, self)
  else
    match svc.geoSvc with
    | none => .ok (StatusCode.FAILURE, { self with m_geoSvc := none })
    | some det =>
      let self1 : RewriteHCalBarrelBitfield D := { self with m_geoSvc := some det }
      if det.readoutMissing self.m_oldReadoutName then .ok (StatusCode.FAILURE, self1)
      else if det.readoutMissing self.m_newReadoutName then .ok (StatusCode.FAILURE, self1)
      else
        match det.readout self.m_oldReadoutName with
        | .error e => .error e
        | .ok oldReadout =>
          let oldDecoder := oldReadout.decoder
          let identifiers := collectDetectorIdentifiers self.m_oldIdentifiers
            self.m_detectorIdentifiers oldDecoder.fieldNames
          match det.readout self.m_newReadoutName with
          | .error e => .error e
          | .ok newReadout =>
            let newDecoder := newReadout.decoder
            let self2 : RewriteHCalBarrelBitfield D :=
              { self1 with
                m_oldDecoder := some oldDecoder
                m_detectorIdentifiers := identifiers
                m_newDecoder := some newDecoder }
            if missingInNewFields newDecoder.fieldNames identifiers then
              .ok (StatusCode.FAILURE, self2)
            else .ok (StatusCode.SUCCESS, self2)

/-- The constant `uint offsetPhiIds = 3*256/4.+1`. -/
def offsetPhiIds : Nat := 3 * 256 / 4 + 1

/-- The statement `uint newModuleId = abs(phiId - offsetPhiIds)`: the
difference is a `long64`, its absolute value is narrowed to 32 bits. -/
def newModuleId (phiId : Int) : Nat :=
  (toInt64 (toUInt64 (phiId - (offsetPhiIds : Int)))).natAbs % 2 ^ 32

/-- The body of the loop of `execute` over the detector identifiers, for one
identifier: the value of the field in the old decoder is assigned to the field
of the new decoder, then assigned again, or replaced by the new module number
when the field is `module`. The result is the new decoder. -/
def rewriteField (oldDecoder newDecoder : BitField64) (detectorField : String) :
    Except String BitField64 :=
  match oldDecoder.get detectorField with
  | .error e => .error e
  | .ok oldval =>
    let oldid : Nat := toUInt64 oldval
    match newDecoder.assign detectorField (toInt64 oldid) with
    | .error e => .error e
    | .ok newDecoder1 =>
      if detectorField = "module" then
        match oldDecoder.get "phi" with
        | .error e => .error e
        | .ok phiId => newDecoder1.assign detectorField (newModuleId phiId : Nat)
      else newDecoder1.assign detectorField (toInt64 oldid)

/-- The loop of `execute` over the detector identifiers. -/
def rewriteFields (oldDecoder : BitField64) : BitField64 → List String → Except String BitField64
  | newDecoder, [] => .ok newDecoder
  | newDecoder, detectorField :: rest =>
    match rewriteField oldDecoder newDecoder detectorField with
    | .error e => .error e
    | .ok newDecoder1 => rewriteFields oldDecoder newDecoder1 rest

/-- The loop of `execute` over the input hits. For every hit a new hit is
created with the energy and the time of the input hit, the old decoder is set
to the cell identifier of the hit, `phi` is asked from the segmentation (a
null `m_segmentation` is dereferenced there), the detector identifiers are
rewritten and the value of the new decoder becomes the cell identifier of the
new hit. The result is the output collection and the two decoders. -/
def rewriteHits {F : Type} (m_detectorIdentifiers : List String)
    (m_segmentation : Option Segmentation) :
    BitField64 → BitField64 → List (CaloHit F) →
      Except String (List (CaloHit F) × BitField64 × BitField64)
  | oldDecoder, newDecoder, [] => .ok ([], oldDecoder, newDecoder)
  | oldDecoder, newDecoder, hit :: rest =>
    let oldDecoder1 := oldDecoder.setValue hit.cellId
    match m_segmentation with
    | none => .error "null segmentation"
    | some _ =>
      match rewriteFields oldDecoder1 newDecoder m_detectorIdentifiers with
      | .error e => .error e
      | .ok newDecoder1 =>
        let newHit : CaloHit F :=
          { cellId := newDecoder1.getValue, energy := hit.energy, time := hit.time }
        match rewriteHits m_detectorIdentifiers m_segmentation oldDecoder1 newDecoder1 rest with
        | .error e => .error e
        | .ok (outHits, oldDecoder2, newDecoder2) =>
          .ok (newHit :: outHits, oldDecoder2, newDecoder2)

/-- Method `RewriteHCalBarrelBitfield::execute`. The result is the status
code, the output collection and the algorithm with its updated members. The
decoders are only used inside the loop over the hits. -/
def execute {D F : Type} (self : RewriteHCalBarrelBitfield D) (inHits : List (CaloHit F)) :
    Except String (StatusCode × List (CaloHit F) × RewriteHCalBarrelBitfield D) :=
  match self.m_geoSvc with
  | none => .error "null geometry service"
  | some det =>
    match det.readout self.m_oldReadoutName with
    | .error e => .error e
    | .ok oldReadout =>
      let segmentation := oldReadout.segmentation.castPhiEta
      match inHits with
      | [] => .ok (StatusCode.SUCCESS, [], { self with m_segmentation := segmentation })
      | _ :: _ =>
        match self.m_oldDecoder, self.m_newDecoder with
        | some oldDecoder, some newDecoder =>
          match rewriteHits self.m_detectorIdentifiers segmentation oldDecoder newDecoder
              inHits with
          | .error e => .error e
          | .ok (outHits, oldDecoder1, newDecoder1) =>
            .ok (StatusCode.SUCCESS, outHits,
              { self with
                m_segmentation := segmentation
                m_oldDecoder := some oldDecoder1
                m_newDecoder := some newDecoder1 })
        | _, _ => .error "null decoder"

end RewriteHCalBarrelBitfield

/-! ## CellPositionsCaloDiscsTool -/

/-- The tool `CellPositionsCaloDiscsTool`: its property and the data members
set from the readout. -/
structure CellPositionsCaloDiscsTool (D : Type) where
  m_readoutName : String
  m_geoSvc : Option (Detector D)
  m_segmentation : Option Segmentation
  m_decoder : Option (List BitFieldElement)

namespace CellPositionsCaloDiscsTool

/-- Method `CellPositionsCaloDiscsTool::initialize`. The readout is asked
from the detector without a test that it exists. The search for the field
`layer` at the end only reports an error; the status returned is the one of
the base class. -/
def initialise {D : Type} (self : CellPositionsCaloDiscsTool D) (svc : Services D) :
    Except String (StatusCode × CellPositionsCaloDiscsTool D) :=
  let sc := svc.baseInitialize
  if sc.isFailure then .ok (sc, self)
  else
    match svc.geoSvc with
    | none => .ok (StatusCode.FAILURE, { self with m_geoSvc := none })
    | some det =>
      let self1 : CellPositionsCaloDiscsTool D := { self with m_geoSvc := some det }
      match det.readout self.m_readoutName with
      | .error e => .error e
      | .ok readout =>
        match readout.segmentation.castPhiEta with
        | none => .ok (StatusCode.FAILURE, { self1 with m_segmentation := none })
        | some seg =>
          .ok (sc, { self1 with m_segmentation := some seg, m_decoder := some readout.idSpec })

end CellPositionsCaloDiscsTool


/-- Modelled from the spec: the call `decoder->set(id, name, v)` of the
decoder `BitFieldCoder` of the geometry library: the field `name` of the bit
pattern `id` is assigned `v`; an unknown name and a value out of range throw. -/
def BitField64.setField (fields : List BitFieldElement) (id : Nat) (name : String) (v : Int) :
    Except String Nat :=
  match BitField64.assign { fields := fields, value := id } name v with
  | .error e => .error e
  | .ok d => .ok d.value

/-- The geometry reached from `CellPositionsCaloDiscsTool` through the volume
manager `m_volman` and the segmentation `m_segmentation`, with the numbers of
the geometry library in `G`: `originOfVolume id` is the global position of the
local origin of the detector element found by `lookupDetElement(id)`
(`nominal().worldTransformation().LocalToMaster` of `{0, 0, 0}`), an exception
of the lookup being an error; `position` and `eta` are the methods of the
segmentation; `sinh` is `std::sinh` and `mm` the unit `dd4hep::mm`. -/
structure DiscsGeometry (G : Type) where
  originOfVolume : Nat → Except String (G × G × G)
  position : Nat → G × G × G
  eta : Nat → G
  sinh : G → G
  mm : G

namespace CellPositionsCaloDiscsTool

/-- Method `CellPositionsCaloDiscsTool::xyzPosition`. The copy `volumeId` of
the cell identifier gets its fields `phi` and `eta` set to 0 and is looked up
in the volume manager; the segmentation is asked with the cell identifier
itself. A null decoder or segmentation is an error. -/
def xyzPosition {D G : Type} [Mul G] [Div G] (self : CellPositionsCaloDiscsTool D)
    (geo : DiscsGeometry G) (aCellId : Nat) : Except String (G × G × G) :=
  match self.m_decoder with
  | none => .error "null decoder"
  | some fields =>
    match BitField64.setField fields aCellId "phi" 0 with
    | .error e => .error e
    | .ok volumeId1 =>
      match BitField64.setField fields volumeId1 "eta" 0 with
      | .error e => .error e
      | .ok volumeId =>
        match geo.originOfVolume volumeId with
        | .error e => .error e
        | .ok outGlobal =>
          match self.m_segmentation with
          | none => .error "null segmentation"
          | some _ =>
            let inSeg := geo.position aCellId
            let eta := geo.eta aCellId
            let radius := outGlobal.2.2 / geo.sinh eta
            .ok (inSeg.1 * radius, inSeg.2.1 * radius, outGlobal.2.2)

/-- Method `CellPositionsCaloDiscsTool::getPositions`: the loop over the cells
of `aCells`, the output collection so far being `outputColl`. `narrow` is the
conversion of a double precision number to the single precision of
`edm4hep::Vector3f`; `clone` copies the members of the cell. -/
def getPositions {D G F : Type} [Mul G] [Div G] (self : CellPositionsCaloDiscsTool D)
    (geo : DiscsGeometry G) (narrow : G → F) :
    List (CalorimeterHit F (F × F × F)) → List (CalorimeterHit F (F × F × F)) →
      Except String (List (CalorimeterHit F (F × F × F)))
  | [], outputColl => .ok outputColl
  | cell :: rest, outputColl =>
    match xyzPosition self geo cell.cellID with
    | .error e => .error e
    | .ok outPos =>
      let edmPos : F × F × F :=
        (narrow (outPos.1 / geo.mm), narrow (outPos.2.1 / geo.mm), narrow (outPos.2.2 / geo.mm))
      let positionedHit : CalorimeterHit F (F × F × F) := { cell with position := edmPos }
      getPositions self geo narrow rest (outputColl ++ [positionedHit])

/-- Method `CellPositionsCaloDiscsTool::layerId`; the value of the field is
converted to `int`. -/
def layerId {D : Type} (self : CellPositionsCaloDiscsTool D) (aCellId : Nat) :
    Except String Int :=
  match self.m_decoder with
  | none => .error "null decoder"
  | some fields =>
    match BitField64.decode fields "layer" aCellId with
    | .error e => .error e
    | .ok v => .ok ((v + 2 ^ 31) % 2 ^ 32 - 2 ^ 31)

end CellPositionsCaloDiscsTool
/-! ## MassInv -/

/-- The part of a ROOT histogram `TH1F` read by `MassInv`. -/
structure TH1F (D : Type) where
  nbinsX : Int
  binLowEdge : Int → D
  binWidth : Int → D
  binContent : Int → D

/-- A ROOT file opened for reading: `get` is `TFile::Get` followed by the
cast to `TH1F*`, `none` being the null pointer. -/
structure TFile (D : Type) where
  isZombie : Bool
  get : String → Option (TH1F D)

/-- The services used by `MassInv::initialize`. `regHist` is the status of the
registration of a histogram under a path; `accessPathName` is the ROOT call of
that name, which returns `true` when the path can not be accessed; `openFile`
is `TFile::Open`, `none` being the null pointer; `towerTool` is `none` when the
tool can not be retrieved and the numbers of towers in eta and phi otherwise. -/
structure MassInvServices (D : Type) where
  baseInitialize : StatusCode
  regHist : String → StatusCode
  detector : Detector D
  randSvc : Bool
  gaussInitialize : StatusCode
  accessPathName : String → Bool
  openFile : String → Option (TFile D)
  towerTool : Option (Nat × Nat)

/-- The algorithm `MassInv`: the properties read by `initialize` and by
`execute` and the data members set by `initialize`, with the element types the
code uses the members with (the header of the class is not part of the
sources): the sizes of windows are unsigned, `m_mu` is the value of
`static_cast<int>(m_mu)`. -/
structure MassInv (D : Type) where
  m_numLayers : Nat
  m_etaRecalcLayerWeights : List D
  m_systemId : List Nat
  m_readoutName : List String
  m_noiseFileName : String
  m_pileupHistoName : String
  m_etaValues : List D
  m_presamplerShiftP0 : List D
  m_presamplerShiftP1 : List D
  m_presamplerScaleP0 : List D
  m_presamplerScaleP1 : List D
  m_nEtaFinal : List Nat
  m_nPhiFinal : List Nat
  m_segmentationPhiEta : List (Nat × Option Segmentation)
  m_segmentationMulti : List (Nat × Option Segmentation)
  m_decoder : List (Nat × List BitFieldElement)
  m_histoPileupConst : List (TH1F D)
  m_etaBorders : List D
  m_halfPhiFin : List Nat
  m_halfEtaFin : List Nat
  m_nEtaTower : Nat
  m_nPhiTower : Nat
  m_ellipseFinalCluster : Bool
  m_layerFieldName : String
  m_firstLayerId : Nat
  m_samplingFraction : List D
  m_constPileupNoise : D
  m_mu : Int
  m_dEta : D
  m_response : D
  m_energyAsThreshold : Bool
  m_massInvThreshold : D
  m_massInvCorrection : D
  m_etaSizes : List Nat
  m_phiSizes : List Nat
  m_hcalEnergyThreshold : D

namespace MassInv

/-- The histograms registered before the histograms of the layers. -/
def histogramsFirst : List String :=
  ["/rec/energyPreAnyCorrections", "/rec/energyPostAllCorrections",
   "/rec/energyPostAllCorrectionsAndScaling", "/rec/pileupCorrectionEnergy",
   "/rec/upstreamCorrectionEnergy", "/rec/diffEta"]

/-- The two histograms registered for every layer, by increasing layer. -/
def histogramsLayers : Nat → List String
  | 0 => []
  | n + 1 =>
    histogramsLayers n ++
      ["/rec/diffEta_layer" ++ toString n, "/rec/diffEtaHit_layer" ++ toString n]

/-- The histograms registered after the histograms of the layers. -/
def histogramsLast : List String :=
  ["/rec/eta", "/rec/diffPhi", "/rec/phi", "/rec/diffTheta", "/rec/diffTheta2point",
   "/rec/diffZ", "/rec/numCells", "/rec/diPT", "/rec/diPTScaled", "/rec/massInv",
   "/rec/massInvScaled", "/rec/massInvScaled100", "/rec/massInvScaled200",
   "/rec/massInvScaled300",
   "/rec/massInvScaledIsolated", "/rec/massInvScaledIsolated100",
   "/rec/massInvScaledIsolated200", "/rec/massInvScaledIsolated300",
   "/rec/massInvScaledIsolated2", "/rec/massInvScaledIsolated2100",
   "/rec/massInvScaledIsolated2200", "/rec/massInvScaledIsolated2300",
   "/rec/massInvScaledIsolated3", "/rec/massInvScaledIsolated3100",
   "/rec/massInvScaledIsolated3200", "/rec/massInvScaledIsolated3300",
   "/rec/massInvScaledIsolated4", "/rec/massInvScaledIsolated4100",
   "/rec/massInvScaledIsolated4200", "/rec/massInvScaledIsolated4300",
   "/rec/massInvScaledIsolated5", "/rec/massInvScaledIsolated5100",
   "/rec/massInvScaledIsolated5200", "/rec/massInvScaledIsolated5300",
   "/rec/massInPtScaled", "/rec/energyHCal", "/rec/energyTotalHCal"]

/-- The registrations of the histograms, in the order of `initialize`:
`FAILURE` at the first registration that fails. -/
def registerHistograms (regHist : String → StatusCode) : List String → StatusCode
  | [] => StatusCode.SUCCESS
  | path :: rest =>
    if (regHist path).isFailure then StatusCode.FAILURE else registerHistograms regHist rest

/-- The assignment `map[key] = value` of a `std::map`. -/
def mapAssign {V : Type} : List (Nat × V) → Nat → V → List (Nat × V)
  | [], key, v => [(key, v)]
  | (k, w) :: rest, key, v =>
    if k = key then (k, v) :: rest else (k, w) :: mapAssign rest key v

/-- The call `map.insert(std::make_pair(key, value))`, which keeps the entry
of a key that is already in the map. -/
def mapInsert {V : Type} : List (Nat × V) → Nat → V → List (Nat × V)
  | [], key, v => [(key, v)]
  | (k, w) :: rest, key, v =>
    if k = key then (k, w) :: rest else (k, w) :: mapInsert rest key v

/-- The loop of `initialize` over the systems: `m_systemId[iSys]` and
`m_readoutName[iSys]` are walked together from `iSys = 0`; a readout name
missing for a system is an access out of the vector. -/
def initSystems {D : Type} (det : Detector D) :
    MassInv D → List Nat → List String → Except String (StatusCode × MassInv D)
  | self, [], _ => .ok (StatusCode.SUCCESS, self)
  | _, _ :: _, [] => .error "m_readoutName: index out of range"
  | self, systemId :: restIds, readoutName :: restNames =>
    if det.readoutMissing readoutName then .ok (StatusCode.FAILURE, self)
    else
      match det.readout readoutName with
      | .error e => .error e
      | .ok readout =>
        let phiEta := readout.segmentation.castPhiEta
        let multi := readout.segmentation.castMulti
        let self1 : MassInv D :=
          { self with
            m_segmentationPhiEta := mapAssign self.m_segmentationPhiEta systemId phiEta
            m_segmentationMulti := mapAssign self.m_segmentationMulti systemId multi }
        if phiEta.isNone && multi.isNone then .ok (StatusCode.FAILURE, self1)
        else
          initSystems det
            { self1 with m_decoder := mapInsert self1.m_decoder systemId readout.idSpec }
            restIds restNames

/-- The loop of `initNoiseFromFile` over the two histograms of the pile-up
parameters, for the indices `i` still to do: the histogram `i` of the file is
pushed to `m_histoPileupConst`, then the number of bins of the entry
`m_histoPileupConst.at(i)` is tested. -/
def readPileupHistograms {D : Type} (m_pileupHistoName : String) (inFile : TFile D) :
    List (TH1F D) → List Nat → Except String (StatusCode × List (TH1F D))
  | histos, [] => .ok (StatusCode.SUCCESS, histos)
  | histos, i :: rest =>
    match inFile.get (m_pileupHistoName ++ toString i) with
    | none => .error "null histogram"
    | some histo =>
      match (histos ++ [histo])[i]? with
      | none => .error "m_histoPileupConst: index out of range"
      | some entry =>
        if entry.nbinsX < 1 then .ok (StatusCode.FAILURE, histos ++ [histo])
        else readPileupHistograms m_pileupHistoName inFile (histos ++ [histo]) rest

/-- Method `MassInv::initNoiseFromFile`. -/
def initNoiseFromFile {D : Type} (self : MassInv D) (svc : MassInvServices D) :
    Except String (StatusCode × MassInv D) :=
  if self.m_noiseFileName.isEmpty then .ok (StatusCode.FAILURE, self)
  else if svc.accessPathName self.m_noiseFileName then .ok (StatusCode.FAILURE, self)
  else
    match svc.openFile self.m_noiseFileName with
    | none => .error "null file"
    | some inFile =>
      if inFile.isZombie then .ok (StatusCode.FAILURE, self)
      else
        match readPileupHistograms self.m_pileupHistoName inFile self.m_histoPileupConst
            [0, 1] with
        | .error e => .error e
        | .ok (StatusCode.FAILURE, histos) =>
          .ok (StatusCode.FAILURE, { self with m_histoPileupConst := histos })
        | .ok (StatusCode.SUCCESS, histos) =>
          if histos.length = 0 then
            .ok (StatusCode.FAILURE, { self with m_histoPileupConst := histos })
          else .ok (StatusCode.SUCCESS, { self with m_histoPileupConst := histos })

/-- The borders pushed by the loop over `iEta` from 1: the middle between two
consecutive eta values. -/
def middleBorders {D : Type} [Field D] : List D → List D
  | a :: b :: rest => (a + (1 / 2) * (b - a)) :: middleBorders (b :: rest)
  | _ => []

/-- The border pushed for the last eta bin: as wide as the last one, or 100
when there are less than two eta values. -/
def lastBorder {D : Type} [Field D] (etaValues : List D) : D :=
  match etaValues.reverse with
  | last :: beforeLast :: _ => last + (1 / 2) * (last - beforeLast)
  | _ => 100

/-- Method `MassInv::initialize`. The booking of a histogram (its name, title
and binning) has no effect on the status and is left out; only its
registration is kept. A failure of the initialisation of the Gaussian
generator (`gaussInitialize`) is only reported. -/
def initialise {D : Type} [Field D] (self : MassInv D) (svc : MassInvServices D) :
    Except String (StatusCode × MassInv D) :=
  let sc := svc.baseInitialize
  if sc.isFailure then .ok (sc, self)
  else if (registerHistograms svc.regHist
      (histogramsFirst ++ histogramsLayers self.m_numLayers ++ histogramsLast)).isFailure then
    .ok (StatusCode.FAILURE, self)
  else if self.m_etaRecalcLayerWeights.length < self.m_numLayers then
    .ok (StatusCode.FAILURE, self)
  else
    match initSystems svc.detector self self.m_systemId self.m_readoutName with
    | .error e => .error e
    | .ok (StatusCode.FAILURE, self1) => .ok (StatusCode.FAILURE, self1)
    | .ok (StatusCode.SUCCESS, self1) =>
      if !svc.randSvc then .ok (StatusCode.FAILURE, self1)
      else
        match initNoiseFromFile self1 svc with
        | .error e => .error e
        | .ok (StatusCode.FAILURE, self2) => .ok (StatusCode.FAILURE, self2)
        | .ok (StatusCode.SUCCESS, self2) =>
          if self2.m_etaValues.length ≠ self2.m_presamplerShiftP0.length ∧
              self2.m_etaValues.length ≠ self2.m_presamplerShiftP1.length ∧
              self2.m_etaValues.length ≠ self2.m_presamplerScaleP0.length ∧
              self2.m_etaValues.length ≠ self2.m_presamplerScaleP1.length then
            .ok (StatusCode.FAILURE, self2)
          else
            let self3 : MassInv D :=
              { self2 with
                m_etaBorders :=
                  self2.m_etaBorders ++ middleBorders self2.m_etaValues ++
                    [lastBorder self2.m_etaValues] }
            if ¬ (self3.m_nEtaFinal.length = self3.m_numLayers ∧
                self3.m_nPhiFinal.length = self3.m_numLayers) then
              .ok (StatusCode.FAILURE, self3)
            else
              let self4 : MassInv D :=
                { self3 with
                  m_halfPhiFin :=
                    self3.m_halfPhiFin ++ (self3.m_nPhiFinal.take self3.m_numLayers).map
                      (fun n => n / 2)
                  m_halfEtaFin :=
                    self3.m_halfEtaFin ++ (self3.m_nEtaFinal.take self3.m_numLayers).map
                      (fun n => n / 2) }
              match svc.towerTool with
              | none => .ok (StatusCode.FAILURE, self4)
              | some (nEta, nPhi) =>
                .ok (StatusCode.SUCCESS, { self4 with m_nEtaTower := nEta, m_nPhiTower := nPhi })

end MassInv


/-! ## `MassInv::execute`

Single and double precision numbers are the elements of one linearly ordered
field `D` with a floor function (exact arithmetic); the functions of `cmath`
and of ROOT are parameters. A histogram is known by the name of its data
member, and `execute` returns the list of the calls of `Fill` in program
order. An access out of a vector is an error, as a null pointer is, and so
is the division of `newEta` by an energy 0, whose result is not a number of
the field. -/

/-- The conversion to `int` of a `double` that holds the integer `v`. Out of
the range of `int` the language leaves the result open; the conversion
instruction of the machine gives `INT_MIN`. -/
def doubleToInt (v : Int) : Int :=
  if -2 ^ 31 ≤ v ∧ v < 2 ^ 31 then v else -2 ^ 31

/-- The members of `edm4hep::Cluster` used by `MassInv`. -/
structure Cluster (D : Type) where
  energy : D
  position : D × D × D
  hits : List (CalorimeterHit D (D × D × D))

/-- The methods of a segmentation `FCCSWGridPhiEta_k4geo` called by `MassInv`. -/
structure GridPhiEta (D : Type) where
  gridSizeEta : D
  offsetEta : D
  gridSizePhi : D
  offsetPhi : D
  phiBins : Int
  eta : Nat → D

/-- What `MassInv::execute` calls outside of the class, with the four-vectors
`TLorentzVector` in `V`: the functions of `cmath`; `Eta`, `Phi` and `Perp` of a
`TVector3` given by its coordinates; `SetPtEtaPhiE`, `+`, `!=`, `Mag`, `Pt`,
`Eta`, `Phi` of a `TLorentzVector`; `std::sort` on a vector, which is given the comparator of
the call; the segmentation object behind the pointer
`m_segmentationPhiEta[systemId]`; the result of the cast of
`m_segmentationMulti[systemId]->subsegmentation(cellID)` to a phi-eta grid,
`none` being the null pointer; `buildTowers`, `idEta` and `idPhi` of the tower
tool. -/
structure MassInvTools (D V : Type) where
  log : D → D
  sqrt : D → D
  sinh : D → D
  cosh : D → D
  cos : D → D
  sin : D → D
  atan : D → D
  exp : D → D
  pow : D → D → D
  vecEta : D × D × D → D
  vecPhi : D × D × D → D
  vecPerp : D × D × D → D
  setPtEtaPhiE : D → D → D → D → V
  lvAdd : V → V → V
  lvNe : V → V → Bool
  lvMag : V → D
  lvPt : V → D
  lvEta : V → D
  lvPhi : V → D
  stdSort : (V → V → Bool) → List V → List V
  phiEtaGrid : Nat → GridPhiEta D
  subsegmentation : Nat → Nat → Option (GridPhiEta D)
  buildTowers : List (List D) → List (List D)
  idEta : D → Nat
  idPhi : D → Nat

/-- One call `histogram->Fill(values)`. -/
abbrev Fill (D : Type) : Type := String × List D

namespace MassInv

/-- The access `v[i]` to a vector; out of the vector it is an error. -/
def elemAt {α : Type} (v : List α) (i : Nat) : Except String α :=
  match v[i]? with
  | some x => .ok x
  | none => .error "index out of range"

/-- The pointer `map[key]` of a map of pointers: the null pointer for a key
without entry. -/
def pointerAt {α : Type} (m : List (Nat × Option α)) (key : Nat) : Option α :=
  (m.lookup key).join

/-- The decoder `m_decoder[systemId]`, dereferenced. -/
def decoderAt {D : Type} (self : MassInv D) (systemId : Nat) :
    Except String (List BitFieldElement) :=
  match self.m_decoder.lookup systemId with
  | some fields => .ok fields
  | none => .error "null decoder"

/-- Method `MassInv::phiNeighbour`; the result is converted to `unsigned int`.
`Int.tmod` is the remainder `%` of C++. -/
def phiNeighbour (aIPhi aMaxPhi : Int) : Nat :=
  if aIPhi < 0 then toUInt32 (aMaxPhi + aIPhi)
  else if aIPhi ≥ aMaxPhi then toUInt32 (Int.tmod aIPhi aMaxPhi)
  else toUInt32 aIPhi

/-- The index `int(floor((x + 0.5 * gridSize - offset) / gridSize))` of the
cell of a grid that holds `x`. -/
def gridId {D : Type} [LinearOrderedField D] [FloorRing D] (x gridSize offset : D) : Int :=
  doubleToInt (Int.floor ((x + (1 / 2) * gridSize - offset) / gridSize))

/-- The pointer `segmentation` and the values of `oldEtaId` and `oldPhiId` in
force when the cell `cellID` of a cluster is examined. With a
multi-segmentation for the system the three are set anew for each cell from
the sub-segmentation of the cell (a null pointer is dereferenced there);
without one they are the ones set before the loop over the cells: the phi-eta
segmentation of the system and its indices, or the null pointer and -1. -/
def windowCentre {D V : Type} [LinearOrderedField D] [FloorRing D] (self : MassInv D)
    (tools : MassInvTools D V) (systemId : Nat) (oldEta oldPhi : D) (cellID : Nat) :
    Except String (Option (GridPhiEta D) × Int × Int) :=
  match pointerAt self.m_segmentationMulti systemId with
  | some _ =>
    match tools.subsegmentation systemId cellID with
    | none => .error "null segmentation"
    | some seg =>
      .ok (some seg, gridId oldEta seg.gridSizeEta seg.offsetEta,
        gridId oldPhi seg.gridSizePhi seg.offsetPhi)
  | none =>
    match pointerAt self.m_segmentationPhiEta systemId with
    | some _ =>
      let seg := tools.phiEtaGrid systemId
      .ok (some seg, gridId oldEta seg.gridSizeEta seg.offsetEta,
        gridId oldPhi seg.gridSizePhi seg.offsetPhi)
    | none => .ok (none, -1, -1)

/-- The test of the ellipse on a cell of the window; a division by a size 0
gives a value that is not below 1 in the arithmetic of the machine. -/
def insideEllipse {D : Type} [LinearOrderedField D] (etaId phiId : Nat) (oldEtaId oldPhiId : Int)
    (nEtaFinal nPhiFinal : Nat) : Bool :=
  if nEtaFinal = 0 ∨ nPhiFinal = 0 then false
  else
    decide ((((etaId : D) - (oldEtaId : D)) / ((nEtaFinal : D) / 2)) ^ 2 +
      (((phiId : D) - (oldPhiId : D)) / ((nPhiFinal : D) / 2)) ^ 2 < 1)

/-- The test made on one cell of the input cluster: `true` when the cell is
added to the corrected cluster. The conjunction is evaluated from the left,
so that `m_halfPhiFin` and the pointer `segmentation` are only used when the
two tests in eta hold. -/
def selectCell {D V : Type} [LinearOrderedField D] [FloorRing D] (self : MassInv D)
    (tools : MassInvTools D V) (systemId : Nat) (oldEta oldPhi : D)
    (cell : CalorimeterHit D (D × D × D)) : Except String Bool := do
  let (segmentation, oldEtaId, oldPhiId) ←
    windowCentre self tools systemId oldEta oldPhi cell.cellID
  let fields ← decoderAt self systemId
  let system ← BitField64.decode fields "system" cell.cellID
  if system = (systemId : Int) then
    let layerId := toUInt32 (← BitField64.decode fields "layer" cell.cellID)
    let etaId := toUInt32 (← BitField64.decode fields "eta" cell.cellID)
    let phiId := toUInt32 (← BitField64.decode fields "phi" cell.cellID)
    let halfEta ← elemAt self.m_halfEtaFin layerId
    if (etaId : Int) ≥ oldEtaId - halfEta ∧ (etaId : Int) ≤ oldEtaId + halfEta then
      let halfPhi ← elemAt self.m_halfPhiFin layerId
      match segmentation with
      | none => .error "null segmentation"
      | some seg =>
        if phiId ≥ phiNeighbour (doubleToInt (oldPhiId - halfPhi)) seg.phiBins ∧
            phiId ≤ phiNeighbour (doubleToInt (oldPhiId + halfPhi)) seg.phiBins then
          if self.m_ellipseFinalCluster then
            let nEta ← elemAt self.m_nEtaFinal layerId
            let nPhi ← elemAt self.m_nPhiFinal layerId
            pure (insideEllipse (D := D) etaId phiId oldEtaId oldPhiId nEta nPhi)
          else pure true
        else pure false
    else pure false
  else pure false

/-- The loop over the cells of the input cluster that fills the corrected
cluster: `hits` are the hits added so far and `energy` is the local variable
of that name. -/
def addHits {D V : Type} [LinearOrderedField D] [FloorRing D] (self : MassInv D)
    (tools : MassInvTools D V) (systemId : Nat) (oldEta oldPhi : D) :
    List (CalorimeterHit D (D × D × D)) → List (CalorimeterHit D (D × D × D)) → D →
      Except String (List (CalorimeterHit D (D × D × D)) × D)
  | [], hits, energy => .ok (hits, energy)
  | cell :: rest, hits, energy =>
    match selectCell self tools systemId oldEta oldPhi cell with
    | .error e => .error e
    | .ok true =>
      addHits self tools systemId oldEta oldPhi rest (hits ++ [cell]) (energy + cell.energy)
    | .ok false => addHits self tools systemId oldEta oldPhi rest hits energy

/-- The layer `decoder->get(cID, m_layerFieldName) + m_firstLayerId` of a
cell, as `unsigned int`. -/
def layerOf {D : Type} (self : MassInv D) (systemId : Nat) (cID : Nat) : Except String Nat :=
  match decoderAt self systemId with
  | .error e => .error e
  | .ok fields =>
    match BitField64.decode fields self.m_layerFieldName cID with
    | .error e => .error e
    | .ok v => .ok (toUInt32 (v + self.m_firstLayerId))

/-- The statement `v[i] += x` on a vector. -/
def addAt {D : Type} [Add D] (v : List D) (i : Nat) (x : D) : Except String (List D) :=
  match v[i]? with
  | some old => .ok (v.set i (old + x))
  | none => .error "index out of range"

/-- The first loop over the cells of the corrected cluster: the energy
deposited in each layer. -/
def sumEnergies {D : Type} [Add D] (self : MassInv D) (systemId : Nat) :
    List (CalorimeterHit D (D × D × D)) → List D → Except String (List D)
  | [], sumEnLayer => .ok sumEnLayer
  | cell :: rest, sumEnLayer =>
    match layerOf self systemId cell.cellID with
    | .error e => .error e
    | .ok layer =>
      match addAt sumEnLayer layer cell.energy with
      | .error e => .error e
      | .ok sumEnLayer1 => sumEnergies self systemId rest sumEnLayer1

/-- The pseudorapidity `segmentation->eta(cellID)` of a cell in the second
loop: with a multi-segmentation the pointer is set from the sub-segmentation
of the cell, otherwise it is the phi-eta segmentation of the system. -/
def cellEta {D V : Type} (self : MassInv D) (tools : MassInvTools D V) (systemId : Nat)
    (cellID : Nat) : Except String D :=
  match pointerAt self.m_segmentationMulti systemId with
  | some _ =>
    match tools.subsegmentation systemId cellID with
    | none => .error "null segmentation"
    | some seg => .ok (seg.eta cellID)
  | none =>
    match pointerAt self.m_segmentationPhiEta systemId with
    | some _ => .ok ((tools.phiEtaGrid systemId).eta cellID)
    | none => .error "null segmentation"

/-- The weight `std::max(0., m_etaRecalcLayerWeights[layer] + log(E / sumEn))`
of a cell. -/
def weightLog {D : Type} [LinearOrderedField D] (log : D → D) (layerWeight energy sumEn : D) : D :=
  max 0 (layerWeight + log (energy / sumEn))

/-- The second loop over the cells of the corrected cluster: the sums of the
weighted pseudorapidities and of the weights in each layer, and the calls of
`Fill` on the histograms `m_hDiffEtaHitLayer[layer]`, of which there are
`m_numLayers`. -/
def sumEtas {D V : Type} [LinearOrderedField D] (self : MassInv D) (tools : MassInvTools D V)
    (systemId : Nat) (etaVertex : D) (sumEnLayer : List D) :
    List (CalorimeterHit D (D × D × D)) → List D → List D → List (Fill D) →
      Except String (List D × List D × List (Fill D))
  | [], sumEtaLayer, sumWeightLayer, fills => .ok (sumEtaLayer, sumWeightLayer, fills)
  | cell :: rest, sumEtaLayer, sumWeightLayer, fills =>
    match layerOf self systemId cell.cellID with
    | .error e => .error e
    | .ok layer =>
      match elemAt self.m_etaRecalcLayerWeights layer, elemAt sumEnLayer layer with
      | .ok layerWeight, .ok sumEn =>
        let weight := weightLog tools.log layerWeight cell.energy sumEn
        match cellEta self tools systemId cell.cellID with
        | .error e => .error e
        | .ok eta =>
          match addAt sumEtaLayer layer (weight * eta), addAt sumWeightLayer layer weight with
          | .ok sumEtaLayer1, .ok sumWeightLayer1 =>
            if layer < self.m_numLayers then
              sumEtas self tools systemId etaVertex sumEnLayer rest sumEtaLayer1 sumWeightLayer1
                (fills ++ [("m_hDiffEtaHitLayer" ++ toString layer, [eta - etaVertex])])
            else .error "index out of range"
          | _, _ => .error "index out of range"
      | _, _ => .error "index out of range"

/-- The loop over the layers `iLayer` of the list that adds up `newEta`: a
layer with a sum of weights above `1e-10` contributes its barycentre
`sumEtaLayer[iLayer] / sumWeightLayer[iLayer]` times its energy. -/
def combineLayers {D : Type} [LinearOrderedField D] (etaVertex : D)
    (sumEtaLayer sumWeightLayer sumEnLayer : List D) :
    List Nat → D → List (Fill D) → Except String (D × List (Fill D))
  | [], newEta, fills => .ok (newEta, fills)
  | iLayer :: rest, newEta, fills =>
    match elemAt sumWeightLayer iLayer, elemAt sumEtaLayer iLayer, elemAt sumEnLayer iLayer with
    | .ok sumWeight, .ok sumEta, .ok sumEn =>
      if sumWeight > 1 / 10000000000 then
        combineLayers etaVertex sumEtaLayer sumWeightLayer sumEnLayer rest
          (newEta + sumEta / sumWeight * sumEn)
          (fills ++ [("m_hDiffEtaLayer" ++ toString iLayer, [sumEta / sumWeight - etaVertex])])
      else combineLayers etaVertex sumEtaLayer sumWeightLayer sumEnLayer rest newEta fills
    | _, _, _ => .error "index out of range"

/-- The values computed by the recalculation of the pseudorapidity of a
cluster. -/
structure EtaRecalculation (D : Type) where
  sumEnFirstLayer : D
  newEta : D
  fills : List (Fill D)

/-- Step 1 of `execute` for a cluster with `|oldEta| ≤ 1.5`: the
pseudorapidity from the log-weighted barycentres of the layers, `hits` being
the hits of the corrected cluster and `energy` their summed energy. In
`newEta /= energy` with an energy 0, as for a corrected cluster without
cells, the machine gives a NaN or an infinity, which the field does not have:
the run leaves the exact arithmetic and is an error here. -/
def recalculateEta {D V : Type} [LinearOrderedField D] (self : MassInv D)
    (tools : MassInvTools D V) (systemId : Nat) (etaVertex : D)
    (hits : List (CalorimeterHit D (D × D × D))) (energy : D) :
    Except String (EtaRecalculation D) :=
  match sumEnergies self systemId hits (List.replicate self.m_numLayers 0) with
  | .error e => .error e
  | .ok sumEnLayer =>
    match elemAt sumEnLayer 0 with
    | .error e => .error e
    | .ok sumEnFirstLayer =>
      match sumEtas self tools systemId etaVertex sumEnLayer hits
          (List.replicate self.m_numLayers 0) (List.replicate self.m_numLayers 0) [] with
      | .error e => .error e
      | .ok (sumEtaLayer, sumWeightLayer, fills) =>
        match combineLayers etaVertex sumEtaLayer sumWeightLayer sumEnLayer
            (List.range self.m_numLayers) 0 fills with
        | .error e => .error e
        | .ok (newEta, fills1) =>
          if energy = 0 then .error "not a number"
          else
            .ok { sumEnFirstLayer := sumEnFirstLayer, newEta := newEta / energy, fills := fills1 }

/-- The state of the loop of step 3 over the eta borders: the parameters
`P00, P01, P10, P11`, the energy of the corrected cluster and the calls of
`Fill`; `returned` is set when the loop leaves `execute` with FAILURE. -/
structure UpstreamState (D : Type) where
  returned : Bool
  P00 : D
  P01 : D
  P10 : D
  P11 : D
  energy : D
  fills : List (Fill D)

/-- The loop of step 3 over the indices `iEta` of the list. On the first
border above `|newEta|` the four parameters are set and the loop is left
(`break`). Otherwise `execute` returns FAILURE when `|newEta|` is above the
last border, and else the statements that follow in the body of the loop
compute `energyFront` from the parameters as they are and add it to the
energy of the corrected cluster. `clusterEnergy` is the energy of the input
cluster. -/
def upstreamLoop {D : Type} [LinearOrderedField D] (self : MassInv D) (sqrt : D → D)
    (newEta clusterEnergy sumEnFirstLayer : D) :
    List Nat → UpstreamState D → Except String (UpstreamState D)
  | [], st => .ok st
  | iEta :: rest, st =>
    match elemAt self.m_etaBorders iEta with
    | .error e => .error e
    | .ok border =>
      if |newEta| < border then
        match elemAt self.m_presamplerShiftP0 iEta, elemAt self.m_presamplerShiftP1 iEta,
          elemAt self.m_presamplerScaleP0 iEta, elemAt self.m_presamplerScaleP1 iEta with
        | .ok p00, .ok p01, .ok p10, .ok p11 =>
          .ok { st with P00 := p00, P01 := p01, P10 := p10, P11 := p11 }
        | _, _, _, _ => .error "index out of range"
      else
        match self.m_etaBorders.getLast? with
        | none => .error "back() of an empty vector"
        | some back =>
          if |newEta| > back then .ok { st with returned := true }
          else
            match elemAt self.m_samplingFraction 0 with
            | .error e => .error e
            | .ok samplingFraction =>
              let presamplerShift := st.P00 + st.P01 * clusterEnergy
              let presamplerScale := st.P10 + st.P11 * sqrt clusterEnergy
              let energyFront := presamplerShift + presamplerScale * sumEnFirstLayer * samplingFraction
              upstreamLoop self sqrt newEta clusterEnergy sumEnFirstLayer rest
                { st with
                  energy := st.energy + energyFront
                  fills := st.fills ++ [("m_hUpstreamEnergy", [energyFront])] }

/-- The variable `ibin` of `MassInv::getNoiseRMSPerCluster` when the
histograms are read: the bin of the first histogram, `histo0`, for the
pseudorapidity `aEta`, set to the last bin when it is above it. -/
def noiseBin {D : Type} [LinearOrderedField D] [FloorRing D] (histo0 : TH1F D) (aEta : D) :
    Int :=
  let nbins := histo0.nbinsX
  let deltaEtaBin :=
    (histo0.binLowEdge nbins + histo0.binWidth nbins - histo0.binLowEdge 1) / (nbins : D)
  let etaFirstBin := histo0.binLowEdge 1
  let ibin : Int := doubleToInt (Int.floor ((|aEta| - etaFirstBin) / deltaEtaBin) + 1)
  if ibin > nbins then nbins else ibin

/-- Method `MassInv::getNoiseRMSPerCluster`. -/
def getNoiseRMSPerCluster {D : Type} [LinearOrderedField D] [FloorRing D] (self : MassInv D)
    (pow : D → D → D) (aEta : D) (aNumCells : Nat) : Except String D :=
  match self.m_histoPileupConst with
  | [] => .ok (0 * pow ((aNumCells : D) * (self.m_dEta / (1 / 100))) 0)
  | histo0 :: _ =>
    let ibin := noiseBin histo0 aEta
    let param0 := histo0.binContent ibin
    match self.m_histoPileupConst[1]? with
    | none => .error "at: index out of range"
    | some histo1 =>
      let param1 := histo1.binContent ibin
      .ok (param0 * pow ((aNumCells : D) * (self.m_dEta / (1 / 100))) param1)

/-- What the body of the loop over the input clusters leaves for one
cluster: `returned` is set when the body leaves `execute` with FAILURE;
`newCluster` is the corrected cluster as it is in the output collection;
`energy` and `newEta` are the local variables of these names, `energy` being
the value given to `setEnergy` before the corrections; `energyUpstream`
is the energy of the corrected cluster after step 3; `candidate` holds the
two four-vectors pushed to the lists of candidates. -/
structure ClusterOutcome (D V : Type) where
  returned : Bool
  newCluster : Cluster D
  energy : D
  newEta : D
  energyUpstream : D
  candidate : Option (V × V)
  fills : List (Fill D)

/-- The values taken from the collection of generated particles: the
pseudorapidity, the azimuth and the polar angle of the momentum of the
particle of a single-particle event, zero otherwise. -/
def vertexOf {D V : Type} [LinearOrderedField D] (tools : MassInvTools D V)
    (particle : List (D × D × D)) : D × D × D :=
  match particle with
  | [momentum] =>
    (tools.vecEta momentum, tools.vecPhi momentum,
      2 * tools.atan (tools.exp (-(tools.vecEta momentum))))
  | _ => (0, 0, 0)

/-- The end of the body of the loop over the clusters, from step 2 on: the
noise of the pile-up, the histograms and the candidates for the invariant
mass. `shoot` is the number drawn by `m_gauss.shoot()`. -/
def finishCluster {D V : Type} [LinearOrderedField D] [FloorRing D] (self : MassInv D)
    (tools : MassInvTools D V) (particle : List (D × D × D)) (shoot : D) (oldEnergy oldPhi : D)
    (hits : List (CalorimeterHit D (D × D × D))) (position : D × D × D)
    (energy newEta energyUpstream : D) (fills : List (Fill D)) :
    Except String (ClusterOutcome D V) :=
  let numCells := hits.length % 2 ^ 32
  let noiseRMS : Except String D :=
    if self.m_constPileupNoise = 0 then getNoiseRMSPerCluster self tools.pow newEta numCells
    else .ok self.m_constPileupNoise
  match noiseRMS with
  | .error e => .error e
  | .ok rms =>
    let noise := rms * shoot * tools.sqrt (self.m_mu : D)
    let clusterEnergy := energyUpstream + noise
    let vertex := vertexOf tools particle
    let fills1 : List (Fill D) :=
      fills ++
        [("m_hPileupEnergy", [noise]), ("m_hEnergyPreAnyCorrections", [oldEnergy]),
          ("m_hEnergyPostAllCorrections", [clusterEnergy]),
          ("m_hEnergyPostAllCorrectionsAndScaling", [clusterEnergy / self.m_response]),
          ("m_hEta", [newEta]), ("m_hPhi", [oldPhi]), ("m_hNumCells", [(numCells : D)])] ++
        (if particle.length = 1 then
          [("m_hDiffEta", [newEta - vertex.1]), ("m_hDiffPhi", [oldPhi - vertex.2.1]),
            ("m_hDiffTheta", [2 * tools.atan (tools.exp (-newEta)) - vertex.2.2])]
        else [])
    let above : Bool :=
      if self.m_energyAsThreshold then decide (energy / self.m_response > self.m_massInvThreshold)
      else decide (energy / self.m_response / tools.cosh newEta > self.m_massInvThreshold)
    let candidate : Option (V × V) :=
      if above then
        some
          (tools.setPtEtaPhiE (clusterEnergy / tools.cosh newEta) newEta oldPhi clusterEnergy,
            tools.setPtEtaPhiE (clusterEnergy / self.m_response / tools.cosh newEta) newEta oldPhi
              (clusterEnergy / self.m_response))
      else none
    .ok
      { returned := false
        newCluster := { energy := clusterEnergy, position := position, hits := hits }
        energy := energy
        newEta := newEta
        energyUpstream := energyUpstream
        candidate := candidate
        fills := fills1 }

/-- The body of the loop of `execute` over the input clusters, for one
cluster. -/
def processCluster {D V : Type} [LinearOrderedField D] [FloorRing D] (self : MassInv D)
    (tools : MassInvTools D V) (systemId : Nat) (particle : List (D × D × D)) (shoot : D)
    (cluster : Cluster D) : Except String (ClusterOutcome D V) :=
  let oldEnergy := cluster.hits.foldl (fun sum cell => sum + cell.energy) 0
  let pos := cluster.position
  let oldEta := tools.vecEta pos
  let oldPhi := tools.vecPhi pos
  match addHits self tools systemId oldEta oldPhi cluster.hits [] 0 with
  | .error e => .error e
  | .ok (hits, energy) =>
    if |oldEta| > 3 / 2 then
      finishCluster self tools particle shoot oldEnergy oldPhi hits cluster.position energy oldEta
        energy []
    else
      match recalculateEta self tools systemId (vertexOf tools particle).1 hits energy with
      | .error e => .error e
      | .ok recalc =>
        let newEta := recalc.newEta
        let radius := tools.vecPerp pos
        let newClusterPosition : D × D × D :=
          (radius * tools.cos oldPhi, radius * tools.sin oldPhi, radius * tools.sinh newEta)
        match upstreamLoop self tools.sqrt newEta cluster.energy recalc.sumEnFirstLayer
            (List.range self.m_etaBorders.length)
            { returned := false, P00 := 0, P01 := 0, P10 := 0, P11 := 0, energy := energy,
              fills := recalc.fills } with
        | .error e => .error e
        | .ok st =>
          if st.returned then
            .ok
              { returned := true
                newCluster := { energy := st.energy, position := newClusterPosition, hits := hits }
                energy := energy
                newEta := newEta
                energyUpstream := st.energy
                candidate := none
                fills := st.fills }
          else
            finishCluster self tools particle shoot oldEnergy oldPhi hits newClusterPosition energy
              newEta st.energy st.fills

/-- The loop of `execute` over the input clusters, `index` being the number
of clusters done: the outcomes of the clusters processed, up to and with the
one that leaves `execute`. -/
def clusterLoop {D V : Type} [LinearOrderedField D] [FloorRing D] (self : MassInv D)
    (tools : MassInvTools D V) (systemId : Nat) (particle : List (D × D × D)) (gauss : Nat → D) :
    List (Cluster D) → Nat → Except String (List (ClusterOutcome D V))
  | [], _ => .ok []
  | cluster :: rest, index =>
    match processCluster self tools systemId particle (gauss index) cluster with
    | .error e => .error e
    | .ok outcome =>
      if outcome.returned then .ok [outcome]
      else
        match clusterLoop self tools systemId particle gauss rest (index + 1) with
        | .error e => .error e
        | .ok outcomes => .ok (outcome :: outcomes)

/-- The values of the variable of a loop
`for (size_t i = id - half; i <= id + half; i++)` of the isolation, where `id`
is an `unsigned int` and `half` a non-negative `int`: the two bounds are
computed in the unsigned arithmetic of 32 bits and then widened to `size_t`. -/
def windowIndices (id half : Nat) : List Nat :=
  let first := toUInt32 ((id : Int) - (half : Int))
  let last := toUInt32 ((id : Int) + (half : Int))
  if first ≤ last then List.range' first (last + 1 - first) else []

/-- The inner loop of the isolation, over the values `iPhiWindow` of the
list: `sumWindow += m_towers[iEtaWindow][phiNeighbour(iPhiWindow, m_nPhiTower)]`,
the index `iPhiWindow` being converted to `int` for the call. -/
def sumPhiWindow {D : Type} [Add D] (towers : List (List D)) (nPhiTower : Nat)
    (iEtaWindow : Nat) : List Nat → D → Except String D
  | [], sumWindow => .ok sumWindow
  | iPhiWindow :: rest, sumWindow =>
    match elemAt towers iEtaWindow with
    | .error e => .error e
    | .ok row =>
      match elemAt row (phiNeighbour (toInt32 iPhiWindow) (nPhiTower : Int)) with
      | .error e => .error e
      | .ok tower => sumPhiWindow towers nPhiTower iEtaWindow rest (sumWindow + tower)

/-- The outer loop of the isolation, over the values `iEtaWindow` of the
list. -/
def sumEtaWindow {D : Type} [Add D] (towers : List (List D)) (nPhiTower : Nat)
    (phiIndices : List Nat) : List Nat → D → Except String D
  | [], sumWindow => .ok sumWindow
  | iEtaWindow :: rest, sumWindow =>
    match sumPhiWindow towers nPhiTower iEtaWindow phiIndices sumWindow with
    | .error e => .error e
    | .ok sumWindow1 => sumEtaWindow towers nPhiTower phiIndices rest sumWindow1

/-- The energy `sumWindow` of the towers in the window around the tower
`(photonIdEta, photonIdPhi)` of a photon candidate. -/
def sumWindow {D : Type} [Add D] [Zero D] (towers : List (List D)) (nPhiTower : Nat)
    (photonIdEta photonIdPhi halfEtaWin halfPhiWin : Nat) : Except String D :=
  sumEtaWindow towers nPhiTower (windowIndices photonIdPhi halfPhiWin)
    (windowIndices photonIdEta halfEtaWin) 0

/-- One loop of the isolation over a list of photon candidates: the
candidates with an energy in the window above `threshold` are erased, and the
energy of each window is filled into `m_hHCalEnergy`. The loop erases under
its own iterator and steps the iterator back; it is taken to go on with the
element that follows the erased one, as it does for the iterators of a
vector. -/
def isolate {D V : Type} [LinearOrderedField D] (tools : MassInvTools D V)
    (towers : List (List D)) (nPhiTower halfEtaWin halfPhiWin : Nat) (threshold : D) :
    List V → Except String (List V × List (Fill D))
  | [] => .ok ([], [])
  | photonCandidate :: rest =>
    let photonIdEta := tools.idEta (tools.lvEta photonCandidate) % 2 ^ 32
    let photonIdPhi := tools.idPhi (tools.lvPhi photonCandidate) % 2 ^ 32
    match sumWindow towers nPhiTower photonIdEta photonIdPhi halfEtaWin halfPhiWin with
    | .error e => .error e
    | .ok sum =>
      match isolate tools towers nPhiTower halfEtaWin halfPhiWin threshold rest with
      | .error e => .error e
      | .ok (kept, fills) =>
        .ok (if sum > threshold then kept else photonCandidate :: kept,
          ("m_hHCalEnergy", [sum]) :: fills)

/-- The five lists of photon candidates of the isolation. -/
structure IsolationLists (V : Type) where
  clustersMassInvScaled : List V
  clustersMassInvScaled2 : List V
  clustersMassInvScaled3 : List V
  clustersMassInvScaled4 : List V
  clustersMassInvScaled5 : List V

/-- The loop over the isolation windows `iCluster` of the list: for each
window the five lists are cleaned in turn, with the thresholds
`m_hcalEnergyThreshold` times 1, 0.1, 0.2, 0.3 and 0.4. -/
def isolationWindows {D V : Type} [LinearOrderedField D] (self : MassInv D)
    (tools : MassInvTools D V) (towers : List (List D)) :
    List Nat → IsolationLists V → List (Fill D) →
      Except String (IsolationLists V × List (Fill D))
  | [], lists, fills => .ok (lists, fills)
  | iCluster :: rest, lists, fills =>
    match elemAt self.m_etaSizes iCluster, elemAt self.m_phiSizes iCluster with
    | .ok etaSize, .ok phiSize =>
      let halfEtaWin := etaSize / 2
      let halfPhiWin := phiSize / 2
      let threshold := self.m_hcalEnergyThreshold
      match isolate tools towers self.m_nPhiTower halfEtaWin halfPhiWin threshold
          lists.clustersMassInvScaled,
        isolate tools towers self.m_nPhiTower halfEtaWin halfPhiWin (threshold * (1 / 10))
          lists.clustersMassInvScaled2,
        isolate tools towers self.m_nPhiTower halfEtaWin halfPhiWin (threshold * (2 / 10))
          lists.clustersMassInvScaled3,
        isolate tools towers self.m_nPhiTower halfEtaWin halfPhiWin (threshold * (3 / 10))
          lists.clustersMassInvScaled4,
        isolate tools towers self.m_nPhiTower halfEtaWin halfPhiWin (threshold * (4 / 10))
          lists.clustersMassInvScaled5 with
      | .ok (l1, f1), .ok (l2, f2), .ok (l3, f3), .ok (l4, f4), .ok (l5, f5) =>
        isolationWindows self tools towers rest
          { clustersMassInvScaled := l1, clustersMassInvScaled2 := l2,
            clustersMassInvScaled3 := l3, clustersMassInvScaled4 := l4,
            clustersMassInvScaled5 := l5 }
          (fills ++ f1 ++ f2 ++ f3 ++ f4 ++ f5)
      | _, _, _, _, _ => .error "index out of range"
    | _, _ => .error "index out of range"

/-- The mass `(list[0] + list[1]).Mag() * m_massInvCorrection` and the
transverse momentum `(list[0] + list[1]).Pt()` of the first two candidates of
a list; the list is not tested for its size. -/
def diPhoton {D V : Type} [LinearOrderedField D] (self : MassInv D) (tools : MassInvTools D V)
    (list : List V) : Except String (D × D) :=
  match list with
  | candidate0 :: candidate1 :: _ =>
    .ok (tools.lvMag (tools.lvAdd candidate0 candidate1) * self.m_massInvCorrection,
      tools.lvPt (tools.lvAdd candidate0 candidate1))
  | _ => .error "index out of range"

/-- The calls of `Fill` with a mass on the histograms `name100`, `name200`,
`name300` of the masses above a transverse momentum. -/
def thresholdFills {D : Type} [LinearOrderedField D] (name : String) (mass pt : D) :
    List (Fill D) :=
  (if pt > 100 then [(name ++ "100", [mass])] else []) ++
    (if pt > 200 then [(name ++ "200", [mass])] else []) ++
    (if pt > 300 then [(name ++ "300", [mass])] else [])

/-- The calls of `Fill` with the mass of the first two candidates of a list
after the isolation. -/
def massFills {D : Type} [LinearOrderedField D] (name : String) (mass pt : D) : List (Fill D) :=
  (name, [mass]) :: thresholdFills name mass pt

/-- The calls of `Fill` of the loop over the pairs of candidates of
`clustersMassInv`. -/
def pairFills {D V : Type} [LinearOrderedField D] (self : MassInv D) (tools : MassInvTools D V)
    (clustersMassInv : List V) : List (Fill D) :=
  clustersMassInv.flatMap fun candidate1 =>
    clustersMassInv.flatMap fun candidate2 =>
      if tools.lvNe candidate1 candidate2 then
        [("m_hMassInv",
            [tools.lvMag (tools.lvAdd candidate1 candidate2) * self.m_massInvCorrection]),
          ("m_hDiPT", [tools.lvPt (tools.lvAdd candidate1 candidate2)])]
      else []

/-- The comparator given to `std::sort`, the lambda
`[](TLorentzVector photon1, TLorentzVector photon2) { return photon1.Pt() > photon2.Pt(); }`. -/
def ptGreater {D V : Type} [LinearOrderedField D] (tools : MassInvTools D V)
    (photon1 photon2 : V) : Bool :=
  decide (tools.lvPt photon1 > tools.lvPt photon2)

/-- The first statements under `clustersMassInvScaled.size() > 1`: the list
`clustersMassInvScaled` is sorted with the comparator `ptGreater`, and the mass
and the transverse momentum of its first two candidates are filled into the
histograms. The result is the sorted list and the calls of `Fill`. -/
def sortedMass {D V : Type} [LinearOrderedField D] (self : MassInv D)
    (tools : MassInvTools D V) (clustersMassInvScaled : List V) :
    Except String (List V × List (Fill D)) :=
  let sorted := tools.stdSort (ptGreater tools) clustersMassInvScaled
  match diPhoton self tools sorted with
  | .error e => .error e
  | .ok (diPhotonMass, diPhotonPt) =>
    .ok (sorted,
      [("m_hDiPTScaled", [diPhotonPt]), ("m_hMassInvScaled", [diPhotonMass]),
        ("m_hMassInvScaledPt", [diPhotonMass, diPhotonPt])] ++
        thresholdFills "m_hMassInvScaled" diPhotonMass diPhotonPt)

/-- The part of `execute` under `clustersMassInvScaled.size() > 1`: the mass of
the first two candidates of the sorted list, the towers, the isolation and the
masses of the first two candidates of each of the five lists. Only the first
list is sorted. -/
def diPhotonMasses {D V : Type} [LinearOrderedField D] (self : MassInv D)
    (tools : MassInvTools D V) (clustersMassInvScaled : List V) :
    Except String (List (Fill D)) :=
  match sortedMass self tools clustersMassInvScaled with
  | .error e => .error e
  | .ok (sorted, fills0) =>
    let towers :=
      tools.buildTowers (List.replicate self.m_nEtaTower (List.replicate self.m_nPhiTower 0))
    match isolationWindows self tools towers (List.range self.m_etaSizes.length)
        { clustersMassInvScaled := sorted, clustersMassInvScaled2 := clustersMassInvScaled,
          clustersMassInvScaled3 := clustersMassInvScaled,
          clustersMassInvScaled4 := clustersMassInvScaled,
          clustersMassInvScaled5 := clustersMassInvScaled } fills0 with
    | .error e => .error e
    | .ok (lists, fills1) =>
      match diPhoton self tools lists.clustersMassInvScaled,
        diPhoton self tools lists.clustersMassInvScaled2,
        diPhoton self tools lists.clustersMassInvScaled3,
        diPhoton self tools lists.clustersMassInvScaled4,
        diPhoton self tools lists.clustersMassInvScaled5 with
      | .ok (m1, p1), .ok (m2, p2), .ok (m3, p3), .ok (m4, p4), .ok (m5, p5) =>
        .ok (fills1 ++ massFills "m_hMassInvScaledIsolated" m1 p1 ++
          massFills "m_hMassInvScaledIsolated2" m2 p2 ++
          massFills "m_hMassInvScaledIsolated3" m3 p3 ++
          massFills "m_hMassInvScaledIsolated4" m4 p4 ++
          massFills "m_hMassInvScaledIsolated5" m5 p5)
      | _, _, _, _, _ => .error "index out of range"

/-- What `execute` leaves: the outcome of each input cluster processed, in
order, and the calls of `Fill`. -/
structure ExecuteResult (D V : Type) where
  outcomes : List (ClusterOutcome D V)
  fills : List (Fill D)

/-- The output collection `correctedClusters`. -/
def ExecuteResult.correctedClusters {D V : Type} (r : ExecuteResult D V) : List (Cluster D) :=
  r.outcomes.map fun outcome => outcome.newCluster

/-- Method `MassInv::execute` on the input clusters `inClusters` and the
generated particles `particle` (their momenta); `gauss n` is the number
drawn by the call number `n` of `m_gauss.shoot()` in this event. -/
def execute {D V : Type} [LinearOrderedField D] [FloorRing D] (self : MassInv D)
    (tools : MassInvTools D V) (inClusters : List (Cluster D)) (particle : List (D × D × D))
    (gauss : Nat → D) : Except String (StatusCode × ExecuteResult D V) :=
  match elemAt self.m_systemId 0 with
  | .error e => .error e
  | .ok systemId =>
    match clusterLoop self tools systemId particle gauss inClusters 0 with
    | .error e => .error e
    | .ok outcomes =>
      let clusterFills : List (Fill D) := outcomes.flatMap fun outcome => outcome.fills
      if outcomes.any (fun outcome => outcome.returned) then
        .ok (StatusCode.FAILURE, { outcomes := outcomes, fills := clusterFills })
      else
        let clustersMassInv := outcomes.filterMap fun outcome => outcome.candidate.map Prod.fst
        let clustersMassInvScaled :=
          outcomes.filterMap fun outcome => outcome.candidate.map Prod.snd
        let fills1 := clusterFills ++ pairFills self tools clustersMassInv
        if clustersMassInvScaled.length > 1 then
          match diPhotonMasses self tools clustersMassInvScaled with
          | .error e => .error e
          | .ok fills2 =>
            .ok (StatusCode.SUCCESS, { outcomes := outcomes, fills := fills1 ++ fills2 })
        else .ok (StatusCode.SUCCESS, { outcomes := outcomes, fills := fills1 })

end MassInv

namespace MassInv

/-- The presampler correction as described for the eta bin `k`:
`(presamplerShiftP0[k] + presamplerShiftP1[k] * E) + (presamplerScaleP0[k] +
presamplerScaleP1[k] * sqrt(E)) * sumEnFirstLayer * samplingFraction[0]`. -/
def describedEnergyFront {D : Type} [LinearOrderedField D] (self : MassInv D) (sqrt : D → D)
    (k : Nat) (clusterEnergy sumEnFirstLayer : D) : D :=
  (self.m_presamplerShiftP0.getD k 0 + self.m_presamplerShiftP1.getD k 0 * clusterEnergy) +
    (self.m_presamplerScaleP0.getD k 0 + self.m_presamplerScaleP1.getD k 0 * sqrt clusterEnergy) *
      sumEnFirstLayer * self.m_samplingFraction.getD 0 0

/-- The eta bin as described: the first index `k` with `|newEta| < etaBorders[k]`. -/
def describedEtaBin {D : Type} [LinearOrderedField D] (self : MassInv D) (newEta : D) :
    Option Nat :=
  (List.range self.m_etaBorders.length).find? fun k =>
    decide (|newEta| < self.m_etaBorders.getD k 0)

/-- The isolation energy as described: the sum of `m_towers[e][p mod nPhiTower]`
over the `e` from `idEta - floor(etaSize / 2)` to `idEta + floor(etaSize / 2)`
and the `p` from `idPhi - floor(phiSize / 2)` to `idPhi + floor(phiSize / 2)`,
the index in phi being taken cyclically. A tower out of the grid counts 0. -/
def describedSumWindow {D : Type} [AddCommMonoid D] (towers : List (List D)) (nPhiTower : Nat)
    (idEta idPhi etaSize phiSize : Nat) : D :=
  ((List.range (2 * (etaSize / 2) + 1)).map fun (i : Nat) =>
    ((List.range (2 * (phiSize / 2) + 1)).map fun (j : Nat) =>
      ((towers.getD ((idEta : Int) - (etaSize / 2 : Nat) + (i : Int)).toNat []).getD
        (((idPhi : Int) - (phiSize / 2 : Nat) + (j : Int)) % (nPhiTower : Int)).toNat 0)).sum).sum

end MassInv

namespace MassInv

end MassInv

namespace MassInv

/-- The window of the final cluster as described: the eta index is within
`halfEta` of the eta bin of the cluster, and the phi index is within `halfPhi`
of its phi bin, the distance in phi being taken cyclically modulo
`phiBins`. -/
def describedInWindow (etaId phiId : Nat) (oldEtaId oldPhiId : Int) (halfEta halfPhi : Nat)
    (phiBins : Int) : Bool :=
  decide (oldEtaId - halfEta ≤ etaId ∧ (etaId : Int) ≤ oldEtaId + halfEta) &&
    (decide (((phiId : Int) - oldPhiId) % phiBins ≤ halfPhi) ||
      decide ((oldPhiId - (phiId : Int)) % phiBins ≤ halfPhi))

end MassInv

namespace MassInv

end MassInv

namespace MassInv

end MassInv

namespace MassInv

/-- Modelled from the spec: what the C++ standard guarantees of
`std::sort(first, last, comp)`, whose code is not part of the sources. For a
comparator that is a strict weak ordering (irreflexive, transitive, and with a
transitive incomparability), the sorted range is a permutation of the range
and no element precedes, by `comp`, an element placed before it. -/
def StdSortContract {V : Type} (sort : (V → V → Bool) → List V → List V) : Prop :=
  ∀ (comp : V → V → Bool) (l : List V),
    (∀ a, comp a a = false) →
    (∀ a b c, comp a b = true → comp b c = true → comp a c = true) →
    (∀ a b c, comp a b = false → comp b c = false → comp a c = false) →
    (sort comp l).Perm l ∧ (sort comp l).Pairwise (fun a b => comp b a = false)

end MassInv
/-! ## Concrete inputs -/

namespace MuonCaloHitDigi

/-- A digitiser as constructed, with the default properties, and a stale cell
map left by an earlier event. -/
def exampleDigi : MuonCaloHitDigi Int :=
  { m_barrelDetectorName := "MuonTaggerBarrel"
    m_endcapDetectorName := "MuonTaggerEndcap"
    m_readoutName := "MuonTaggerPhiTheta"
    m_barrelSysId := 12
    m_decoder := none
    m_segmentation := none
    m_cellsCellIDEncoding := none
    m_layerPositions := []
    m_cellsMap := [(77, 1)] }

/-- Fields of a muon tagger readout `system:4,layer:4,theta:10,phi:10`. -/
def exampleMuonFields : List BitFieldElement :=
  [{ name := "system", offset := 0, width := 4, isSigned := false },
   { name := "layer", offset := 4, width := 4, isSigned := false },
   { name := "theta", offset := 8, width := 10, isSigned := false },
   { name := "phi", offset := 18, width := 10, isSigned := false }]

/-- A detector with the muon tagger readout, a barrel of two layers and an
endcap of one layer. -/
def exampleMuonDetector : Detector Rat :=
  { readouts :=
      [("MuonTaggerPhiTheta",
        { segmentation := Segmentation.FCCSWGridPhiTheta_k4geo, idSpec := exampleMuonFields })]
    detectors :=
      [("MuonTaggerBarrel",
        { extension := some [{ distance := 4500, sensitive_thickness := 20 },
            { distance := 4600, sensitive_thickness := 20 }] }),
       ("MuonTaggerEndcap",
        { extension := some [{ distance := 6000, sensitive_thickness := 40 }] })] }

/-- A digitiser as constructed, with the default properties, over the rational
numbers. -/
def exampleMuonDigi : MuonCaloHitDigi Rat :=
  { m_barrelDetectorName := "MuonTaggerBarrel"
    m_endcapDetectorName := "MuonTaggerEndcap"
    m_readoutName := "MuonTaggerPhiTheta"
    m_barrelSysId := 12
    m_decoder := none
    m_segmentation := none
    m_cellsCellIDEncoding := none
    m_layerPositions := []
    m_cellsMap := [] }

/-- The digitiser `exampleMuonDigi` after `initialize` on `exampleMuonDetector`. -/
def exampleInitialisedDigi : MuonCaloHitDigi Rat :=
  { exampleMuonDigi with
    m_decoder := some exampleMuonFields
    m_segmentation := some Segmentation.FCCSWGridPhiTheta_k4geo
    m_cellsCellIDEncoding := some exampleMuonFields
    m_layerPositions := [[4510, 4610], [6020]] }

/-- Rational stand-ins of a segmentation and of the functions of `cmath`: the
cell 28 (system 12, layer 1) has `theta = 1`, the cell 13 (system 13, layer 0)
has `theta = 3`, above the half of the stand-in 4 of `M_PI`, and the stand-ins
of sine and cosine give the tangent 2 at 1. -/
def exampleGeometry : PhiThetaGeometry Rat :=
  { theta := fun cellID => if cellID = 13 then 3 else 1
    position := fun cellID => if cellID = 13 then (0, 3 / 5, -4 / 5) else (3 / 5, 4 / 5, 0)
    sin := fun x => x / 2
    cos := fun _ => 1 / 4
    pi := 4 }

/-- An event with two hits in a barrel cell and one hit in an endcap cell. -/
def exampleMuonHits : List (SimTrackerHit Rat) :=
  [{ cellID := 28, eDep := 5 }, { cellID := 13, eDep := 7 }, { cellID := 28, eDep := 3 }]

/-- A second event: two hits in the endcap cell 13 and one hit in the barrel
cell 12 (system 12, layer 0). -/
def exampleMuonHitsB : List (SimTrackerHit Rat) :=
  [{ cellID := 13, eDep := 2 }, { cellID := 12, eDep := 1 }, { cellID := 13, eDep := 6 }]

/-- The message of the error through which a call is left, if any. -/
def errorOf {α : Type} (r : Except String α) : Option String :=
  match r with
  | .ok _ => none
  | .error e => some e

/-- The output hits of `exampleMuonHits`. -/
def examplePositionedHits : List (CalorimeterHit Rat (Rat × Rat × Rat)) :=
  [{ cellID := 28, energy := 8, position := (2766, 3688, 0) },
   { cellID := 13, energy := 7, position := (0, 7224, -9632) }]

end MuonCaloHitDigi

namespace RewriteHCalBarrelBitfield

/-- Fields of an old readout `system:4,module:8,layer:5,eta:-9,phi:10`. -/
def exampleOldFields : List BitFieldElement :=
  [{ name := "system", offset := 0, width := 4, isSigned := false },
   { name := "module", offset := 4, width := 8, isSigned := false },
   { name := "layer", offset := 12, width := 5, isSigned := false },
   { name := "eta", offset := 17, width := 9, isSigned := true },
   { name := "phi", offset := 26, width := 10, isSigned := false }]

/-- Fields of a new readout `system:4,layer:5,module:9,row:9`. -/
def exampleNewFields : List BitFieldElement :=
  [{ name := "system", offset := 0, width := 4, isSigned := false },
   { name := "layer", offset := 4, width := 5, isSigned := false },
   { name := "module", offset := 9, width := 9, isSigned := false },
   { name := "row", offset := 18, width := 9, isSigned := false }]

/-- Fields of an old readout whose `phi` field is 40 bits wide,
`system:4,module:8,phi:40`. -/
def exampleWideFields : List BitFieldElement :=
  [{ name := "system", offset := 0, width := 4, isSigned := false },
   { name := "module", offset := 4, width := 8, isSigned := false },
   { name := "phi", offset := 12, width := 40, isSigned := false }]

/-- A detector with the three readouts. -/
def exampleDetector : Detector Int :=
  { readouts :=
      [("HCalOld", { segmentation := .FCCSWGridPhiEta_k4geo, idSpec := exampleOldFields }),
       ("HCalNew", { segmentation := .other, idSpec := exampleNewFields }),
       ("HCalWide", { segmentation := .FCCSWGridPhiEta_k4geo, idSpec := exampleWideFields })]
    detectors := [] }

/-- The algorithm as constructed, set to rewrite `HCalOld` to `HCalNew` and to
remove the segmentation identifiers `eta` and `phi`. -/
def exampleConstructed : RewriteHCalBarrelBitfield Int :=
  { m_oldReadoutName := "HCalOld"
    m_newReadoutName := "HCalNew"
    m_oldIdentifiers := ["eta", "phi"]
    m_debugPrint := 10
    m_detectorIdentifiers := []
    m_geoSvc := none
    m_oldDecoder := none
    m_newDecoder := none
    m_segmentation := none }

/-- The services of a job in which everything is found. -/
def exampleServices : Services Int :=
  { baseInitialize := StatusCode.SUCCESS, geoSvc := some exampleDetector }

/-- The services of a job in which the base class fails to initialise. -/
def exampleServicesBaseFails : Services Int :=
  { baseInitialize := StatusCode.FAILURE, geoSvc := some exampleDetector }

/-- The algorithm after `initialize`. -/
def exampleInitialised : RewriteHCalBarrelBitfield Int :=
  { exampleConstructed with
    m_detectorIdentifiers := ["system", "module", "layer"]
    m_geoSvc := some exampleDetector
    m_oldDecoder := some { fields := exampleOldFields, value := 0 }
    m_newDecoder := some { fields := exampleNewFields, value := 0 } }

/-- Two hits: `system 8, module 3, layer 2, eta -1, phi 200` and
`system 8, module 4, layer 1, eta 5, phi 100`. -/
def exampleHits : List (CaloHit Int) :=
  [{ cellId := 8 + 3 * 2 ^ 4 + 2 * 2 ^ 12 + 511 * 2 ^ 17 + 200 * 2 ^ 26, energy := 15, time := 3 },
   { cellId := 8 + 4 * 2 ^ 4 + 1 * 2 ^ 12 + 5 * 2 ^ 17 + 100 * 2 ^ 26, energy := 7, time := 4 }]

/-- The algorithm after `initialize` when the old readout is `HCalWide` and
the identifier to remove is `phi`. -/
def exampleWide : RewriteHCalBarrelBitfield Int :=
  { exampleConstructed with
    m_oldReadoutName := "HCalWide"
    m_oldIdentifiers := ["phi"]
    m_detectorIdentifiers := ["system", "module"]
    m_geoSvc := some exampleDetector
    m_oldDecoder := some { fields := exampleWideFields, value := 0 }
    m_newDecoder := some { fields := exampleNewFields, value := 0 } }

/-- One hit with `system 1, module 2` and `phi = 2 ^ 32 + 198`. -/
def exampleWideHits : List (CaloHit Int) :=
  [{ cellId := 1 + 2 * 2 ^ 4 + (2 ^ 32 + 198) * 2 ^ 12, energy := 15, time := 3 }]

end RewriteHCalBarrelBitfield

namespace CellPositionsCaloDiscsTool

/-- The tool as constructed, with the default name of the readout; the example
detector has no readout of that name. -/
def exampleTool : CellPositionsCaloDiscsTool Int :=
  { m_readoutName := "EMECPhiEtaReco"
    m_geoSvc := none
    m_segmentation := none
    m_decoder := none }

/-- The tool set to a readout of the example detector that has no phi-eta
segmentation. -/
def exampleToolOther : CellPositionsCaloDiscsTool Int :=
  { exampleTool with m_readoutName := "HCalNew" }

end CellPositionsCaloDiscsTool

namespace MassInv

/-- Services of `MassInv` in which everything is found, on the example
detector. -/
def exampleMassInvServices : MassInvServices Rat :=
  { baseInitialize := StatusCode.SUCCESS
    regHist := fun _ => StatusCode.SUCCESS
    detector :=
      { readouts :=
          [("ECalBarrelPhiEta",
             { segmentation := .FCCSWGridPhiEta_k4geo,
               idSpec := RewriteHCalBarrelBitfield.exampleOldFields }),
           ("MuonTaggerPhiTheta",
             { segmentation := .FCCSWGridPhiTheta_k4geo,
               idSpec := RewriteHCalBarrelBitfield.exampleOldFields })]
        detectors := [] }
    randSvc := true
    gaussInitialize := StatusCode.SUCCESS
    accessPathName := fun _ => false
    openFile := fun _ => none
    towerTool := some (10, 10) }

/-- The algorithm `MassInv` with two systems; the readout of the second
system is given by `secondReadout`. -/
def exampleMassInv (secondReadout : String) : MassInv Rat :=
  { m_numLayers := 2
    m_etaRecalcLayerWeights := [3, 4]
    m_systemId := [5, 8]
    m_readoutName := ["ECalBarrelPhiEta", secondReadout]
    m_noiseFileName := "noise.root"
    m_pileupHistoName := "histogram"
    m_etaValues := [0]
    m_presamplerShiftP0 := [0]
    m_presamplerShiftP1 := [0]
    m_presamplerScaleP0 := [0]
    m_presamplerScaleP1 := [0]
    m_nEtaFinal := [7, 9]
    m_nPhiFinal := [7, 9]
    m_segmentationPhiEta := []
    m_segmentationMulti := []
    m_decoder := []
    m_histoPileupConst := []
    m_etaBorders := []
    m_halfPhiFin := []
    m_halfEtaFin := []
    m_nEtaTower := 0
    m_nPhiTower := 0
    m_ellipseFinalCluster := false
    m_layerFieldName := "layer"
    m_firstLayerId := 0
    m_samplingFraction := [1 / 5, 1 / 5]
    m_constPileupNoise := 0
    m_mu := 4
    m_dEta := 1 / 100
    m_response := 1
    m_energyAsThreshold := true
    m_massInvThreshold := 10
    m_massInvCorrection := 1
    m_etaSizes := [3]
    m_phiSizes := [3]
    m_hcalEnergyThreshold := 2 }

end MassInv


namespace MassInv

/-- A histogram of pile-up parameters with `nbins` bins of width `1 / 2` from 0,
all of content 1. -/
def exampleHisto (nbins : Int) : TH1F Rat :=
  { nbinsX := nbins
    binLowEdge := fun i => ((i : Rat) - 1) / 2
    binWidth := fun _ => 1 / 2
    binContent := fun _ => 1 }

/-- A noise file with the two histograms `histogram0` (3 bins) and
`histogram1` (`nbins1` bins). -/
def exampleNoiseFile (zombie : Bool) (nbins1 : Int) : TFile Rat :=
  { isZombie := zombie
    get := fun name =>
      if name = "histogram0" then some (exampleHisto 3)
      else if name = "histogram1" then some (exampleHisto nbins1)
      else none }

/-- The services of the example in which the noise file opens as `file`. -/
def exampleServicesWithFile (file : TFile Rat) : MassInvServices Rat :=
  { exampleMassInvServices with openFile := fun _ => some file }

end MassInv

namespace MassInv

/-- The example algorithm with both systems on phi-eta readouts, the eta
values `etaValues`, the first presampler parameters `shiftP0` and one
parameter 0 for each eta value in the three other vectors. -/
def exampleMassInvWith (etaValues shiftP0 : List Rat) : MassInv Rat :=
  { exampleMassInv "ECalBarrelPhiEta" with
    m_etaValues := etaValues
    m_presamplerShiftP0 := shiftP0
    m_presamplerShiftP1 := etaValues.map (fun _ => 0)
    m_presamplerScaleP0 := etaValues.map (fun _ => 0)
    m_presamplerScaleP1 := etaValues.map (fun _ => 0) }

/-- The services of the example with a noise file that opens and holds the
two histograms, of 3 bins each. -/
def exampleServicesNoise : MassInvServices Rat :=
  exampleServicesWithFile (exampleNoiseFile false 3)

/-- The members after `initialize`; the members before it when `initialize`
throws. -/
def initialised (self : MassInv Rat) (svc : MassInvServices Rat) : MassInv Rat :=
  match initialise self svc with
  | .ok (_, self') => self'
  | .error _ => self

end MassInv

namespace CellPositionsCaloDiscsTool

/-- The fields `system:4,layer:5,eta:-9,phi:10` of the example readout of the
endcap discs. -/
def exampleDiscsFields : List BitFieldElement :=
  [ { name := "system", offset := 0, width := 4, isSigned := false },
    { name := "layer", offset := 4, width := 5, isSigned := false },
    { name := "eta", offset := 9, width := 9, isSigned := true },
    { name := "phi", offset := 18, width := 10, isSigned := false } ]

/-- The tool after `initialize` on a readout with the example fields. -/
def exampleDiscsTool : CellPositionsCaloDiscsTool Int :=
  { m_readoutName := "EMECPhiEtaReco"
    m_geoSvc := none
    m_segmentation := some .FCCSWGridPhiEta_k4geo
    m_decoder := some exampleDiscsFields }

/-- An example geometry in rational numbers: the volume of layer `l` of a
system has its origin at `(0, 0, 100 + 10 * l)`, an identifier with other
fields set is not the identifier of a volume; the segmentation places the
cell by its fields `eta` and `phi`; `sinh` is replaced by its expansion to
the third order. -/
def exampleDiscsGeometry : DiscsGeometry Rat :=
  { originOfVolume := fun id =>
      if id / 2 ^ 9 = 0 then .ok (0, 0, 100 + 10 * (((id / 2 ^ 4) % 2 ^ 5 : Nat) : Rat))
      else .error "volume not found"
    position := fun id => ((((id / 2 ^ 18) % 2 ^ 10 : Nat) : Rat) / 8, 1, 0)
    eta := fun id => (((id / 2 ^ 9) % 2 ^ 9 : Nat) : Rat) / 4
    sinh := fun x => x + x ^ 3 / 6
    mm := 1 / 10 }

/-- The cell of system 3, layer 2, eta 4, phi 8. -/
def exampleDiscsCell : Nat := 3 + 2 * 2 ^ 4 + 4 * 2 ^ 9 + 8 * 2 ^ 18

/-- Two example cells with their energies, without a position yet. -/
def exampleDiscsCells : List (CalorimeterHit Rat (Rat × Rat × Rat)) :=
  [ { cellID := exampleDiscsCell, energy := 5, position := (0, 0, 0) },
    { cellID := 3 + 1 * 2 ^ 4 + 8 * 2 ^ 9 + 16 * 2 ^ 18, energy := 7, position := (0, 0, 0) } ]

end CellPositionsCaloDiscsTool

namespace MassInv

/-- The tools of the example, in rational numbers and with four-vectors given
by `(pt, eta, phi, e)`. The functions of `cmath` are replaced by rational
expansions (`log x` by `x - 1`, `sinh x` by `x + x ^ 3 / 6`, `cosh x` by
`1 + x ^ 2 / 2`, `sqrt`, `atan` and `exp` by first-order expansions), and a
position `(x, y, z)` is read as eta `z`, phi `y` and radius `x`; the sum of
two four-vectors adds the components; `std::sort` is a merge sort. The grid of a system has cells of 1/100
in eta and of 1/10 in phi, 64 bins in phi, and gives a cell the
pseudorapidity of its field `eta` (bits 17 to 25). The towers all have the
energy 1; a candidate has the tower of eta index 1 (eta below 1/4) or 4 and
of phi index 0 (phi below 1/2) or 3. -/
def exampleTools : MassInvTools Rat (Rat × Rat × Rat × Rat) :=
  { log := fun x => x - 1
    sqrt := fun x => (1 + x) / 2
    sinh := fun x => x + x ^ 3 / 6
    cosh := fun x => 1 + x ^ 2 / 2
    cos := fun x => 1 - x ^ 2 / 2
    sin := fun x => x
    atan := fun x => x
    exp := fun x => 1 + x
    pow := fun x _ => x
    vecEta := fun p => p.2.2
    vecPhi := fun p => p.2.1
    vecPerp := fun p => p.1
    setPtEtaPhiE := fun pt eta phi e => (pt, eta, phi, e)
    lvAdd := fun a b => (a.1 + b.1, a.2.1 + b.2.1, a.2.2.1 + b.2.2.1, a.2.2.2 + b.2.2.2)
    lvNe := fun a b => decide (a ≠ b)
    lvMag := fun a => a.2.2.2
    lvPt := fun a => a.1
    lvEta := fun a => a.2.1
    lvPhi := fun a => a.2.2.1
    stdSort := fun comp l => l.mergeSort (fun a b => !comp b a)
    phiEtaGrid := fun _ =>
      { gridSizeEta := 1 / 100, offsetEta := 0, gridSizePhi := 1 / 10, offsetPhi := 0,
        phiBins := 64, eta := fun id => (((id / 2 ^ 17) % 2 ^ 9 : Nat) : Rat) / 100 }
    subsegmentation := fun _ _ => none
    buildTowers := fun towers => towers.map (fun row => row.map (fun _ => 1))
    idEta := fun eta => if eta < 1 / 4 then 1 else 4
    idPhi := fun phi => if phi < 1 / 2 then 0 else 3 }

/-- The algorithm of the example after `initialize`, with the eta values 0
and 1/5, hence the eta borders 1/10 and 3/10, and the parameters 5 and 7 in
`presamplerShiftP0`. -/
def exampleInitialisedMassInv : MassInv Rat :=
  initialised (exampleMassInvWith [0, 1 / 5] [5, 7]) exampleServicesNoise

/-- The identifier of the cell of system 5 in layer `layer` with the indices
`eta` and `phi`, in the fields `system:4,module:8,layer:5,eta:-9,phi:10`. -/
def exampleCellID (layer eta phi : Nat) : Nat :=
  5 + layer * 2 ^ 12 + eta * 2 ^ 17 + phi * 2 ^ 26

/-- A cluster of energy 30 at eta 1/20 and phi 1, with a cell of energy 10 in
layer 0 and a cell of energy 20 in layer 1, both at the eta index 5 and the
phi index 10, and a cell of energy 40 at the eta index 50, out of the window. -/
def exampleClusterCentral : Cluster Rat :=
  { energy := 30
    position := (2, 1, 1 / 20)
    hits :=
      [ { cellID := exampleCellID 0 5 10, energy := 10, position := (0, 0, 0) },
        { cellID := exampleCellID 0 50 10, energy := 40, position := (0, 0, 0) },
        { cellID := exampleCellID 1 5 10, energy := 20, position := (0, 0, 0) } ] }

/-- A cluster of energy 30 at eta 1/2 and phi 1, with a cell of energy 30 in
layer 0 at the eta index 50 and the phi index 10: its pseudorapidity is above
the last eta border 3/10. -/
def exampleClusterForward : Cluster Rat :=
  { energy := 30
    position := (2, 1, 1 / 2)
    hits := [ { cellID := exampleCellID 0 50 10, energy := 30, position := (0, 0, 0) } ] }

end MassInv

namespace MassInv

/-- What `execute` leaves on the example for the input clusters `inClusters`,
without generated particles and with every number drawn equal to 1; nothing
when `execute` is left through an error. -/
def exampleExecuted (inClusters : List (Cluster Rat)) :
    ExecuteResult Rat (Rat × Rat × Rat × Rat) :=
  match execute exampleInitialisedMassInv exampleTools inClusters [] (fun _ => 1) with
  | .ok (_, r) => r
  | .error _ => { outcomes := [], fills := [] }

end MassInv

namespace MassInv

/-- A cluster of energy 30 at eta 1/20 and phi 3/10, with a cell of energy 30
in layer 0 at the eta index 5 and the phi index 3; its candidate has the
tower of eta index 1 and of phi index 0. -/
def exampleClusterLowPhi : Cluster Rat :=
  { energy := 30
    position := (2, 3 / 10, 1 / 20)
    hits := [ { cellID := exampleCellID 0 5 3, energy := 30, position := (0, 0, 0) } ] }

/-- The towers built on the example: 10 by 10 towers of energy 1. -/
def exampleTowers : List (List Rat) :=
  exampleTools.buildTowers (List.replicate 10 (List.replicate 10 0))

end MassInv

namespace MassInv

end MassInv

namespace CellPositionsCaloDiscsTool

/-- The tool set to the readout `HCalWide` of the example detector, which has
a phi-eta segmentation and the fields `system`, `module` and `phi`. -/
def exampleToolNoLayer : CellPositionsCaloDiscsTool Int :=
  { exampleTool with m_readoutName := "HCalWide" }

/-- The tool after `initialize`; the tool as before when `initialize` throws. -/
def initialisedTool (self : CellPositionsCaloDiscsTool Int) (svc : Services Int) :
    CellPositionsCaloDiscsTool Int :=
  match initialise self svc with
  | .ok (_, self') => self'
  | .error _ => self

end CellPositionsCaloDiscsTool

namespace MassInv

/-- A cluster of energy 30 at eta 1/20 and phi 1/10, in the phi bin 1, with a
cell of energy 30 in layer 0 at the eta index 5 and the phi index 1: the
window of 7 bins in phi around the bin 1 wraps around the bin 0. -/
def exampleClusterPhiEdge : Cluster Rat :=
  { energy := 30
    position := (2, 1 / 10, 1 / 20)
    hits := [ { cellID := exampleCellID 0 5 1, energy := 30, position := (0, 0, 0) } ] }

/-- The scaled candidates that the loop over the clusters of `inClusters`
leaves on the example, in the order of the clusters. -/
def exampleCandidates (inClusters : List (Cluster Rat)) : List (Rat × Rat × Rat × Rat) :=
  match clusterLoop exampleInitialisedMassInv exampleTools 5 [] (fun _ => 1) inClusters 0 with
  | .ok outcomes => outcomes.filterMap fun outcome => outcome.candidate.map Prod.snd
  | .error _ => []

/-- The message of the error through which a call is left, if any. -/
def errorOf {α : Type} (r : Except String α) : Option String :=
  match r with
  | .ok _ => none
  | .error e => some e

end MassInv

namespace MassInv

end MassInv

namespace MassInv

/-- The loop of the integer square root: Newton steps from the guess `g`
while they decrease. -/
def exampleSqrtLoop (n : Nat) : Nat → Nat → Nat
  | 0, g => g
  | fuel + 1, g =>
    let next := (g + n / g) / 2
    if next < g then exampleSqrtLoop n fuel next else g

/-- The square root of the example: exact on the square of a rational number
(numerators and denominators below `2 ^ 64`), rounded down on numerator and
denominator otherwise. -/
def exampleSqrt (x : Rat) : Rat :=
  ((if x.num.toNat = 0 then 0 else exampleSqrtLoop x.num.toNat 64 x.num.toNat : Nat) : Rat) /
    ((exampleSqrtLoop x.den 64 x.den : Nat) : Rat)

/-- The tools of the example with the four-vectors of special relativity, in
rational numbers: a four-vector is `(px, py, pz, e)`, `SetPtEtaPhiE` gives
`(pt cos(phi), pt sin(phi), pt sinh(eta), e)`, the sum adds the components,
`Pt()` is `sqrt(px² + py²)` and `Mag()` is the square root of
`e² - px² - py² - pz²`, with its sign. The azimuths 11/7, -11/7 and 22/7
stand for a quarter of a turn to either side and for the half turn: `cos` and
`sin` have the exact values there and at 0, `sinh` and `cosh` are exact at 0
and `sqrt` is exact on squares. `Eta()` and `Phi()` of a four-vector are
exact for the four-vectors along an axis of the transverse plane. The grid
has the cell of eta index 50 at the pseudorapidity 0 and its first cell in
phi at the azimuth -16/5; the towers all have the energy 1, and a candidate
has the tower of eta index 5 and of phi index 2 (phi below 0) or 7. The
other tools are the ones of `exampleTools`. -/
def exampleLorentzTools : MassInvTools Rat (Rat × Rat × Rat × Rat) :=
  { exampleTools with
    sqrt := exampleSqrt
    cos := fun x =>
      if x = 11 / 7 ∨ x = -11 / 7 then 0 else if x = 22 / 7 then -1 else 1 - x ^ 2 / 2
    sin := fun x =>
      if x = 11 / 7 then 1 else if x = -11 / 7 then -1 else if x = 22 / 7 then 0 else x
    setPtEtaPhiE := fun pt eta phi e =>
      (pt * (if phi = 11 / 7 ∨ phi = -11 / 7 then 0 else if phi = 22 / 7 then -1
          else 1 - phi ^ 2 / 2),
        pt * (if phi = 11 / 7 then 1 else if phi = -11 / 7 then -1 else if phi = 22 / 7 then 0
          else phi),
        pt * (eta + eta ^ 3 / 6), e)
    lvMag := fun a =>
      if a.2.2.2 ^ 2 - a.1 ^ 2 - a.2.1 ^ 2 - a.2.2.1 ^ 2 < 0 then
        -exampleSqrt (-(a.2.2.2 ^ 2 - a.1 ^ 2 - a.2.1 ^ 2 - a.2.2.1 ^ 2))
      else exampleSqrt (a.2.2.2 ^ 2 - a.1 ^ 2 - a.2.1 ^ 2 - a.2.2.1 ^ 2)
    lvPt := fun a => exampleSqrt (a.1 ^ 2 + a.2.1 ^ 2)
    lvEta := fun a => if a.2.2.1 = 0 then 0 else a.2.2.1 / exampleSqrt (a.1 ^ 2 + a.2.1 ^ 2)
    lvPhi := fun a =>
      if a.1 = 0 ∧ a.2.1 > 0 then 11 / 7 else if a.1 = 0 ∧ a.2.1 < 0 then -11 / 7
      else if a.2.1 = 0 ∧ a.1 < 0 then 22 / 7 else 0
    phiEtaGrid := fun _ =>
      { gridSizeEta := 1 / 100, offsetEta := -1 / 2, gridSizePhi := 1 / 10,
        offsetPhi := -16 / 5, phiBins := 64,
        eta := fun id => (((id / 2 ^ 17) % 2 ^ 9 : Nat) : Rat) / 100 - 1 / 2 }
    idEta := fun _ => 5
    idPhi := fun phi => if phi < 0 then 2 else 7 }

/-- The algorithm of the example without pile-up (`m_mu = 0`, so that the
noise added to a cluster is 0 whatever number is drawn) and with the given
threshold on the energy of the window of the isolation. -/
def exampleMassInvQuiet (threshold : Rat) : MassInv Rat :=
  { exampleInitialisedMassInv with m_hcalEnergyThreshold := threshold, m_mu := 0 }

/-- The algorithm of the example without pile-up and with the threshold 100 of
the isolation: the five thresholds are 100, 10, 20, 30 and 40. -/
def exampleMassInvLoose : MassInv Rat := exampleMassInvQuiet 100

/-- A cluster of energy `e` at the pseudorapidity 0 and the azimuth `phi`, with
one cell of energy `e` in layer 0 at the eta index 50 and the phi index
`phiId`. -/
def exampleClusterAt (e phi : Rat) (phiId : Nat) : Cluster Rat :=
  { energy := e
    position := (2, phi, 0)
    hits := [ { cellID := exampleCellID 0 50 phiId, energy := e, position := (0, 0, 0) } ] }

/-- An event of three clusters at the pseudorapidity 0: of energy 25 at a
quarter of a turn, of energy 100 at the opposite azimuth, and of energy 400 at
a quarter of a turn, in this order. -/
def exampleEventBackToBack : List (Cluster Rat) :=
  [exampleClusterAt 25 (11 / 7) 48, exampleClusterAt 100 (-11 / 7) 16,
    exampleClusterAt 400 (11 / 7) 48]

/-- The scaled candidates that the loop over the clusters leaves for
`exampleEventBackToBack` without pile-up: the massless four-vectors
`(0, 25, 0, 25)`, `(0, -100, 0, 100)` and `(0, 400, 0, 400)`. -/
def exampleLorentzCandidates : List (Rat × Rat × Rat × Rat) :=
  [(0, 25, 0, 25), (0, -100, 0, 100), (0, 400, 0, 400)]

end MassInv

namespace MassInv

end MassInv

namespace MassInv

end MassInv
/-! ## Theorems

Facts on the bit-field decoder. -/

namespace BitFieldElement

theorem testBit_mask (f : BitFieldElement) (i : Nat) :
    f.mask.testBit i = (decide (f.offset ≤ i) && decide (i < f.offset + f.width)) := by
  unfold mask
  rw [Nat.testBit_shiftLeft, Nat.testBit_two_pow_sub_one]
  by_cases h : f.offset ≤ i
  · simp [h]; omega
  · simp [h]

theorem rawValue_eq (f : BitFieldElement) (id : Nat) :
    f.rawValue id = (id >>> f.offset) % 2 ^ f.width := by
  apply Nat.eq_of_testBit_eq
  intro i
  unfold rawValue
  rw [Nat.testBit_shiftRight, Nat.testBit_and, testBit_mask, Nat.testBit_mod_two_pow,
    Nat.testBit_shiftRight]
  by_cases h : i < f.width
  · simp [h]
  · simp [h]

theorem rawValue_lt (f : BitFieldElement) (id : Nat) : f.rawValue id < 2 ^ f.width := by
  rw [rawValue_eq]
  exact Nat.mod_lt _ (by positivity)


theorem signBit_iff (r w : Nat) (hr : r < 2 ^ w) :
    (r &&& (1 <<< (w - 1)) != 0) = decide (2 * r ≥ 2 ^ w ∧ 0 < w) := by
  rw [Nat.one_shiftLeft]
  cases w with
  | zero =>
    have : r = 0 := by simpa using hr
    subst this
    simp
  | succ k =>
    have h2 : 2 ^ (k + 1) = 2 * 2 ^ k := by rw [pow_succ]; ring
    simp only [Nat.add_sub_cancel]
    by_cases hge : 2 ^ k ≤ r
    · have hbit : r.testBit k = true := by
        obtain ⟨x, rfl⟩ := Nat.exists_eq_add_of_le hge
        rw [Nat.testBit_two_pow_add_eq, Nat.testBit_lt_two_pow (by omega)]
        rfl
      have hne : r &&& 2 ^ k ≠ 0 := by
        intro h0
        have := congrArg (fun n => n.testBit k) h0
        simp [hbit, Nat.testBit_two_pow_self] at this
      have hd : (2 * r ≥ 2 ^ (k + 1) ∧ 0 < k + 1) := ⟨by omega, by omega⟩
      simp [hne, hd]
    · have hz : r &&& 2 ^ k = 0 := by
        apply Nat.eq_of_testBit_eq
        intro i
        rw [Nat.testBit_and, Nat.zero_testBit, Nat.testBit_two_pow]
        by_cases hik : k = i
        · subst hik
          simp [Nat.testBit_lt_two_pow (Nat.lt_of_not_le hge)]
        · simp [hik]
      have hd : ¬ (2 * r ≥ 2 ^ (k + 1) ∧ 0 < k + 1) := by omega
      simp [hz]
      omega

theorem set_rawValue (f : BitFieldElement) (b : Nat) (v : Int) (b' : Nat)
    (hw : f.offset + f.width ≤ 64) (hset : f.set b v = .ok b') :
    f.rawValue b' = toUInt64 v % 2 ^ f.width := by
  unfold set at hset
  split at hset
  · cases hset
  · cases hset
    rw [rawValue_eq]
    apply Nat.eq_of_testBit_eq
    intro i
    rw [Nat.testBit_mod_two_pow, Nat.testBit_mod_two_pow, Nat.testBit_shiftRight, Nat.testBit_or,
      Nat.testBit_and, Nat.testBit_and, Nat.testBit_xor, Nat.testBit_two_pow_sub_one, testBit_mask,
      Nat.testBit_shiftLeft]
    by_cases h : i < f.width
    · have h1 : f.offset + i < 64 := by omega
      have h2 : f.offset + i < f.offset + f.width := by omega
      simp [h, h1, h2]
    · simp [h]

theorem set_rawValue_other (f g : BitFieldElement) (b : Nat) (v : Int) (b' : Nat)
    (hd : f.disjoint g) (hw : g.offset + g.width ≤ 64) (hset : f.set b v = .ok b') :
    g.rawValue b' = g.rawValue b := by
  unfold set at hset
  split at hset
  · cases hset
  · cases hset
    rw [rawValue_eq, rawValue_eq]
    apply Nat.eq_of_testBit_eq
    intro i
    rw [Nat.testBit_mod_two_pow, Nat.testBit_mod_two_pow, Nat.testBit_shiftRight,
      Nat.testBit_shiftRight, Nat.testBit_or,
      Nat.testBit_and, Nat.testBit_and, Nat.testBit_xor, Nat.testBit_two_pow_sub_one, testBit_mask]
    by_cases h : i < g.width
    · have h1 : g.offset + i < 64 := by omega
      have h2 : ¬ (f.offset ≤ g.offset + i ∧ g.offset + i < f.offset + f.width) := by
        unfold disjoint at hd
        omega
      have h3 : (decide (f.offset ≤ g.offset + i) && decide (g.offset + i < f.offset + f.width))
          = false := by simpa using h2
      simp [h, h1, h3]
    · simp [h]

theorem toInt64_of_lt (n : Nat) (h : n < 2 ^ 63) : toInt64 n = n := by
  unfold toInt64
  have h1 : n % 2 ^ 64 = n := Nat.mod_eq_of_lt (by omega)
  rw [h1, if_pos h]

theorem toInt64_bounds (n : Nat) : -(2 ^ 63) ≤ toInt64 n ∧ toInt64 n < 2 ^ 63 := by
  unfold toInt64
  have h1 : n % 2 ^ 64 < 2 ^ 64 := Nat.mod_lt _ (by norm_num)
  split <;> omega

theorem toInt64_toUInt64 (v : Int) (h1 : -(2 ^ 63) ≤ v) (h2 : v < 2 ^ 63) :
    toInt64 (toUInt64 v) = v := by
  unfold toInt64 toUInt64
  omega

/-- The value of a field read from the raw bits. -/
theorem value_of_rawValue (f : BitFieldElement) (id : Nat) :
    f.value id =
      if f.isSigned = true ∧ 2 * f.rawValue id ≥ 2 ^ f.width ∧ 0 < f.width then
        (f.rawValue id : Int) - 2 ^ f.width
      else toInt64 (f.rawValue id) := by
  unfold value
  rw [signBit_iff _ _ (rawValue_lt f id)]
  by_cases hs : f.isSigned = true <;> by_cases hb : (2 * f.rawValue id ≥ 2 ^ f.width ∧ 0 < f.width)
    <;> simp [hs, hb]

theorem value_bounds (f : BitFieldElement) (id : Nat) (hw : f.offset + f.width ≤ 64) :
    -(2 ^ 63) ≤ f.value id ∧ f.value id < 2 ^ 63 := by
  rw [value_of_rawValue]
  have hlt := rawValue_lt f id
  have hp : (2:Nat) ^ f.width ≤ 2 ^ 64 := Nat.pow_le_pow_right (by norm_num) (by omega)
  split
  · rename_i h
    have : ((2:Int) ^ f.width) = ((2 ^ f.width : Nat) : Int) := by push_cast; rfl
    rw [this]
    omega
  · exact toInt64_bounds _

theorem value_set_same (f : BitFieldElement) (b : Nat) (v : Int) (b' : Nat)
    (hw : f.offset + f.width ≤ 64) (hfit : f.fits v) (hv : v < 2 ^ 63)
    (hset : f.set b v = .ok b') : f.value b' = v := by
  have hraw := set_rawValue f b v b' hw hset
  rw [value_of_rawValue, hraw]
  have hp : (2:Nat) ^ f.width ≤ 2 ^ 64 := Nat.pow_le_pow_right (by norm_num) (by omega)
  have hpos : 0 < (2:Nat) ^ f.width := by positivity
  have hdvd : (2:Nat) ^ f.width ∣ 2 ^ 64 := Nat.pow_dvd_pow 2 (by omega)
  have hcast : ((2:Int) ^ f.width) = ((2 ^ f.width : Nat) : Int) := by push_cast; rfl
  unfold fits at hfit
  rw [hcast] at hfit
  rw [hcast]
  have hw0 : 0 < f.width ∨ (2:Nat) ^ f.width = 1 := by
    rcases Nat.eq_zero_or_pos f.width with h | h
    · right; rw [h]; rfl
    · left; exact h
  generalize hW : (2:Nat) ^ f.width = W at *
  have key : ((toUInt64 v % W : Nat) : Int) = v % (W : Int) := by
    unfold toUInt64
    obtain ⟨c, hc⟩ := hdvd
    have h64 : ((2:Int) ^ 64) = ((W * c : Nat) : Int) := by rw [← hc]; norm_num
    rw [h64]
    have hnn : 0 ≤ v % ((W * c : Nat) : Int) := Int.emod_nonneg _ (by
      have : 0 < W * c := by rw [← hc]; norm_num
      omega)
    rw [Int.natCast_mod, Int.toNat_of_nonneg hnn]
    push_cast
    exact Int.emod_emod_of_dvd v (Dvd.intro _ rfl)
  by_cases hs : f.isSigned = true
  · rw [if_pos hs] at hfit
    by_cases hneg : v < 0
    · have hmod : v % (W : Int) = v + W := by
        rw [← Int.add_emod_self, Int.emod_eq_of_lt (by omega) (by omega)]
      have hcond : f.isSigned = true ∧ 2 * (toUInt64 v % W) ≥ W ∧ 0 < f.width := by
        refine ⟨hs, by omega, ?_⟩
        rcases hw0 with h | h
        · exact h
        · omega
      rw [if_pos hcond, key, hmod]
      omega
    · have hmod : v % (W : Int) = v := Int.emod_eq_of_lt (by omega) (by omega)
      have hcond : ¬ (f.isSigned = true ∧ 2 * (toUInt64 v % W) ≥ W ∧ 0 < f.width) := by
        intro h
        omega
      rw [if_neg hcond, toInt64_of_lt _ (by omega), key, hmod]
  · rw [if_neg hs] at hfit
    have hmod : v % (W : Int) = v := Int.emod_eq_of_lt (by omega) (by omega)
    have hcond : ¬ (f.isSigned = true ∧ 2 * (toUInt64 v % W) ≥ W ∧ 0 < f.width) :=
      fun h => hs h.1
    rw [if_neg hcond, toInt64_of_lt _ (by omega), key, hmod]

theorem value_set_other (f g : BitFieldElement) (b : Nat) (v : Int) (b' : Nat)
    (hd : f.disjoint g) (hw : g.offset + g.width ≤ 64) (hset : f.set b v = .ok b') :
    g.value b' = g.value b := by
  rw [value_of_rawValue, value_of_rawValue, set_rawValue_other f g b v b' hd hw hset]

end BitFieldElement

/-! ## MuonCaloHitDigi: aggregation of the deposits -/

namespace MuonCaloHitDigi

/-- Keys of the cell map. -/
theorem keys_cellsMapAdd {D : Type} [Add D] [Zero D] (m : List (Nat × D)) (c : Nat) (e : D) :
    (cellsMapAdd m c e).map Prod.fst =
      if c ∈ m.map Prod.fst then m.map Prod.fst else m.map Prod.fst ++ [c] := by
  induction m with
  | nil => simp [cellsMapAdd]
  | cons kv rest ih =>
    obtain ⟨k, v⟩ := kv
    by_cases hk : k = c
    · simp [cellsMapAdd, hk]
    · have hk2 : ¬ c = k := fun h => hk h.symm
      by_cases hc : c ∈ rest.map Prod.fst
      · simp [cellsMapAdd, hk, hk2, ih, hc]
      · simp [cellsMapAdd, hk, hk2, ih, hc]

/-- The value held for key `c`, zero when the key is absent. -/
theorem lookup_cellsMapAdd {D : Type} [Add D] [Zero D] (m : List (Nat × D)) (c : Nat) (e : D)
    (c' : Nat) :
    ((cellsMapAdd m c e).lookup c').getD 0 =
      if c' = c then (m.lookup c').getD 0 + e else (m.lookup c').getD 0 := by
  induction m with
  | nil =>
    by_cases h : c' = c
    · simp [cellsMapAdd, List.lookup, h]
    · have hb : (c' == c) = false := by simpa using h
      simp [cellsMapAdd, List.lookup, h, hb]
  | cons kv rest ih =>
    obtain ⟨k, v⟩ := kv
    by_cases hk : k = c
    · subst hk
      by_cases h : c' = k
      · subst h
        simp [cellsMapAdd, List.lookup]
      · have hb : (c' == k) = false := by simpa using h
        simp [cellsMapAdd, List.lookup, h, hb]
    · by_cases h : c' = k
      · subst h
        have hne : ¬ c' = c := hk
        simp [cellsMapAdd, List.lookup, hk, hne]
      · have hb : (c' == k) = false := by simpa using h
        simp [cellsMapAdd, List.lookup, hk, hb, ih]

theorem keys_fillCellsMap {F D : Type} [Add D] [Zero D] (widen : F → D)
    (hits : List (SimTrackerHit F)) (m : List (Nat × D)) :
    ((m.map Prod.fst).Nodup → ((fillCellsMap widen m hits).map Prod.fst).Nodup) ∧
    (∀ c, c ∈ (fillCellsMap widen m hits).map Prod.fst ↔
      c ∈ m.map Prod.fst ∨ c ∈ hits.map (fun h => h.cellID)) := by
  induction hits generalizing m with
  | nil => simp [fillCellsMap]
  | cons h rest ih =>
    have hk := keys_cellsMapAdd m h.cellID (widen h.eDep)
    obtain ⟨ih1, ih2⟩ := ih (cellsMapAdd m h.cellID (widen h.eDep))
    refine ⟨fun hnd => ?_, fun c => ?_⟩
    · apply ih1
      rw [hk]
      by_cases hc : h.cellID ∈ m.map Prod.fst
      · simpa [hc] using hnd
      · rw [if_neg hc]
        exact List.Nodup.append hnd (List.nodup_singleton _) (by
          intro a ha hb
          simp at hb
          exact hc (hb ▸ ha))
    · show c ∈ (fillCellsMap widen (cellsMapAdd m h.cellID (widen h.eDep)) rest).map Prod.fst ↔ _
      rw [ih2 c, hk]
      by_cases hc : h.cellID ∈ m.map Prod.fst
      · rw [if_pos hc]
        constructor
        · rintro (h1 | h1)
          · exact Or.inl h1
          · exact Or.inr (by simp at h1 ⊢; exact Or.inr h1)
        · rintro (h1 | h1)
          · exact Or.inl h1
          · simp at h1
            rcases h1 with h1 | h1
            · exact Or.inl (h1 ▸ hc)
            · exact Or.inr (by simpa using h1)
      · rw [if_neg hc]
        simp only [List.mem_append, List.mem_singleton, List.map_cons, List.mem_cons]
        tauto

theorem value_fillCellsMap {F D : Type} [Add D] [Zero D] (widen : F → D)
    (hits : List (SimTrackerHit F)) (m : List (Nat × D)) (c : Nat) :
    ((fillCellsMap widen m hits).lookup c).getD 0 =
      ((hits.filter (fun h => h.cellID = c)).map (fun h => widen h.eDep)).foldl
        (fun acc e => acc + e) ((m.lookup c).getD 0) := by
  induction hits generalizing m with
  | nil => simp [fillCellsMap]
  | cons h rest ih =>
    show ((fillCellsMap widen (cellsMapAdd m h.cellID (widen h.eDep)) rest).lookup c).getD 0 = _
    rw [ih, lookup_cellsMapAdd]
    by_cases hc : h.cellID = c
    · rw [if_pos hc.symm, List.filter_cons_of_pos (by simpa using hc)]
      rfl
    · rw [if_neg (fun e => hc e.symm), List.filter_cons_of_neg (by simpa using hc)]

theorem lookup_of_mem_nodup {D : Type} (m : List (Nat × D)) (hnd : (m.map Prod.fst).Nodup)
    (k : Nat) (v : D) (hmem : (k, v) ∈ m) : m.lookup k = some v := by
  induction m with
  | nil => simp at hmem
  | cons kv rest ih =>
    obtain ⟨k0, v0⟩ := kv
    simp only [List.map_cons, List.nodup_cons] at hnd
    rcases List.mem_cons.mp hmem with h | h
    · cases h
      simp [List.lookup]
    · have hne : ¬ k = k0 := by
        intro e
        apply hnd.1
        rw [← e]
        exact List.mem_map_of_mem Prod.fst h
      have hb : (k == k0) = false := by simpa using hne
      simp [List.lookup, hb, ih hnd.2 h]

/-- What the second loop of `execute` makes of the entries of the map: hit
by hit the cell identifier, the narrowed energy and the position computed for
the cell. -/
theorem createCells_forall₂ {F D : Type} [LT D] [DecidableRel (fun a b : D => a < b)] [Mul D]
    [Div D] [Sub D] [OfNat D 2] (self : MuonCaloHitDigi D) (geo : PhiThetaGeometry D)
    (narrow : D → F) (cells : List (Nat × D)) (hits : List (CalorimeterHit F (F × F × F)))
    (h : createCells self geo narrow cells = .ok hits) :
    List.Forall₂ (fun cell hit => hit.cellID = cell.1 ∧ hit.energy = narrow cell.2 ∧
      hitPosition self geo narrow cell.1 = .ok hit.position) cells hits := by
  induction cells generalizing hits with
  | nil =>
    simp only [createCells, Except.ok.injEq] at h
    subst h
    exact List.Forall₂.nil
  | cons cell rest ih =>
    simp only [createCells] at h
    split at h
    · simp at h
    · rename_i position hp
      split at h
      · simp at h
      · rename_i more hmore
        simp only [Except.ok.injEq] at h
        subst h
        exact List.Forall₂.cons ⟨rfl, rfl, hp⟩ (ih more hmore)

/-- The identifiers of the hits of the second loop are those of the entries
of the map, in the same order. -/
theorem createCells_keys {F D : Type} [LT D] [DecidableRel (fun a b : D => a < b)] [Mul D]
    [Div D] [Sub D] [OfNat D 2] (self : MuonCaloHitDigi D) (geo : PhiThetaGeometry D)
    (narrow : D → F) (cells : List (Nat × D)) (hits : List (CalorimeterHit F (F × F × F)))
    (h : createCells self geo narrow cells = .ok hits) :
    hits.map (fun h => h.cellID) = cells.map Prod.fst := by
  have hall := createCells_forall₂ self geo narrow cells hits h
  clear h
  induction hall with
  | nil => rfl
  | cons hhead _ ih => simp only [List.map_cons, hhead.1, ih]

/-- Every hit of the second loop comes from an entry of the map. -/
theorem createCells_mem_cell {F D : Type} [LT D] [DecidableRel (fun a b : D => a < b)] [Mul D]
    [Div D] [Sub D] [OfNat D 2] (self : MuonCaloHitDigi D) (geo : PhiThetaGeometry D)
    (narrow : D → F) (cells : List (Nat × D)) (hits : List (CalorimeterHit F (F × F × F)))
    (h : createCells self geo narrow cells = .ok hits) (hit : CalorimeterHit F (F × F × F))
    (hhit : hit ∈ hits) :
    ∃ cell ∈ cells, hit.cellID = cell.1 ∧ hit.energy = narrow cell.2 := by
  have hall := createCells_forall₂ self geo narrow cells hits h
  clear h
  induction hall with
  | nil => simp at hhit
  | cons hhead _ ih =>
    rcases List.mem_cons.mp hhit with rfl | hm
    · exact ⟨_, List.mem_cons_self _ _, hhead.1, hhead.2.1⟩
    · obtain ⟨cell, hc, hcell⟩ := ih hm
      exact ⟨cell, List.mem_cons_of_mem _ hc, hcell⟩

/-- The second loop of `execute` comes to its end exactly when the position
of every cell of the map is computed without an error. -/
theorem createCells_returns {F D : Type} [LT D] [DecidableRel (fun a b : D => a < b)] [Mul D]
    [Div D] [Sub D] [OfNat D 2] (self : MuonCaloHitDigi D) (geo : PhiThetaGeometry D)
    (narrow : D → F) (cells : List (Nat × D)) :
    (∃ hits, createCells self geo narrow cells = .ok hits) ↔
      ∀ cell ∈ cells, ∃ position, hitPosition self geo narrow cell.1 = .ok position := by
  induction cells with
  | nil => simp [createCells]
  | cons cell rest ih =>
    constructor
    · rintro ⟨hits, h⟩
      simp only [createCells] at h
      split at h
      · simp at h
      · rename_i position hp
        split at h
        · simp at h
        · rename_i more hmore
          intro c hc
          rcases List.mem_cons.mp hc with rfl | hc
          · exact ⟨position, hp⟩
          · exact ih.mp ⟨more, hmore⟩ c hc
    · intro hall
      obtain ⟨position, hp⟩ := hall cell (List.mem_cons_self _ _)
      obtain ⟨more, hmore⟩ := ih.mpr fun c hc => hall c (List.mem_cons_of_mem _ hc)
      exact ⟨_, by simp only [createCells, hp, hmore]; rfl⟩

/-- The position of a cell does not depend on the map of the deposits. -/
theorem hitPosition_cellsMap {F D : Type} [LT D] [DecidableRel (fun a b : D => a < b)] [Mul D]
    [Div D] [Sub D] [OfNat D 2] (self : MuonCaloHitDigi D) (m : List (Nat × D))
    (geo : PhiThetaGeometry D) (narrow : D → F) (cellID : Nat) :
    hitPosition { self with m_cellsMap := m } geo narrow cellID =
      hitPosition self geo narrow cellID := rfl

/-- The second loop of `execute` does not depend on the map held by the
algorithm before the call. -/
theorem createCells_cellsMap {F D : Type} [LT D] [DecidableRel (fun a b : D => a < b)] [Mul D]
    [Div D] [Sub D] [OfNat D 2] (self : MuonCaloHitDigi D) (m : List (Nat × D))
    (geo : PhiThetaGeometry D) (narrow : D → F) (cells : List (Nat × D)) :
    createCells { self with m_cellsMap := m } geo narrow cells =
      createCells self geo narrow cells := by
  induction cells with
  | nil => rfl
  | cons cell rest ih => simp only [createCells, ih, hitPosition_cellsMap]

/-- A run of `execute` that returns: its status, its hits and the algorithm
it leaves. -/
theorem digi_execute_ok {F D : Type} [LT D] [DecidableRel (fun a b : D => a < b)] [Add D] [Zero D]
    [Mul D] [Div D] [Sub D] [OfNat D 2] (widen : F → D) (narrow : D → F)
    (geo : PhiThetaGeometry D) (iter : List (Nat × D) → List (Nat × D))
    (self self1 : MuonCaloHitDigi D) (input_sim_hits : List (SimTrackerHit F))
    (sc : StatusCode) (hits : List (CalorimeterHit F (F × F × F)))
    (h : execute widen narrow geo iter self input_sim_hits = .ok (sc, hits, self1)) :
    sc = StatusCode.SUCCESS ∧
    createCells self geo narrow (iter (fillCellsMap widen [] input_sim_hits)) = .ok hits ∧
    self1 = { self with m_cellsMap := fillCellsMap widen [] input_sim_hits } := by
  unfold execute at h
  simp only at h
  split at h
  · simp at h
  · rename_i created hcreated
    simp only [Except.ok.injEq, Prod.mk.injEq] at h
    obtain ⟨h1, h2, h3⟩ := h
    subst h2
    exact ⟨h1.symm, hcreated, h3.symm⟩

/-- The cells of the traversal of the map are the cells of the input. -/
theorem iter_cells {F D : Type} [Add D] [Zero D] (widen : F → D)
    (iter : List (Nat × D) → List (Nat × D)) (hiter : ∀ m, (iter m).Perm m)
    (input_sim_hits : List (SimTrackerHit F)) (c : Nat) :
    (∃ cell ∈ iter (fillCellsMap widen [] input_sim_hits), cell.1 = c) ↔
      ∃ hit ∈ input_sim_hits, hit.cellID = c := by
  obtain ⟨_, hmem⟩ := keys_fillCellsMap widen input_sim_hits ([] : List (Nat × D))
  have hperm := hiter (fillCellsMap widen [] input_sim_hits)
  have h1 := hmem c
  simp only [List.map_nil, List.not_mem_nil, false_or, List.mem_map] at h1
  rw [← h1]
  constructor
  · rintro ⟨cell, hc, rfl⟩
    exact ⟨cell, hperm.mem_iff.mp hc, rfl⟩
  · rintro ⟨cell, hc, rfl⟩
    exact ⟨cell, hperm.mem_iff.mpr hc, rfl⟩

/-- `execute` returns exactly when the position of every cell of the input is
computed without an error. -/
theorem execute_returns_iff {F D : Type} [LT D] [DecidableRel (fun a b : D => a < b)] [Add D]
    [Zero D] [Mul D] [Div D] [Sub D] [OfNat D 2] (widen : F → D) (narrow : D → F)
    (geo : PhiThetaGeometry D) (iter : List (Nat × D) → List (Nat × D))
    (hiter : ∀ m, (iter m).Perm m) (self : MuonCaloHitDigi D)
    (input_sim_hits : List (SimTrackerHit F)) :
    (∃ r, execute widen narrow geo iter self input_sim_hits = .ok r) ↔
      ∀ hit ∈ input_sim_hits, ∃ position,
        hitPosition self geo narrow hit.cellID = .ok position := by
  have hcells := iter_cells widen iter hiter input_sim_hits
  constructor
  · rintro ⟨⟨sc, hits, self1⟩, h⟩ hit hhit
    obtain ⟨_, hcreated, _⟩ := digi_execute_ok _ _ _ _ _ _ _ _ _ h
    obtain ⟨cell, hc, he⟩ := (hcells hit.cellID).mpr ⟨hit, hhit, rfl⟩
    have := (createCells_returns self geo narrow _).mp ⟨hits, hcreated⟩ cell hc
    rw [he] at this
    exact this
  · intro hall
    have hdef : ∀ cell ∈ iter (fillCellsMap widen [] input_sim_hits),
        ∃ position, hitPosition self geo narrow cell.1 = .ok position := by
      intro cell hc
      obtain ⟨hit, hhit, he⟩ := (hcells cell.1).mp ⟨cell, hc, rfl⟩
      rw [← he]
      exact hall hit hhit
    obtain ⟨hits, hcreated⟩ := (createCells_returns self geo narrow _).mpr hdef
    exact ⟨_, by simp only [execute, hcreated]; rfl⟩

/-- C1: for every input collection and every traversal order of the cell map,
`MuonCaloHitDigi::execute` returns exactly when the position of every cell
of the input is computed without an exception or an access out of a vector;
a run that returns has the status SUCCESS and emits exactly one output hit per
distinct cell identifier of the input: the identifiers of the output hits are
pairwise different and are exactly those occurring in the input. The energy of
the output hit of cell `c` is the sum of the deposits of the input hits of cell
`c` (accumulated in input order in double precision, stored in single
precision). -/
theorem execute_one_hit_per_cellID {F D : Type} [LinearOrder D] [Add D] [Zero D] [Mul D]
    [Div D] [Sub D] [OfNat D 2] (widen : F → D) (narrow : D → F) (geo : PhiThetaGeometry D)
    (iter : List (Nat × D) → List (Nat × D)) (hiter : ∀ m, (iter m).Perm m)
    (self : MuonCaloHitDigi D) (input_sim_hits : List (SimTrackerHit F)) :
    ((∃ r, execute widen narrow geo iter self input_sim_hits = .ok r) ↔
      ∀ hit ∈ input_sim_hits, ∃ position,
        hitPosition self geo narrow hit.cellID = .ok position) ∧
    ∀ sc hits self1, execute widen narrow geo iter self input_sim_hits = .ok (sc, hits, self1) →
      sc = StatusCode.SUCCESS ∧
      (hits.map (fun h => h.cellID)).Nodup ∧
      (∀ c, c ∈ hits.map (fun h => h.cellID) ↔ c ∈ input_sim_hits.map (fun h => h.cellID)) ∧
      (∀ h ∈ hits, h.energy = narrow (summedEDep widen input_sim_hits h.cellID)) := by
  obtain ⟨hnd, hmem⟩ := keys_fillCellsMap widen input_sim_hits ([] : List (Nat × D))
  have hperm := hiter (fillCellsMap widen [] input_sim_hits)
  refine ⟨execute_returns_iff widen narrow geo iter hiter self input_sim_hits, ?_⟩
  intro sc hits self1 h
  · obtain ⟨hsc, hcreated, _⟩ := digi_execute_ok _ _ _ _ _ _ _ _ _ h
    have hkeys := createCells_keys self geo narrow _ _ hcreated
    refine ⟨hsc, ?_, ?_, ?_⟩
    · rw [hkeys]
      exact ((hperm.map Prod.fst).nodup_iff).mpr (hnd (by simp))
    · intro c
      rw [hkeys, (hperm.map Prod.fst).mem_iff, hmem c]
      simp
    · intro hit hhit
      obtain ⟨cell, hcell, hid, hen⟩ := createCells_mem_cell self geo narrow _ _ hcreated hit hhit
      have hin : cell ∈ fillCellsMap widen [] input_sim_hits := hperm.mem_iff.mp hcell
      have hl := lookup_of_mem_nodup _ (hnd (by simp)) cell.1 cell.2 hin
      have hv := value_fillCellsMap widen input_sim_hits ([] : List (Nat × D)) cell.1
      rw [hl] at hv
      rw [hen, hid]
      unfold summedEDep
      exact congrArg narrow hv

/-- Witness of C1: three hits in a barrel cell and an endcap cell on the
initialised example, the map traversed in reverse order; on the digitiser
that has not been initialised `execute` throws. -/
theorem execute_one_hit_per_cellID_witness :
    (∀ m : List (Nat × Rat), (List.reverse m).Perm m) ∧
    Except.map (fun r => (r.1, r.2.1.map fun h => (h.cellID, h.energy)))
      (execute (fun e : Rat => e) (fun e : Rat => e) exampleGeometry List.reverse
        exampleInitialisedDigi exampleMuonHits) =
      .ok (StatusCode.SUCCESS, [(13, 7), (28, 8)]) ∧
    errorOf (execute (fun e : Rat => e) (fun e : Rat => e) exampleGeometry List.reverse
      exampleMuonDigi exampleMuonHits) = some "null decoder" ∧
    (((∃ r, execute (fun e : Rat => e) (fun e : Rat => e) exampleGeometry List.reverse
        exampleInitialisedDigi exampleMuonHits = .ok r) ↔
      ∀ hit ∈ exampleMuonHits, ∃ position,
        hitPosition exampleInitialisedDigi exampleGeometry (fun e : Rat => e) hit.cellID =
          .ok position) ∧
    ∀ sc hits self1,
      execute (fun e : Rat => e) (fun e : Rat => e) exampleGeometry List.reverse
        exampleInitialisedDigi exampleMuonHits = .ok (sc, hits, self1) →
      sc = StatusCode.SUCCESS ∧
      (hits.map (fun h => h.cellID)).Nodup ∧
      (∀ c, c ∈ hits.map (fun h => h.cellID) ↔ c ∈ exampleMuonHits.map (fun h => h.cellID)) ∧
      (∀ h ∈ hits, h.energy = (fun e : Rat => e)
        (summedEDep (fun e : Rat => e) exampleMuonHits h.cellID))) :=
  ⟨fun m => List.reverse_perm m, by with_unfolding_all rfl, by with_unfolding_all rfl,
    execute_one_hit_per_cellID (fun e : Rat => e) (fun e : Rat => e) exampleGeometry
      List.reverse (fun m => List.reverse_perm m) exampleInitialisedDigi exampleMuonHits⟩

/-- C2: `MuonCaloHitDigi::execute` carries no state between events. After a
run of `execute` on event `A` that returns, the run on event `B` gives what
the run on `B` alone gives from the state before `A`: the same result (status,
hits and map, or the same exception) when the map is traversed in the same
order, and, whatever the traversal orders of the two runs, a run that returns
exactly when the other does, with the same collection of hits and the same
map. The cell map is cleared at the start of every `execute`. -/
theorem execute_no_state_between_events {F D : Type} [LinearOrder D] [Add D] [Zero D] [Mul D]
    [Div D] [Sub D] [OfNat D 2] (widen : F → D) (narrow : D → F) (geo : PhiThetaGeometry D)
    (iterA iterB iterAlone : List (Nat × D) → List (Nat × D))
    (hB : ∀ m, (iterB m).Perm m) (hAlone : ∀ m, (iterAlone m).Perm m)
    (self selfA : MuonCaloHitDigi D) (A B : List (SimTrackerHit F)) (scA : StatusCode)
    (hitsA : List (CalorimeterHit F (F × F × F)))
    (hA : execute widen narrow geo iterA self A = .ok (scA, hitsA, selfA)) :
    execute widen narrow geo iterB selfA B = execute widen narrow geo iterB self B ∧
    ((∃ r, execute widen narrow geo iterB selfA B = .ok r) ↔
      ∃ r, execute widen narrow geo iterAlone self B = .ok r) ∧
    ∀ scAB hitsAB selfAB scB hitsB selfB,
      execute widen narrow geo iterB selfA B = .ok (scAB, hitsAB, selfAB) →
      execute widen narrow geo iterAlone self B = .ok (scB, hitsB, selfB) →
      scAB = scB ∧ hitsAB.Perm hitsB ∧ selfAB = selfB := by
  obtain ⟨_, _, hselfA⟩ := digi_execute_ok _ _ _ _ _ _ _ _ _ hA
  have hsame : ∀ iter, execute widen narrow geo iter selfA B =
      execute widen narrow geo iter self B := by
    intro iter
    subst hselfA
    unfold execute
    simp only [createCells_cellsMap]
  refine ⟨hsame iterB, ?_, ?_⟩
  · rw [hsame iterB, execute_returns_iff widen narrow geo iterB hB self B,
      execute_returns_iff widen narrow geo iterAlone hAlone self B]
  · intro scAB hitsAB selfAB scB hitsB selfB hAB hBalone
    rw [hsame iterB] at hAB
    obtain ⟨h1, hc1, hs1⟩ := digi_execute_ok _ _ _ _ _ _ _ _ _ hAB
    obtain ⟨h2, hc2, hs2⟩ := digi_execute_ok _ _ _ _ _ _ _ _ _ hBalone
    refine ⟨by rw [h1, h2], ?_, by rw [hs1, hs2]⟩
    have hf1 := createCells_forall₂ self geo narrow _ _ hc1
    have hf2 := createCells_forall₂ self geo narrow _ _ hc2
    have hperm : (iterAlone (fillCellsMap widen [] B)).Perm (iterB (fillCellsMap widen [] B)) :=
      (hAlone _).trans (hB _).symm
    obtain ⟨w, hw1, hw2⟩ := List.perm_comp_forall₂ hperm hf1
    have hunique : Relator.RightUnique (fun (cell : Nat × D)
        (hit : CalorimeterHit F (F × F × F)) =>
        hit.cellID = cell.1 ∧ hit.energy = narrow cell.2 ∧
          hitPosition self geo narrow cell.1 = .ok hit.position) := by
      intro cell hit1 hit2 ⟨a1, a2, a3⟩ ⟨b1, b2, b3⟩
      cases hit1
      cases hit2
      simp only at a1 a2 a3 b1 b2 b3
      rw [a3] at b3
      simp only [Except.ok.injEq] at b3
      simp only [a1, a2, b1, b2, b3]
    have hweq : w = hitsB := Relator.RightUnique.forall₂ hunique hw1 hf2
    rw [hweq] at hw2
    exact hw2.symm

/-- Witness of C2: event `B` after event `A` on the initialised example, with
different traversal orders. -/
theorem execute_no_state_between_events_witness :
    (∀ m : List (Nat × Rat), (List.reverse m).Perm m) ∧
    (∀ m : List (Nat × Rat), (id m).Perm m) ∧
    execute (fun e : Rat => e) (fun e : Rat => e) exampleGeometry id exampleInitialisedDigi
      exampleMuonHits =
      .ok (StatusCode.SUCCESS, examplePositionedHits,
        { exampleInitialisedDigi with m_cellsMap := [(28, 8), (13, 7)] }) ∧
    Except.map (fun r => r.2.1.map fun h => (h.cellID, h.energy))
      (execute (fun e : Rat => e) (fun e : Rat => e) exampleGeometry List.reverse
        { exampleInitialisedDigi with m_cellsMap := [(28, 8), (13, 7)] } exampleMuonHitsB) =
      .ok [(12, 1), (13, 8)] ∧
    Except.map (fun r => r.2.1.map fun h => (h.cellID, h.energy))
      (execute (fun e : Rat => e) (fun e : Rat => e) exampleGeometry id
        exampleInitialisedDigi exampleMuonHitsB) = .ok [(13, 8), (12, 1)] ∧
    (execute (fun e : Rat => e) (fun e : Rat => e) exampleGeometry List.reverse
        { exampleInitialisedDigi with m_cellsMap := [(28, 8), (13, 7)] } exampleMuonHitsB =
      execute (fun e : Rat => e) (fun e : Rat => e) exampleGeometry List.reverse
        exampleInitialisedDigi exampleMuonHitsB ∧
    ((∃ r, execute (fun e : Rat => e) (fun e : Rat => e) exampleGeometry List.reverse
        { exampleInitialisedDigi with m_cellsMap := [(28, 8), (13, 7)] } exampleMuonHitsB =
          .ok r) ↔
      ∃ r, execute (fun e : Rat => e) (fun e : Rat => e) exampleGeometry id
        exampleInitialisedDigi exampleMuonHitsB = .ok r) ∧
    ∀ scAB hitsAB selfAB scB hitsB selfB,
      execute (fun e : Rat => e) (fun e : Rat => e) exampleGeometry List.reverse
        { exampleInitialisedDigi with m_cellsMap := [(28, 8), (13, 7)] } exampleMuonHitsB =
          .ok (scAB, hitsAB, selfAB) →
      execute (fun e : Rat => e) (fun e : Rat => e) exampleGeometry id
        exampleInitialisedDigi exampleMuonHitsB = .ok (scB, hitsB, selfB) →
      scAB = scB ∧ hitsAB.Perm hitsB ∧ selfAB = selfB) :=
  ⟨fun m => List.reverse_perm m, fun m => List.Perm.refl m, by with_unfolding_all rfl,
    by with_unfolding_all rfl, by with_unfolding_all rfl,
    execute_no_state_between_events (fun e : Rat => e) (fun e : Rat => e) exampleGeometry
      id List.reverse id (fun m => List.reverse_perm m) (fun m => List.Perm.refl m)
      exampleInitialisedDigi _ exampleMuonHits exampleMuonHitsB _ _
      (by with_unfolding_all rfl)⟩

end MuonCaloHitDigi
/-! ## RewriteHCalBarrelBitfield -/

namespace BitField64

theorem index_mem (d : BitField64) (name : String) (f : BitFieldElement)
    (h : d.index name = .ok f) : f ∈ d.fields ∧ f.name = name := by
  unfold index at h
  split at h
  · rename_i g hg
    cases h
    exact ⟨List.mem_reverse.mp (List.mem_of_find?_eq_some hg), by simpa using List.find?_some hg⟩
  · cases h

theorem index_congr (d d' : BitField64) (hf : d'.fields = d.fields) (name : String) :
    d'.index name = d.index name := by
  unfold index
  rw [hf]

theorem assign_ok (d : BitField64) (name : String) (v : Int) (d' : BitField64)
    (h : d.assign name v = .ok d') :
    ∃ f b, d.index name = .ok f ∧ f.set d.value v = .ok b ∧ d'.value = b ∧
      d'.fields = d.fields := by
  unfold assign at h
  cases hidx : d.index name with
  | error e => simp [hidx] at h
  | ok f =>
    cases hset : f.set d.value v with
    | error e => simp [hidx, hset] at h
    | ok b =>
      simp only [hidx, hset] at h
      cases h
      exact ⟨f, b, rfl, hset, rfl, rfl⟩

theorem get_ok (d : BitField64) (name : String) (v : Int) (h : d.get name = .ok v) :
    ∃ f, d.index name = .ok f ∧ v = f.value d.value := by
  unfold get at h
  cases hidx : d.index name with
  | error e => simp [hidx] at h
  | ok f =>
    simp only [hidx] at h
    cases h
    exact ⟨f, rfl, rfl⟩

/-- Assigning to the field `name` leaves the value of every field of another
name as it was. -/
theorem assign_other (d d' : BitField64) (name : String) (v : Int) (e : BitFieldElement)
    (hwf : wellFormed d.fields) (he : e ∈ d.fields) (hne : e.name ≠ name)
    (h : d.assign name v = .ok d') : e.value d'.value = e.value d.value ∧ d'.fields = d.fields := by
  obtain ⟨f, b, hidx, hset, hval, hfields⟩ := assign_ok d name v d' h
  obtain ⟨hfm, hfn⟩ := index_mem d name f hidx
  refine ⟨?_, hfields⟩
  rw [hval]
  exact BitFieldElement.value_set_other f e d.value v b
    (hwf.2 f hfm e he (by rw [hfn]; exact fun h => hne h.symm)) (hwf.1 e he) hset

/-- Assigning a value that fits to the field `name` makes the field hold it. -/
theorem assign_same (d d' : BitField64) (name : String) (v : Int) (e : BitFieldElement)
    (hwf : wellFormed d.fields) (he : d.index name = .ok e) (hfit : e.fits v) (hv : v < 2 ^ 63)
    (h : d.assign name v = .ok d') : e.value d'.value = v ∧ d'.fields = d.fields := by
  obtain ⟨f, b, hidx, hset, hval, hfields⟩ := assign_ok d name v d' h
  rw [he] at hidx
  cases hidx
  refine ⟨?_, hfields⟩
  rw [hval]
  exact BitFieldElement.value_set_same e d.value v b (hwf.1 e (index_mem d name e he).1) hfit hv hset

end BitField64

namespace RewriteHCalBarrelBitfield

theorem offsetPhiIds_eq : offsetPhiIds = 193 := by decide

/-- The two assignments made by `rewriteField`. -/
theorem rewriteField_ok (o n n1 : BitField64) (g : String) (h : rewriteField o n g = .ok n1) :
    ∃ oldval na v2, o.get g = .ok oldval ∧
      n.assign g (toInt64 (toUInt64 oldval)) = .ok na ∧ na.assign g v2 = .ok n1 ∧
      ((g = "module" ∧ ∃ p, o.get "phi" = .ok p ∧ v2 = (newModuleId p : Nat)) ∨
       (g ≠ "module" ∧ v2 = toInt64 (toUInt64 oldval))) := by
  unfold rewriteField at h
  cases hget : o.get g with
  | error e => simp [hget] at h
  | ok oldval =>
    cases hna : n.assign g (toInt64 (toUInt64 oldval)) with
    | error e => simp [hget, hna] at h
    | ok na =>
      simp only [hget, hna] at h
      by_cases hg : g = "module"
      · rw [if_pos hg] at h
        cases hphi : o.get "phi" with
        | error e => simp [hphi] at h
        | ok p =>
          simp only [hphi] at h
          exact ⟨oldval, na, _, rfl, hna, h, Or.inl ⟨hg, p, rfl, rfl⟩⟩
      · rw [if_neg hg] at h
        exact ⟨oldval, na, _, rfl, hna, h, Or.inr ⟨hg, rfl⟩⟩

theorem rewriteField_fields (o n n1 : BitField64) (g : String)
    (h : rewriteField o n g = .ok n1) : n1.fields = n.fields := by
  obtain ⟨oldval, na, v2, _, h1, h2, _⟩ := rewriteField_ok o n n1 g h
  obtain ⟨_, _, _, _, _, hf1⟩ := BitField64.assign_ok _ _ _ _ h1
  obtain ⟨_, _, _, _, _, hf2⟩ := BitField64.assign_ok _ _ _ _ h2
  rw [hf2, hf1]

/-- Rewriting the field `g` does not touch a field of another name. -/
theorem rewriteField_other (o n n1 : BitField64) (g : String) (e : BitFieldElement)
    (hwf : BitField64.wellFormed n.fields) (he : e ∈ n.fields) (hne : e.name ≠ g)
    (h : rewriteField o n g = .ok n1) : e.value n1.value = e.value n.value := by
  obtain ⟨oldval, na, v2, _, h1, h2, _⟩ := rewriteField_ok o n n1 g h
  obtain ⟨hv1, hf1⟩ := BitField64.assign_other n na g _ e hwf he hne h1
  have hwf1 : BitField64.wellFormed na.fields := by rw [hf1]; exact hwf
  have he1 : e ∈ na.fields := by rw [hf1]; exact he
  obtain ⟨hv2, _⟩ := BitField64.assign_other na n1 g _ e hwf1 he1 hne h2
  rw [hv2, hv1]

/-- Rewriting a field other than `module` copies its value from the old
decoder, when the value fits the field of the new decoder. -/
theorem rewriteField_copy (o n n1 : BitField64) (g : String) (e : BitFieldElement) (v : Int)
    (hwfo : BitField64.wellFormed o.fields) (hwf : BitField64.wellFormed n.fields)
    (he : n.index g = .ok e) (hg : g ≠ "module") (hv : o.get g = .ok v) (hfit : e.fits v)
    (h : rewriteField o n g = .ok n1) : e.value n1.value = v := by
  obtain ⟨eo, heo, hveo⟩ := BitField64.get_ok o g v hv
  have hb := BitFieldElement.value_bounds eo o.value (hwfo.1 eo (BitField64.index_mem o g eo heo).1)
  rw [← hveo] at hb
  have hrt : toInt64 (toUInt64 v) = v := BitFieldElement.toInt64_toUInt64 v hb.1 hb.2
  obtain ⟨oldval, na, v2, h0, h1, h2, hcase⟩ := rewriteField_ok o n n1 g h
  have hov : oldval = v := by
    rw [hv] at h0
    exact (Except.ok.inj h0).symm
  rw [hov] at h1 hcase
  rcases hcase with ⟨hm, _⟩ | ⟨_, hv2⟩
  · exact absurd hm hg
  · rw [hrt] at h1 hv2
    rw [hv2] at h2
    obtain ⟨_, hf1⟩ := BitField64.assign_same n na g v e hwf he hfit hb.2 h1
    have hwf1 : BitField64.wellFormed na.fields := by rw [hf1]; exact hwf
    have he1 : na.index g = .ok e := by rw [BitField64.index_congr n na hf1]; exact he
    exact (BitField64.assign_same na n1 g v e hwf1 he1 hfit hb.2 h2).1

/-- Rewriting the field `module` stores the module number computed from the
`phi` field of the old decoder, when that number fits the field of the new
decoder. -/
theorem rewriteField_module (o n n1 : BitField64) (e : BitFieldElement) (p : Int)
    (hwf : BitField64.wellFormed n.fields)
    (he : n.index "module" = .ok e) (hp : o.get "phi" = .ok p)
    (hfit : e.fits (newModuleId p : Nat))
    (h : rewriteField o n "module" = .ok n1) : e.value n1.value = (newModuleId p : Nat) := by
  have hlt : ((newModuleId p : Nat) : Int) < 2 ^ 63 := by
    have : newModuleId p < 2 ^ 32 := Nat.mod_lt _ (by norm_num)
    omega
  obtain ⟨oldval, na, v2, h0, h1, h2, hcase⟩ := rewriteField_ok o n n1 "module" h
  obtain ⟨_, _, _, _, _, hf1⟩ := BitField64.assign_ok _ _ _ _ h1
  have hwf1 : BitField64.wellFormed na.fields := by rw [hf1]; exact hwf
  have he1 : na.index "module" = .ok e := by rw [BitField64.index_congr n na hf1]; exact he
  rcases hcase with ⟨_, p', hp', hv2⟩ | ⟨hm, _⟩
  · rw [hp] at hp'
    cases hp'
    subst hv2
    exact (BitField64.assign_same na n1 "module" _ e hwf1 he1 hfit hlt h2).1
  · exact absurd rfl hm

end RewriteHCalBarrelBitfield

namespace RewriteHCalBarrelBitfield

theorem rewriteFields_fields (o : BitField64) (ids : List String) (n n' : BitField64)
    (h : rewriteFields o n ids = .ok n') : n'.fields = n.fields := by
  induction ids generalizing n with
  | nil =>
    simp only [rewriteFields] at h
    cases h
    rfl
  | cons g rest ih =>
    simp only [rewriteFields] at h
    cases h1 : rewriteField o n g with
    | error e => simp [h1] at h
    | ok n1 =>
      simp only [h1] at h
      rw [ih n1 h, rewriteField_fields o n n1 g h1]

/-- A value given to the field `f` by its own rewriting step is still there
after all identifiers have been rewritten. -/
theorem rewriteFields_holds (o : BitField64) (f : String) (e : BitFieldElement) (t : Int)
    (nf : List BitFieldElement) (hwf : BitField64.wellFormed nf)
    (he : e ∈ nf) (hname : e.name = f)
    (hA : ∀ n n1 : BitField64, n.fields = nf → rewriteField o n f = .ok n1 → e.value n1.value = t)
    (ids : List String) (n n' : BitField64) (hn : n.fields = nf)
    (h : rewriteFields o n ids = .ok n') (hP : e.value n.value = t ∨ f ∈ ids) :
    e.value n'.value = t := by
  induction ids generalizing n with
  | nil =>
    simp only [rewriteFields] at h
    cases h
    rcases hP with hP | hP
    · exact hP
    · simp at hP
  | cons g rest ih =>
    simp only [rewriteFields] at h
    cases h1 : rewriteField o n g with
    | error e => simp [h1] at h
    | ok n1 =>
      simp only [h1] at h
      have hn1 : n1.fields = nf := by rw [rewriteField_fields o n n1 g h1, hn]
      apply ih n1 hn1 h
      by_cases hg : g = f
      · left
        rw [hg] at h1
        exact hA n n1 hn h1
      · rcases hP with hP | hP
        · left
          rw [rewriteField_other o n n1 g e (hn ▸ hwf) (hn ▸ he)
            (by rw [hname]; exact fun h => hg h.symm) h1]
          exact hP
        · right
          rcases List.mem_cons.mp hP with hP | hP
          · exact absurd hP.symm hg
          · exact hP

/-- Every output hit of the loop over the input hits is related to its input
hit by any relation that holds for one pass of the loop body. -/
theorem rewriteHits_forall₂ {F : Type} (ids : List String) (seg : Option Segmentation)
    (R : CaloHit F → CaloHit F → Prop) (oldFields newFields : List BitFieldElement)
    (hR : ∀ (hit : CaloHit F) (nprev nnext : BitField64), nprev.fields = newFields →
      rewriteFields { fields := oldFields, value := hit.cellId } nprev ids = .ok nnext →
      R hit { cellId := nnext.value, energy := hit.energy, time := hit.time })
    (hits : List (CaloHit F)) (o n : BitField64) (ho : o.fields = oldFields)
    (hn : n.fields = newFields) (outs : List (CaloHit F)) (o' n' : BitField64)
    (h : rewriteHits ids seg o n hits = .ok (outs, o', n')) :
    List.Forall₂ R hits outs := by
  induction hits generalizing o n outs with
  | nil =>
    simp only [rewriteHits] at h
    cases h
    exact List.Forall₂.nil
  | cons hit rest ih =>
    simp only [rewriteHits] at h
    cases seg with
    | none => simp at h
    | some s =>
      simp only at h
      cases h1 : rewriteFields (o.setValue hit.cellId) n ids with
      | error e => simp [h1] at h
      | ok n1 =>
        simp only [h1] at h
        cases h2 : rewriteHits ids (some s) (o.setValue hit.cellId) n1 rest with
        | error e => simp [h2] at h
        | ok r =>
          obtain ⟨outs2, o2, n2⟩ := r
          simp only [h2] at h
          cases h
          have hset : o.setValue hit.cellId = { fields := oldFields, value := hit.cellId } := by
            unfold BitField64.setValue
            rw [ho]
          refine List.Forall₂.cons ?_ ?_
          · rw [hset] at h1
            exact hR hit n n1 hn h1
          · exact ih (o.setValue hit.cellId) n1 (by rw [hset])
              (by rw [rewriteFields_fields _ _ _ _ h1, hn]) outs2 h2

end RewriteHCalBarrelBitfield

namespace RewriteHCalBarrelBitfield

/-- A normal return of `execute` comes from the loop over the hits. -/
theorem execute_ok {D F : Type} (self : RewriteHCalBarrelBitfield D)
    (inHits outHits : List (CaloHit F)) (sc : StatusCode)
    (h : Except.map (fun r => (r.1, r.2.1)) (execute self inHits) = .ok (sc, outHits)) :
    sc = StatusCode.SUCCESS ∧
    ((inHits = [] ∧ outHits = []) ∨
      ∃ seg o n o1 n1, self.m_oldDecoder = some o ∧ self.m_newDecoder = some n ∧
        rewriteHits self.m_detectorIdentifiers seg o n inHits = .ok (outHits, o1, n1)) := by
  unfold execute at h
  cases hg : self.m_geoSvc with
  | none => simp [hg, Except.map] at h
  | some det =>
    cases hr : det.readout self.m_oldReadoutName with
    | error e => simp [hg, hr, Except.map] at h
    | ok ro =>
      cases inHits with
      | nil =>
        simp only [hg, hr, Except.map] at h
        cases h
        exact ⟨rfl, Or.inl ⟨rfl, rfl⟩⟩
      | cons hit rest =>
        cases ho : self.m_oldDecoder with
        | none => simp [hg, hr, ho, Except.map] at h
        | some o =>
          cases hn : self.m_newDecoder with
          | none => simp [hg, hr, ho, hn, Except.map] at h
          | some n =>
            cases hl : rewriteHits self.m_detectorIdentifiers ro.segmentation.castPhiEta o n
                (hit :: rest) with
            | error e => simp [hg, hr, ho, hn, hl, Except.map] at h
            | ok r =>
              obtain ⟨outs, o1, n1⟩ := r
              simp only [hg, hr, ho, hn, hl, Except.map] at h
              cases h
              exact ⟨rfl, Or.inr ⟨_, o, n, o1, n1, rfl, rfl, hl⟩⟩

/-- The module number is the absolute difference itself when it is below
`2 ^ 32`. -/
theorem newModuleId_eq (p : Int) (h : (p - (offsetPhiIds : Int)).natAbs < 2 ^ 32) :
    newModuleId p = (p - (offsetPhiIds : Int)).natAbs := by
  unfold newModuleId
  rw [BitFieldElement.toInt64_toUInt64 _ (by omega) (by omega)]
  exact Nat.mod_eq_of_lt h

/-- One pass of the loop body leaves in the field `f` of the new decoder the
value `t`, when the rewriting step of `f` does. -/
theorem decode_after_rewriteFields (o : BitField64) (f : String) (t : Int)
    (newFields : List BitFieldElement) (hwf : BitField64.wellFormed newFields)
    (hfit : BitField64.fitsWidth newFields f t)
    (hA : ∀ (e : BitFieldElement) (n n1 : BitField64), n.fields = newFields →
      n.index f = .ok e → e.fits t → rewriteField o n f = .ok n1 → e.value n1.value = t)
    (ids : List String) (hf : f ∈ ids) (nprev nnext : BitField64)
    (hn : nprev.fields = newFields) (h : rewriteFields o nprev ids = .ok nnext) :
    BitField64.decode newFields f nnext.value = .ok t := by
  obtain ⟨e, he, hefit⟩ := hfit
  obtain ⟨hmem, hname⟩ := BitField64.index_mem _ f e he
  have hval := rewriteFields_holds o f e t newFields hwf hmem hname
    (fun n n1 hnf h1 => hA e n n1 hnf
      (by rw [BitField64.index_congr { fields := newFields, value := 0 } n hnf]; exact he)
      hefit h1)
    ids nprev nnext hn h (Or.inr hf)
  unfold BitField64.decode BitField64.get
  rw [BitField64.index_congr { fields := newFields, value := 0 }
    { fields := newFields, value := nnext.value } rfl f]
  simp only [he, hval]

/-- C3: when `RewriteHCalBarrelBitfield::execute` returns, it returns
`SUCCESS` with exactly one output hit per input hit, in the same order, and
each output hit has the energy and the time of its input hit. -/
theorem execute_one_output_per_input {D F : Type} (self : RewriteHCalBarrelBitfield D)
    (inHits outHits : List (CaloHit F)) (sc : StatusCode)
    (h : Except.map (fun r => (r.1, r.2.1)) (execute self inHits) = .ok (sc, outHits)) :
    sc = StatusCode.SUCCESS ∧ outHits.length = inHits.length ∧
    List.Forall₂ (fun hit newHit => newHit.energy = hit.energy ∧ newHit.time = hit.time)
      inHits outHits := by
  obtain ⟨hsc, hcase⟩ := execute_ok self inHits outHits sc h
  have hall : List.Forall₂
      (fun (hit newHit : CaloHit F) => newHit.energy = hit.energy ∧ newHit.time = hit.time)
      inHits outHits := by
    rcases hcase with ⟨h1, h2⟩ | ⟨seg, o, n, o1, n1, _, _, hl⟩
    · rw [h1, h2]
      exact List.Forall₂.nil
    · exact rewriteHits_forall₂ self.m_detectorIdentifiers seg _ o.fields n.fields
        (fun hit nprev nnext _ _ => ⟨rfl, rfl⟩) inHits o n rfl rfl outHits o1 n1 hl
  exact ⟨hsc, hall.length_eq.symm, hall⟩

/-- Witness of C3: two hits rewritten from `HCalOld` to `HCalNew`. -/
theorem execute_one_output_per_input_witness :
    Except.map (fun r => (r.1, r.2.1)) (execute exampleInitialised exampleHits) =
      .ok (StatusCode.SUCCESS,
        [{ cellId := 8 + 2 * 2 ^ 4 + 7 * 2 ^ 9, energy := 15, time := 3 },
         { cellId := 8 + 1 * 2 ^ 4 + 93 * 2 ^ 9, energy := 7, time := 4 }]) ∧
    List.Forall₂ (fun (hit newHit : CaloHit Int) =>
        newHit.energy = hit.energy ∧ newHit.time = hit.time) exampleHits
      [{ cellId := 8 + 2 * 2 ^ 4 + 7 * 2 ^ 9, energy := 15, time := 3 },
       { cellId := 8 + 1 * 2 ^ 4 + 93 * 2 ^ 9, energy := 7, time := 4 }] :=
  ⟨by rfl, (execute_one_output_per_input exampleInitialised exampleHits _ _ (by rfl)).2.2⟩

/-- C4: for every input hit and every detector identifier `f` other than
`module`, the value of `f` decoded from the cell identifier of the output hit
with the new decoder is the value of `f` decoded from the cell identifier of
the input hit with the old decoder, provided the value fits the width of `f`
in the new bitfield. -/
theorem execute_copies_detector_fields {D F : Type} (self : RewriteHCalBarrelBitfield D)
    (inHits outHits : List (CaloHit F)) (sc : StatusCode) (oldDecoder newDecoder : BitField64)
    (hold : self.m_oldDecoder = some oldDecoder) (hnew : self.m_newDecoder = some newDecoder)
    (hwfo : BitField64.wellFormed oldDecoder.fields)
    (hwfn : BitField64.wellFormed newDecoder.fields)
    (h : Except.map (fun r => (r.1, r.2.1)) (execute self inHits) = .ok (sc, outHits))
    (f : String) (hf : f ∈ self.m_detectorIdentifiers) (hmod : f ≠ "module") :
    List.Forall₂ (fun hit newHit => ∀ v : Int,
        BitField64.decode oldDecoder.fields f hit.cellId = .ok v →
        BitField64.fitsWidth newDecoder.fields f v →
        BitField64.decode newDecoder.fields f newHit.cellId = .ok v)
      inHits outHits := by
  obtain ⟨_, hcase⟩ := execute_ok self inHits outHits sc h
  rcases hcase with ⟨h1, h2⟩ | ⟨seg, o, n, o1, n1, ho, hn, hl⟩
  · rw [h1, h2]
    exact List.Forall₂.nil
  · rw [hold] at ho
    rw [hnew] at hn
    cases ho
    cases hn
    refine rewriteHits_forall₂ self.m_detectorIdentifiers seg _ oldDecoder.fields
      newDecoder.fields ?_ inHits oldDecoder newDecoder rfl rfl outHits o1 n1 hl
    intro hit nprev nnext hnf hrw v hv hfit
    exact decode_after_rewriteFields { fields := oldDecoder.fields, value := hit.cellId } f v
      newDecoder.fields hwfn hfit
      (fun e n n1 hnf1 he hefit h1 =>
        rewriteField_copy { fields := oldDecoder.fields, value := hit.cellId } n n1 f e v
          hwfo (hnf1 ▸ hwfn) he hmod hv hefit h1)
      self.m_detectorIdentifiers hf nprev nnext hnf hrw

/-- Witness of C4: the field `layer` of the two example hits. -/
theorem execute_copies_detector_fields_witness :
    List.Forall₂ (fun (hit newHit : CaloHit Int) => ∀ v : Int,
        BitField64.decode exampleOldFields "layer" hit.cellId = .ok v →
        BitField64.fitsWidth exampleNewFields "layer" v →
        BitField64.decode exampleNewFields "layer" newHit.cellId = .ok v)
      exampleHits
      [{ cellId := 8 + 2 * 2 ^ 4 + 7 * 2 ^ 9, energy := 15, time := 3 },
       { cellId := 8 + 1 * 2 ^ 4 + 93 * 2 ^ 9, energy := 7, time := 4 }] :=
  execute_copies_detector_fields exampleInitialised exampleHits _ StatusCode.SUCCESS
    { fields := exampleOldFields, value := 0 } { fields := exampleNewFields, value := 0 }
    rfl rfl (by decide) (by decide) (by rfl) "layer" (by decide) (by decide)

/-- C5, as amended: when `module` is a detector identifier,
`RewriteHCalBarrelBitfield::execute` sets the module field of every output cell
identifier to `|p - 193|`, where `p` is the value of the `phi` field of the
input cell identifier in the old bitfield and `193 = 3*256/4 + 1`, provided
`|p - 193|` is below `2 ^ 32` (it is held in a 32 bit unsigned integer) and
fits the width of the module field in the new bitfield. -/
theorem execute_sets_module {D F : Type} (self : RewriteHCalBarrelBitfield D)
    (inHits outHits : List (CaloHit F)) (sc : StatusCode) (oldDecoder newDecoder : BitField64)
    (hold : self.m_oldDecoder = some oldDecoder) (hnew : self.m_newDecoder = some newDecoder)
    (hwfn : BitField64.wellFormed newDecoder.fields)
    (h : Except.map (fun r => (r.1, r.2.1)) (execute self inHits) = .ok (sc, outHits))
    (hf : "module" ∈ self.m_detectorIdentifiers) :
    offsetPhiIds = 193 ∧
    List.Forall₂ (fun hit newHit => ∀ p : Int,
        BitField64.decode oldDecoder.fields "phi" hit.cellId = .ok p →
        (p - 193).natAbs < 2 ^ 32 →
        BitField64.fitsWidth newDecoder.fields "module" ((p - 193).natAbs : Nat) →
        BitField64.decode newDecoder.fields "module" newHit.cellId =
          .ok ((p - 193).natAbs : Nat))
      inHits outHits := by
  refine ⟨offsetPhiIds_eq, ?_⟩
  obtain ⟨_, hcase⟩ := execute_ok self inHits outHits sc h
  rcases hcase with ⟨h1, h2⟩ | ⟨seg, o, n, o1, n1, ho, hn, hl⟩
  · rw [h1, h2]
    exact List.Forall₂.nil
  · rw [hold] at ho
    rw [hnew] at hn
    cases ho
    cases hn
    refine rewriteHits_forall₂ self.m_detectorIdentifiers seg _ oldDecoder.fields
      newDecoder.fields ?_ inHits oldDecoder newDecoder rfl rfl outHits o1 n1 hl
    intro hit nprev nnext hnf hrw p hp hlt hfit
    have hid : newModuleId p = (p - 193).natAbs := by
      have := newModuleId_eq p (by rw [offsetPhiIds_eq]; exact hlt)
      rw [offsetPhiIds_eq] at this
      exact this
    rw [← hid] at hfit ⊢
    exact decode_after_rewriteFields { fields := oldDecoder.fields, value := hit.cellId }
      "module" _ newDecoder.fields hwfn hfit
      (fun e n n1 hnf1 he hefit h1 =>
        rewriteField_module { fields := oldDecoder.fields, value := hit.cellId } n n1 e p
          (hnf1 ▸ hwfn) he hp hefit h1)
      self.m_detectorIdentifiers hf nprev nnext hnf hrw

/-- Witness of C5 as amended: the two example hits, of `phi` 200 and 100. -/
theorem execute_sets_module_witness :
    BitField64.decode exampleNewFields "module" (8 + 2 * 2 ^ 4 + 7 * 2 ^ 9) = .ok 7 ∧
    BitField64.decode exampleNewFields "module" (8 + 1 * 2 ^ 4 + 93 * 2 ^ 9) = .ok 93 ∧
    List.Forall₂ (fun (hit newHit : CaloHit Int) => ∀ p : Int,
        BitField64.decode exampleOldFields "phi" hit.cellId = .ok p →
        (p - 193).natAbs < 2 ^ 32 →
        BitField64.fitsWidth exampleNewFields "module" ((p - 193).natAbs : Nat) →
        BitField64.decode exampleNewFields "module" newHit.cellId =
          .ok ((p - 193).natAbs : Nat))
      exampleHits
      [{ cellId := 8 + 2 * 2 ^ 4 + 7 * 2 ^ 9, energy := 15, time := 3 },
       { cellId := 8 + 1 * 2 ^ 4 + 93 * 2 ^ 9, energy := 7, time := 4 }] :=
  ⟨by rfl, by rfl,
    (execute_sets_module exampleInitialised exampleHits _ StatusCode.SUCCESS
      { fields := exampleOldFields, value := 0 } { fields := exampleNewFields, value := 0 }
      rfl rfl (by decide) (by rfl) (by decide)).2⟩

/-- Counterexample to C5 as stated: with a `phi` field of 40 bits and
`phi = 2 ^ 32 + 198`, `module` is a detector identifier, `execute` returns
normally, the claim asks for the module number `|p - 193| = 2 ^ 32 + 5`, and
the module field of the output cell identifier holds 5. -/
theorem execute_sets_module_counterexample :
    "module" ∈ exampleWide.m_detectorIdentifiers ∧
    exampleWideHits.map (fun hit => BitField64.decode exampleWideFields "phi" hit.cellId) =
      [.ok (2 ^ 32 + 198)] ∧
    ((2 ^ 32 + 198 : Int) - 193).natAbs = 2 ^ 32 + 5 ∧
    Except.map (fun r => r.2.1.map
        (fun newHit => BitField64.decode exampleNewFields "module" newHit.cellId))
      (execute exampleWide exampleWideHits) = .ok [.ok 5] := by
  refine ⟨by decide, by rfl, by rfl, by rfl⟩

end RewriteHCalBarrelBitfield

/-! ## RewriteHCalBarrelBitfield: initialisation -/

namespace RewriteHCalBarrelBitfield

/-- The loop collecting the detector identifiers appends the fields that are
not among the identifiers to remove. -/
theorem collectDetectorIdentifiers_eq (m_oldIdentifiers : List String)
    (fields identifiers : List String) :
    collectDetectorIdentifiers m_oldIdentifiers identifiers fields =
      identifiers ++ fields.filter (fun field => field ∉ m_oldIdentifiers) := by
  induction fields generalizing identifiers with
  | nil => simp [collectDetectorIdentifiers]
  | cons field rest ih =>
    by_cases hmem : field ∈ m_oldIdentifiers
    · simp [collectDetectorIdentifiers, hmem, ih]
    · simp [collectDetectorIdentifiers, hmem, ih]

theorem missingInNewFields_iff (newFields identifiers : List String) :
    missingInNewFields newFields identifiers = true ↔ ∃ f ∈ identifiers, f ∉ newFields := by
  induction identifiers with
  | nil => simp [missingInNewFields]
  | cons field rest ih =>
    by_cases hmem : field ∈ newFields
    · simp [missingInNewFields, hmem, ih]
    · simp [missingInNewFields, hmem]

theorem readout_of_lookup {D : Type} (det : Detector D) (name : String) (r : Readout)
    (h : det.readouts.lookup name = some r) :
    det.readoutMissing name = false ∧ det.readout name = .ok r := by
  unfold Detector.readoutMissing Detector.readout
  simp [h]

theorem readout_of_missing {D : Type} (det : Detector D) (name : String)
    (h : det.readoutMissing name = true) :
    ∃ e, det.readout name = .error e := by
  unfold Detector.readoutMissing at h
  unfold Detector.readout
  cases hl : det.readouts.lookup name with
  | none => exact ⟨_, rfl⟩
  | some r => simp [hl] at h

/-- The run of `initialize` when the base class and the geometry service are
fine and both readouts exist. -/
theorem initialise_past_checks {D : Type} (self : RewriteHCalBarrelBitfield D)
    (svc : Services D) (det : Detector D) (oldReadout newReadout : Readout)
    (hbase : svc.baseInitialize = StatusCode.SUCCESS) (hgeo : svc.geoSvc = some det)
    (hold : det.readouts.lookup self.m_oldReadoutName = some oldReadout)
    (hnew : det.readouts.lookup self.m_newReadoutName = some newReadout) :
    initialise self svc =
      .ok (if missingInNewFields newReadout.decoder.fieldNames
              (collectDetectorIdentifiers self.m_oldIdentifiers self.m_detectorIdentifiers
                oldReadout.decoder.fieldNames) then StatusCode.FAILURE
            else StatusCode.SUCCESS,
        { self with
          m_geoSvc := some det
          m_oldDecoder := some oldReadout.decoder
          m_detectorIdentifiers :=
            collectDetectorIdentifiers self.m_oldIdentifiers self.m_detectorIdentifiers
              oldReadout.decoder.fieldNames
          m_newDecoder := some newReadout.decoder }) := by
  obtain ⟨ho1, ho2⟩ := readout_of_lookup det _ _ hold
  obtain ⟨hn1, hn2⟩ := readout_of_lookup det _ _ hnew
  unfold initialise
  simp only [hbase, hgeo, ho1, ho2, hn1, hn2, StatusCode.isFailure, Bool.false_eq_true, if_false]
  by_cases hm : missingInNewFields newReadout.decoder.fieldNames
      (collectDetectorIdentifiers self.m_oldIdentifiers self.m_detectorIdentifiers
        oldReadout.decoder.fieldNames) = true
  · simp only [hm, if_true]
  · simp only [hm, if_false, Bool.false_eq_true]

/-- C6: after `RewriteHCalBarrelBitfield::initialize` on an algorithm whose
identifier list is empty and whose old decoder is not yet set, once the old
decoder has been taken from the geometry the detector identifiers are exactly
the field names of the old decoder, in decoder order, from which every name
listed in the identifiers to remove has been dropped. -/
theorem initialise_detector_identifiers {D : Type} (self self' : RewriteHCalBarrelBitfield D)
    (svc : Services D) (sc : StatusCode) (oldDecoder : BitField64)
    (hempty : self.m_detectorIdentifiers = []) (hnull : self.m_oldDecoder = none)
    (h : initialise self svc = .ok (sc, self')) (hdec : self'.m_oldDecoder = some oldDecoder) :
    self'.m_detectorIdentifiers =
      oldDecoder.fieldNames.filter (fun field => field ∉ self.m_oldIdentifiers) := by
  cases hbase : svc.baseInitialize with
  | FAILURE =>
    unfold initialise at h
    simp only [hbase, StatusCode.isFailure, if_true] at h
    cases h
    rw [hnull] at hdec
    cases hdec
  | SUCCESS =>
    cases hgeo : svc.geoSvc with
    | none =>
      unfold initialise at h
      simp only [hbase, hgeo, StatusCode.isFailure] at h
      simp at h
      obtain ⟨_, h2⟩ := h
      rw [← h2] at hdec
      simp [hnull] at hdec
    | some det =>
      cases hold : det.readouts.lookup self.m_oldReadoutName with
      | none =>
        unfold initialise at h
        simp [hbase, hgeo, StatusCode.isFailure, Detector.readoutMissing, hold] at h
        obtain ⟨_, h2⟩ := h
        rw [← h2] at hdec
        simp [hnull] at hdec
      | some oldReadout =>
        cases hnew : det.readouts.lookup self.m_newReadoutName with
        | none =>
          unfold initialise at h
          simp [hbase, hgeo, StatusCode.isFailure, Detector.readoutMissing, hold, hnew] at h
          obtain ⟨_, h2⟩ := h
          rw [← h2] at hdec
          simp [hnull] at hdec
        | some newReadout =>
          rw [initialise_past_checks self svc det oldReadout newReadout hbase hgeo hold hnew] at h
          simp only [Except.ok.injEq, Prod.mk.injEq] at h
          obtain ⟨_, h2⟩ := h
          rw [← h2] at hdec ⊢
          simp only [Option.some.injEq] at hdec
          rw [← hdec, collectDetectorIdentifiers_eq, hempty, List.nil_append]

/-- Witness of C6: the example algorithm on the example detector. -/
theorem initialise_detector_identifiers_witness :
    initialise exampleConstructed exampleServices =
      .ok (StatusCode.SUCCESS, exampleInitialised) ∧
    exampleInitialised.m_detectorIdentifiers = ["system", "module", "layer"] ∧
    exampleInitialised.m_detectorIdentifiers =
      (BitField64.fieldNames { fields := exampleOldFields, value := 0 }).filter
        (fun field => field ∉ exampleConstructed.m_oldIdentifiers) :=
  ⟨by rfl, by rfl,
    initialise_detector_identifiers exampleConstructed exampleInitialised exampleServices
      StatusCode.SUCCESS { fields := exampleOldFields, value := 0 } rfl rfl (by rfl) rfl⟩

/-- C7, as amended: given that the initialisation of the base class succeeds
and that both the old and the new readout exist in the detector of the geometry
service, `RewriteHCalBarrelBitfield::initialize` returns `FAILURE` if and only
if at least one detector identifier is not a field name of the decoder of the
new readout; otherwise it returns `SUCCESS`. -/
theorem initialise_failure_iff {D : Type} (self : RewriteHCalBarrelBitfield D)
    (svc : Services D) (det : Detector D) (oldReadout newReadout : Readout)
    (hbase : svc.baseInitialize = StatusCode.SUCCESS) (hgeo : svc.geoSvc = some det)
    (hold : det.readouts.lookup self.m_oldReadoutName = some oldReadout)
    (hnew : det.readouts.lookup self.m_newReadoutName = some newReadout) :
    ∃ sc self', initialise self svc = .ok (sc, self') ∧
      (sc = StatusCode.FAILURE ↔
        ∃ f ∈ self'.m_detectorIdentifiers, f ∉ newReadout.decoder.fieldNames) ∧
      (sc = StatusCode.SUCCESS ↔
        ¬ ∃ f ∈ self'.m_detectorIdentifiers, f ∉ newReadout.decoder.fieldNames) ∧
      (self.m_detectorIdentifiers = [] →
        self'.m_detectorIdentifiers =
          oldReadout.decoder.fieldNames.filter (fun field => field ∉ self.m_oldIdentifiers)) := by
  refine ⟨_, _, initialise_past_checks self svc det oldReadout newReadout hbase hgeo hold hnew,
    ?_, ?_, ?_⟩
  · rw [← missingInNewFields_iff]
    split <;> simp_all
  · rw [← missingInNewFields_iff]
    split <;> simp_all
  · intro hempty
    show collectDetectorIdentifiers _ _ _ = _
    rw [collectDetectorIdentifiers_eq, hempty, List.nil_append]

/-- Witness of C7 as amended: the example algorithm on the example detector. -/
theorem initialise_failure_iff_witness :
    exampleServices.baseInitialize = StatusCode.SUCCESS ∧
    ∃ sc self', initialise exampleConstructed exampleServices = .ok (sc, self') ∧
      (sc = StatusCode.FAILURE ↔
        ∃ f ∈ self'.m_detectorIdentifiers,
          f ∉ (BitField64.fieldNames { fields := exampleNewFields, value := 0 })) ∧
      (sc = StatusCode.SUCCESS ↔
        ¬ ∃ f ∈ self'.m_detectorIdentifiers,
          f ∉ (BitField64.fieldNames { fields := exampleNewFields, value := 0 })) ∧
      (exampleConstructed.m_detectorIdentifiers = [] →
        self'.m_detectorIdentifiers =
          (BitField64.fieldNames { fields := exampleOldFields, value := 0 }).filter
            (fun field => field ∉ exampleConstructed.m_oldIdentifiers)) :=
  ⟨rfl, initialise_failure_iff exampleConstructed exampleServices exampleDetector
    { segmentation := .FCCSWGridPhiEta_k4geo, idSpec := exampleOldFields }
    { segmentation := .other, idSpec := exampleNewFields } rfl rfl (by rfl) (by rfl)⟩

/-- Counterexample to C7 as stated: both readouts exist and every old field
that is not listed for removal is a field of the new decoder, yet `initialize`
returns `FAILURE`, because the initialisation of the base class failed. -/
theorem initialise_failure_iff_counterexample :
    exampleDetector.readoutMissing exampleConstructed.m_oldReadoutName = false ∧
    exampleDetector.readoutMissing exampleConstructed.m_newReadoutName = false ∧
    exampleServicesBaseFails.geoSvc = some exampleDetector ∧
    initialise exampleConstructed exampleServicesBaseFails =
      .ok (StatusCode.FAILURE, exampleConstructed) ∧
    ¬ (∃ f ∈ (exampleOldFields.map (fun e => e.name)).filter
          (fun field => field ∉ exampleConstructed.m_oldIdentifiers),
        f ∉ exampleNewFields.map (fun e => e.name)) ∧
    ¬ (∃ f ∈ exampleConstructed.m_detectorIdentifiers,
        f ∉ exampleNewFields.map (fun e => e.name)) := by
  refine ⟨by rfl, by rfl, rfl, by rfl, by decide, by decide⟩

end RewriteHCalBarrelBitfield

/-! ## Failure of `initialize` on missing readouts and segmentations -/

theorem StatusCode.eq_FAILURE_of_isFailure (sc : StatusCode) (h : sc.isFailure = true) :
    sc = StatusCode.FAILURE := by
  cases sc with
  | SUCCESS => simp [StatusCode.isFailure] at h
  | FAILURE => rfl

namespace MuonCaloHitDigi

/-- `MuonCaloHitDigi::initialize` fails when the readout does not exist. -/
theorem digi_initialise_missing_readout {D : Type} [Add D] [Div D] [OfNat D 2]
    (self : MuonCaloHitDigi D) (det : Detector D)
    (h : det.readoutMissing self.m_readoutName = true) :
    Except.map Prod.fst (initialise self det) = .ok StatusCode.FAILURE := by
  unfold initialise
  simp [h, Except.map]

/-- `MuonCaloHitDigi::initialize` fails when the segmentation of the readout is
not a phi-theta grid. -/
theorem digi_initialise_wrong_segmentation {D : Type} [Add D] [Div D] [OfNat D 2]
    (self : MuonCaloHitDigi D) (det : Detector D) (readout : Readout)
    (h : det.readouts.lookup self.m_readoutName = some readout)
    (hseg : readout.segmentation ≠ Segmentation.FCCSWGridPhiTheta_k4geo) :
    Except.map Prod.fst (initialise self det) = .ok StatusCode.FAILURE := by
  obtain ⟨h1, h2⟩ := RewriteHCalBarrelBitfield.readout_of_lookup det _ _ h
  unfold initialise
  simp [h1, h2, Except.map, Segmentation.castPhiTheta, hseg]

end MuonCaloHitDigi

namespace CellPositionsCaloDiscsTool

/-- `CellPositionsCaloDiscsTool::initialize` fails when the segmentation of the
readout is not a phi-eta grid. -/
theorem tool_initialise_wrong_segmentation {D : Type} (self : CellPositionsCaloDiscsTool D)
    (svc : Services D) (det : Detector D) (readout : Readout) (hgeo : svc.geoSvc = some det)
    (h : det.readouts.lookup self.m_readoutName = some readout)
    (hseg : readout.segmentation ≠ Segmentation.FCCSWGridPhiEta_k4geo) :
    Except.map Prod.fst (initialise self svc) = .ok StatusCode.FAILURE := by
  obtain ⟨_, h2⟩ := RewriteHCalBarrelBitfield.readout_of_lookup det _ _ h
  unfold initialise
  cases hbase : svc.baseInitialize with
  | FAILURE => simp [StatusCode.isFailure, Except.map]
  | SUCCESS => simp [StatusCode.isFailure, Except.map, hgeo, h2, Segmentation.castPhiEta, hseg]

/-- Without a readout of the configured name, `initialize` leaves through the
exception of the geometry library whenever the base class and the geometry
service are fine. -/
theorem tool_initialise_missing_readout_throws {D : Type} (self : CellPositionsCaloDiscsTool D)
    (svc : Services D) (det : Detector D) (hbase : svc.baseInitialize = StatusCode.SUCCESS)
    (hgeo : svc.geoSvc = some det) (h : det.readoutMissing self.m_readoutName = true) :
    ∃ e, initialise self svc = .error e := by
  obtain ⟨e, he⟩ := RewriteHCalBarrelBitfield.readout_of_missing det _ h
  refine ⟨e, ?_⟩
  unfold initialise
  simp [hbase, StatusCode.isFailure, hgeo, he]

end CellPositionsCaloDiscsTool

namespace RewriteHCalBarrelBitfield

/-- `RewriteHCalBarrelBitfield::initialize` fails when one of the two readouts
does not exist. -/
theorem rewrite_initialise_missing_readout {D : Type} (self : RewriteHCalBarrelBitfield D)
    (svc : Services D) (det : Detector D) (hgeo : svc.geoSvc = some det)
    (h : det.readoutMissing self.m_oldReadoutName = true ∨
      det.readoutMissing self.m_newReadoutName = true) :
    Except.map Prod.fst (initialise self svc) = .ok StatusCode.FAILURE := by
  unfold initialise
  cases hbase : svc.baseInitialize with
  | FAILURE => simp [StatusCode.isFailure, Except.map]
  | SUCCESS =>
    rcases h with h | h
    · simp [StatusCode.isFailure, Except.map, hgeo, h]
    · by_cases ho : det.readoutMissing self.m_oldReadoutName = true
      · simp [StatusCode.isFailure, Except.map, hgeo, ho]
      · simp [StatusCode.isFailure, Except.map, hgeo, ho, h]

end RewriteHCalBarrelBitfield

namespace MassInv

/-- The loop over the systems ends with `FAILURE` when it reaches a readout
that does not exist or whose segmentation is neither a phi-eta grid nor a
multi-segmentation. -/
theorem initSystems_fails {D : Type} (det : Detector D) (ids : List Nat) (names : List String)
    (self : MassInv D) (i : Nat) (name : String) (hi : i < ids.length)
    (hname : names[i]? = some name)
    (hbad : det.readoutMissing name = true ∨
      ∃ readout, det.readouts.lookup name = some readout ∧
        readout.segmentation ≠ Segmentation.FCCSWGridPhiEta_k4geo ∧
        readout.segmentation ≠ Segmentation.MultiSegmentation) :
    Except.map Prod.fst (initSystems det self ids names) = .ok StatusCode.FAILURE := by
  induction ids generalizing names self i with
  | nil => simp at hi
  | cons systemId restIds ih =>
    cases names with
    | nil => simp at hname
    | cons readoutName restNames =>
      unfold initSystems
      by_cases hmiss : det.readoutMissing readoutName = true
      · simp [hmiss, Except.map]
      · cases hl : det.readouts.lookup readoutName with
        | none => simp [Detector.readoutMissing, hl] at hmiss
        | some readout =>
          obtain ⟨_, h2⟩ := RewriteHCalBarrelBitfield.readout_of_lookup det _ _ hl
          simp only [hmiss, h2]
          by_cases hseg : (readout.segmentation.castPhiEta.isNone &&
              readout.segmentation.castMulti.isNone) = true
          · simp [hseg, Except.map]
          · simp only [hseg]
            cases i with
            | zero =>
              exfalso
              simp only [List.getElem?_cons_zero, Option.some.injEq] at hname
              subst hname
              rcases hbad with hbad | ⟨r, hr, hs1, hs2⟩
              · exact hmiss hbad
              · rw [hl] at hr
                cases hr
                apply hseg
                simp [Segmentation.castPhiEta, Segmentation.castMulti, hs1, hs2]
            | succ k =>
              simp only [List.getElem?_cons_succ] at hname
              simp only [Bool.false_eq_true, if_false]
              exact ih restNames _ k (by simpa using hi) hname

/-- `MassInv::initialize` fails when the loop over the systems fails. -/
theorem initialise_fails_of_initSystems {D : Type} [Field D] (self : MassInv D)
    (svc : MassInvServices D)
    (h : Except.map Prod.fst (initSystems svc.detector self self.m_systemId self.m_readoutName) =
      .ok StatusCode.FAILURE) :
    Except.map Prod.fst (initialise self svc) = .ok StatusCode.FAILURE := by
  unfold initialise
  cases hbase : svc.baseInitialize with
  | FAILURE => simp [StatusCode.isFailure, Except.map]
  | SUCCESS =>
    simp only [StatusCode.isFailure, Bool.false_eq_true, if_false]
    split
    · simp [Except.map]
    · split
      · simp [Except.map]
      · cases hsys : initSystems svc.detector self self.m_systemId self.m_readoutName with
        | error e => simp [hsys, Except.map] at h
        | ok r =>
          obtain ⟨sc, self1⟩ := r
          simp only [hsys, Except.map] at h
          cases h
          simp [Except.map]

end MassInv

/-- C8: each of `MassInv::initialize`, `MuonCaloHitDigi::initialize` and
`RewriteHCalBarrelBitfield::initialize` returns `FAILURE` whenever a readout
name it is configured with (any `m_readoutName[i]` with `i` below the number of
system identifiers; `m_readoutName`; `m_oldReadoutName` or `m_newReadoutName`)
is not a key of the readouts of the detector. -/
theorem initialise_fails_on_missing_readout {D E G : Type} [Field D] [Add E] [Div E]
    [OfNat E 2] :
    (∀ (self : MassInv D) (svc : MassInvServices D) (i : Nat) (name : String),
      i < self.m_systemId.length → self.m_readoutName[i]? = some name →
      svc.detector.readoutMissing name = true →
      Except.map Prod.fst (MassInv.initialise self svc) = .ok StatusCode.FAILURE) ∧
    (∀ (self : MuonCaloHitDigi E) (det : Detector E),
      det.readoutMissing self.m_readoutName = true →
      Except.map Prod.fst (MuonCaloHitDigi.initialise self det) = .ok StatusCode.FAILURE) ∧
    (∀ (self : RewriteHCalBarrelBitfield G) (svc : Services G) (det : Detector G),
      svc.geoSvc = some det →
      (det.readoutMissing self.m_oldReadoutName = true ∨
        det.readoutMissing self.m_newReadoutName = true) →
      Except.map Prod.fst (RewriteHCalBarrelBitfield.initialise self svc) =
        .ok StatusCode.FAILURE) :=
  ⟨fun self svc i name hi hname hmiss =>
      MassInv.initialise_fails_of_initSystems self svc
        (MassInv.initSystems_fails svc.detector _ _ self i name hi hname (Or.inl hmiss)),
    fun self det h => MuonCaloHitDigi.digi_initialise_missing_readout self det h,
    fun self svc det hgeo h =>
      RewriteHCalBarrelBitfield.rewrite_initialise_missing_readout self svc det hgeo h⟩

/-- Witness of C8: the three algorithms configured with a readout name that
the detector does not know. -/
theorem initialise_fails_on_missing_readout_witness :
    Except.map Prod.fst (MassInv.initialise (MassInv.exampleMassInv "NoSuchReadout")
      MassInv.exampleMassInvServices) = .ok StatusCode.FAILURE ∧
    Except.map Prod.fst (MuonCaloHitDigi.initialise MuonCaloHitDigi.exampleDigi
      RewriteHCalBarrelBitfield.exampleDetector) = .ok StatusCode.FAILURE ∧
    Except.map Prod.fst (RewriteHCalBarrelBitfield.initialise
      { RewriteHCalBarrelBitfield.exampleConstructed with m_newReadoutName := "NoSuchReadout" }
      RewriteHCalBarrelBitfield.exampleServices) = .ok StatusCode.FAILURE :=
  ⟨(@initialise_fails_on_missing_readout Rat Int Int _ _ _ _).1
      (MassInv.exampleMassInv "NoSuchReadout") MassInv.exampleMassInvServices 1
      "NoSuchReadout" (by decide) (by rfl) (by rfl),
    (@initialise_fails_on_missing_readout Rat Int Int _ _ _ _).2.1
      MuonCaloHitDigi.exampleDigi RewriteHCalBarrelBitfield.exampleDetector (by rfl),
    (@initialise_fails_on_missing_readout Rat Int Int _ _ _ _).2.2 _ _
      RewriteHCalBarrelBitfield.exampleDetector rfl (Or.inr (by rfl))⟩

/-- C9, the code at the failing input: the detector has no readout of the
configured name `EMECPhiEtaReco`, the base class and the geometry service are
fine, and `CellPositionsCaloDiscsTool::initialize` does not return `FAILURE`:
it is left through the exception thrown by the lookup of the readout. -/
theorem CellPositionsCaloDiscsTool.initialise_missing_readout_not_failure :
    RewriteHCalBarrelBitfield.exampleDetector.readoutMissing
      CellPositionsCaloDiscsTool.exampleTool.m_readoutName = true ∧
    CellPositionsCaloDiscsTool.initialise CellPositionsCaloDiscsTool.exampleTool
      RewriteHCalBarrelBitfield.exampleServices = .error "readout not found: EMECPhiEtaReco" ∧
    Except.map Prod.fst (CellPositionsCaloDiscsTool.initialise
      CellPositionsCaloDiscsTool.exampleTool RewriteHCalBarrelBitfield.exampleServices) ≠
      .ok StatusCode.FAILURE := by
  refine ⟨by rfl, by rfl, ?_⟩
  intro h
  have h2 : Except.map Prod.fst (CellPositionsCaloDiscsTool.initialise
      CellPositionsCaloDiscsTool.exampleTool RewriteHCalBarrelBitfield.exampleServices) =
      .error "readout not found: EMECPhiEtaReco" := by rfl
  rw [h2] at h
  cases h

/-- C10: `initialize` returns `FAILURE` when the segmentation of the readout
is not of the required kind: `MuonCaloHitDigi` when it is not a phi-theta grid,
`CellPositionsCaloDiscsTool` when it is not a phi-eta grid, and `MassInv` when,
for some configured system, it is neither a phi-eta grid nor a
multi-segmentation. -/
theorem initialise_fails_on_wrong_segmentation {D E G : Type} [Field D] [Add E] [Div E]
    [OfNat E 2] :
    (∀ (self : MuonCaloHitDigi E) (det : Detector E) (readout : Readout),
      det.readouts.lookup self.m_readoutName = some readout →
      readout.segmentation ≠ Segmentation.FCCSWGridPhiTheta_k4geo →
      Except.map Prod.fst (MuonCaloHitDigi.initialise self det) = .ok StatusCode.FAILURE) ∧
    (∀ (self : CellPositionsCaloDiscsTool G) (svc : Services G) (det : Detector G)
      (readout : Readout), svc.geoSvc = some det →
      det.readouts.lookup self.m_readoutName = some readout →
      readout.segmentation ≠ Segmentation.FCCSWGridPhiEta_k4geo →
      Except.map Prod.fst (CellPositionsCaloDiscsTool.initialise self svc) =
        .ok StatusCode.FAILURE) ∧
    (∀ (self : MassInv D) (svc : MassInvServices D) (i : Nat) (name : String)
      (readout : Readout), i < self.m_systemId.length → self.m_readoutName[i]? = some name →
      svc.detector.readouts.lookup name = some readout →
      readout.segmentation ≠ Segmentation.FCCSWGridPhiEta_k4geo →
      readout.segmentation ≠ Segmentation.MultiSegmentation →
      Except.map Prod.fst (MassInv.initialise self svc) = .ok StatusCode.FAILURE) :=
  ⟨fun self det readout h hseg =>
      MuonCaloHitDigi.digi_initialise_wrong_segmentation self det readout h hseg,
    fun self svc det readout hgeo h hseg =>
      CellPositionsCaloDiscsTool.tool_initialise_wrong_segmentation self svc det readout hgeo h hseg,
    fun self svc i name readout hi hname h hs1 hs2 =>
      MassInv.initialise_fails_of_initSystems self svc
        (MassInv.initSystems_fails svc.detector _ _ self i name hi hname
          (Or.inr ⟨readout, h, hs1, hs2⟩))⟩

/-- Witness of C10: the three components configured with a readout whose
segmentation is of another kind. -/
theorem initialise_fails_on_wrong_segmentation_witness :
    Except.map Prod.fst (MuonCaloHitDigi.initialise
      { MuonCaloHitDigi.exampleDigi with m_readoutName := "HCalOld" }
      RewriteHCalBarrelBitfield.exampleDetector) = .ok StatusCode.FAILURE ∧
    Except.map Prod.fst (CellPositionsCaloDiscsTool.initialise
      CellPositionsCaloDiscsTool.exampleToolOther RewriteHCalBarrelBitfield.exampleServices) =
      .ok StatusCode.FAILURE ∧
    Except.map Prod.fst (MassInv.initialise (MassInv.exampleMassInv "MuonTaggerPhiTheta")
      MassInv.exampleMassInvServices) = .ok StatusCode.FAILURE :=
  ⟨(@initialise_fails_on_wrong_segmentation Rat Int Int _ _ _ _).1
      { MuonCaloHitDigi.exampleDigi with m_readoutName := "HCalOld" }
      RewriteHCalBarrelBitfield.exampleDetector
      { segmentation := .FCCSWGridPhiEta_k4geo,
        idSpec := RewriteHCalBarrelBitfield.exampleOldFields } (by rfl) (by decide),
    (@initialise_fails_on_wrong_segmentation Rat Int Int _ _ _ _).2.1
      CellPositionsCaloDiscsTool.exampleToolOther RewriteHCalBarrelBitfield.exampleServices
      RewriteHCalBarrelBitfield.exampleDetector
      { segmentation := .other, idSpec := RewriteHCalBarrelBitfield.exampleNewFields }
      rfl (by rfl) (by decide),
    (@initialise_fails_on_wrong_segmentation Rat Int Int _ _ _ _).2.2
      (MassInv.exampleMassInv "MuonTaggerPhiTheta") MassInv.exampleMassInvServices 1
      "MuonTaggerPhiTheta"
      { segmentation := .FCCSWGridPhiTheta_k4geo,
        idSpec := RewriteHCalBarrelBitfield.exampleOldFields }
      (by decide) (by rfl) (by rfl) (by decide) (by decide)⟩


/-! ## `MassInv::initialize`: the noise file, the parameter vectors, the eta borders -/

namespace MassInv

/-- The loop of `initialize` over the systems only writes the two maps of
segmentations and the map of decoders. -/
theorem initSystems_frame {D : Type} (det : Detector D) (ids : List Nat) (names : List String)
    (self self1 : MassInv D) (sc : StatusCode)
    (h : initSystems det self ids names = .ok (sc, self1)) :
    self1 = { self with
      m_segmentationPhiEta := self1.m_segmentationPhiEta
      m_segmentationMulti := self1.m_segmentationMulti
      m_decoder := self1.m_decoder } := by
  induction ids generalizing self names with
  | nil =>
    simp only [initSystems, Except.ok.injEq, Prod.mk.injEq] at h
    rw [← h.2]
  | cons systemId restIds ih =>
    cases names with
    | nil => simp [initSystems] at h
    | cons readoutName restNames =>
      simp only [initSystems] at h
      by_cases hm : det.readoutMissing readoutName = true
      · simp only [hm, if_true, Except.ok.injEq, Prod.mk.injEq] at h
        rw [← h.2]
      · simp only [hm, Bool.false_eq_true, if_false] at h
        cases hr : det.readout readoutName with
        | error e => simp [hr] at h
        | ok readout =>
          simp only [hr] at h
          by_cases hn : (readout.segmentation.castPhiEta.isNone &&
              readout.segmentation.castMulti.isNone) = true
          · simp only [hn, if_true, Except.ok.injEq, Prod.mk.injEq] at h
            rw [← h.2]
          · simp only [hn, Bool.false_eq_true, if_false] at h
            have := ih _ _ h
            rw [this]

/-- The loop of `initialize` over the systems returns when no readout name is
missing for a system. -/
theorem initSystems_returns {D : Type} (det : Detector D) (ids : List Nat) (names : List String)
    (self : MassInv D) (hlen : ids.length ≤ names.length) :
    ∃ sc self1, initSystems det self ids names = .ok (sc, self1) := by
  induction ids generalizing self names with
  | nil => exact ⟨_, _, rfl⟩
  | cons systemId restIds ih =>
    cases names with
    | nil => simp at hlen
    | cons readoutName restNames =>
      simp only [initSystems]
      by_cases hm : det.readoutMissing readoutName = true
      · simp [hm]
      · simp only [hm, Bool.false_eq_true, if_false]
        cases hl : det.readouts.lookup readoutName with
        | none => simp [Detector.readoutMissing, hl] at hm
        | some readout =>
          obtain ⟨_, hr⟩ := RewriteHCalBarrelBitfield.readout_of_lookup det _ _ hl
          simp only [hr]
          by_cases hn : (readout.segmentation.castPhiEta.isNone &&
              readout.segmentation.castMulti.isNone) = true
          · simp [hn]
          · simp only [hn, Bool.false_eq_true, if_false]
            exact ih _ _ (by simpa using hlen)

/-- The status of `initNoiseFromFile` depends on the members of the algorithm
only through the two names and the vector of histograms. -/
theorem initNoiseFromFile_status_congr {D : Type} (self self1 : MassInv D)
    (svc : MassInvServices D) (h1 : self1.m_noiseFileName = self.m_noiseFileName)
    (h2 : self1.m_pileupHistoName = self.m_pileupHistoName)
    (h3 : self1.m_histoPileupConst = self.m_histoPileupConst) :
    Except.map Prod.fst (initNoiseFromFile self1 svc) =
      Except.map Prod.fst (initNoiseFromFile self svc) := by
  unfold initNoiseFromFile
  rw [h1, h2, h3]
  by_cases he : self.m_noiseFileName.isEmpty = true
  · simp [he, Except.map]
  · simp only [he, Bool.false_eq_true, if_false]
    by_cases ha : svc.accessPathName self.m_noiseFileName = true
    · simp [ha, Except.map]
    · simp only [ha, Bool.false_eq_true, if_false]
      cases svc.openFile self.m_noiseFileName with
      | none => rfl
      | some inFile =>
        simp only
        by_cases hz : inFile.isZombie = true
        · simp [hz, Except.map]
        · simp only [hz, Bool.false_eq_true, if_false]
          cases readPileupHistograms self.m_pileupHistoName inFile self.m_histoPileupConst
              [0, 1] with
          | error e => rfl
          | ok r =>
            obtain ⟨sc, histos⟩ := r
            cases sc with
            | FAILURE => rfl
            | SUCCESS =>
              simp only
              by_cases hl : histos.length = 0
              · simp [hl, Except.map]
              · simp [hl, Except.map]

/-- `initialize` returns FAILURE when the call of `initNoiseFromFile` on the
members left by the loop over the systems returns FAILURE. -/
theorem initialise_fails_of_initNoise {D : Type} [Field D] (self : MassInv D)
    (svc : MassInvServices D) (hlen : self.m_systemId.length ≤ self.m_readoutName.length)
    (h : Except.map Prod.fst (initNoiseFromFile self svc) = .ok StatusCode.FAILURE) :
    Except.map Prod.fst (initialise self svc) = .ok StatusCode.FAILURE := by
  unfold initialise
  cases hbase : svc.baseInitialize with
  | FAILURE => simp [StatusCode.isFailure, Except.map]
  | SUCCESS =>
    simp only [StatusCode.isFailure, Bool.false_eq_true, if_false]
    split
    · simp [Except.map]
    · split
      · simp [Except.map]
      · obtain ⟨sc, self1, hsys⟩ :=
          initSystems_returns svc.detector self.m_systemId self.m_readoutName self hlen
        have hframe := initSystems_frame _ _ _ _ _ _ hsys
        rw [hsys]
        cases sc with
        | FAILURE => simp [Except.map]
        | SUCCESS =>
          simp only
          by_cases hrand : svc.randSvc = true
          · simp only [hrand, Bool.not_true, Bool.false_eq_true, if_false]
            have hcongr := initNoiseFromFile_status_congr self self1 svc
              (by rw [hframe]) (by rw [hframe]) (by rw [hframe])
            rw [h] at hcongr
            cases hn : initNoiseFromFile self1 svc with
            | error e => rw [hn] at hcongr; simp [Except.map] at hcongr
            | ok r =>
              obtain ⟨sc2, self2⟩ := r
              rw [hn] at hcongr
              simp only [Except.map, Except.ok.injEq] at hcongr
              subst hcongr
              simp [Except.map]
          · simp [hrand, Except.map]

end MassInv

/-- The failures that `MassInv::initNoiseFromFile` tests for: it returns
FAILURE when the name of the noise file is empty, when `AccessPathName`
reports the file as not accessible, when the file object handed back by
`TFile::Open` is a zombie, and when, the vector of histograms being empty as
construction leaves it, the first or the second pile-up histogram read from
the file has fewer than one bin; and `MassInv::initialize`, when it has a
readout name for each system, returns FAILURE whenever `initNoiseFromFile`
returns FAILURE. -/
theorem MassInv.initNoiseFromFile_failure {D : Type} [Field D] (self : MassInv D)
    (svc : MassInvServices D) :
    (self.m_noiseFileName = "" →
      Except.map Prod.fst (MassInv.initNoiseFromFile self svc) = .ok StatusCode.FAILURE) ∧
    (svc.accessPathName self.m_noiseFileName = true →
      Except.map Prod.fst (MassInv.initNoiseFromFile self svc) = .ok StatusCode.FAILURE) ∧
    (∀ inFile, svc.openFile self.m_noiseFileName = some inFile → inFile.isZombie = true →
      Except.map Prod.fst (MassInv.initNoiseFromFile self svc) = .ok StatusCode.FAILURE) ∧
    (∀ inFile h0, svc.openFile self.m_noiseFileName = some inFile →
      self.m_histoPileupConst = [] →
      inFile.get (self.m_pileupHistoName ++ "0") = some h0 →
      (h0.nbinsX < 1 ∨
        ∃ h1, inFile.get (self.m_pileupHistoName ++ "1") = some h1 ∧ h1.nbinsX < 1) →
      Except.map Prod.fst (MassInv.initNoiseFromFile self svc) = .ok StatusCode.FAILURE) ∧
    (Except.map Prod.fst (MassInv.initNoiseFromFile self svc) = .ok StatusCode.FAILURE →
      self.m_systemId.length ≤ self.m_readoutName.length →
      Except.map Prod.fst (MassInv.initialise self svc) = .ok StatusCode.FAILURE) := by
  have t0 : toString (0 : Nat) = "0" := rfl
  have t1 : toString (1 : Nat) = "1" := rfl
  refine ⟨?_, ?_, ?_, ?_, ?_⟩
  · intro h
    unfold MassInv.initNoiseFromFile
    simp [h, Except.map, String.isEmpty]
  · intro h
    unfold MassInv.initNoiseFromFile
    by_cases he : self.m_noiseFileName.isEmpty = true
    · simp [he, Except.map]
    · simp [he, h, Except.map]
  · intro inFile hopen hz
    unfold MassInv.initNoiseFromFile
    by_cases he : self.m_noiseFileName.isEmpty = true
    · simp [he, Except.map]
    · by_cases ha : svc.accessPathName self.m_noiseFileName = true
      · simp [he, ha, Except.map]
      · simp [he, ha, hopen, hz, Except.map]
  · intro inFile h0 hopen hempty hget0 hbins
    unfold MassInv.initNoiseFromFile
    by_cases he : self.m_noiseFileName.isEmpty = true
    · simp [he, Except.map]
    · by_cases ha : svc.accessPathName self.m_noiseFileName = true
      · simp [he, ha, Except.map]
      · by_cases hz : inFile.isZombie = true
        · simp [he, ha, hopen, hz, Except.map]
        · by_cases hb0 : h0.nbinsX < 1
          · simp [he, ha, hopen, hz, hempty, MassInv.readPileupHistograms, t0, hget0, hb0,
              Except.map]
          · rcases hbins with hb | ⟨h1, hget1, hb1⟩
            · exact absurd hb hb0
            · simp [he, ha, hopen, hz, hempty, MassInv.readPileupHistograms, t0, t1, hget0,
                hget1, hb0, hb1, Except.map]
  · intro h hlen
    exact MassInv.initialise_fails_of_initNoise self svc hlen h

/-- The four failures of `initNoiseFromFile` on the example, each followed by
the failure of `initialize`: an empty file name, a file that is not
accessible, a zombie file, a second histogram without bins. -/
theorem MassInv.initNoiseFromFile_failure_witness :
    (Except.map Prod.fst (MassInv.initNoiseFromFile
        { MassInv.exampleMassInv "ECalBarrelPhiEta" with m_noiseFileName := "" }
        MassInv.exampleMassInvServices) = .ok StatusCode.FAILURE ∧
      Except.map Prod.fst (MassInv.initialise
        { MassInv.exampleMassInv "ECalBarrelPhiEta" with m_noiseFileName := "" }
        MassInv.exampleMassInvServices) = .ok StatusCode.FAILURE) ∧
    Except.map Prod.fst (MassInv.initNoiseFromFile (MassInv.exampleMassInv "ECalBarrelPhiEta")
      { MassInv.exampleMassInvServices with accessPathName := fun _ => true }) =
        .ok StatusCode.FAILURE ∧
    Except.map Prod.fst (MassInv.initNoiseFromFile (MassInv.exampleMassInv "ECalBarrelPhiEta")
      (MassInv.exampleServicesWithFile (MassInv.exampleNoiseFile true 3))) =
        .ok StatusCode.FAILURE ∧
    (Except.map Prod.fst (MassInv.initNoiseFromFile (MassInv.exampleMassInv "ECalBarrelPhiEta")
        (MassInv.exampleServicesWithFile (MassInv.exampleNoiseFile false 0))) =
          .ok StatusCode.FAILURE ∧
      Except.map Prod.fst (MassInv.initialise (MassInv.exampleMassInv "ECalBarrelPhiEta")
        (MassInv.exampleServicesWithFile (MassInv.exampleNoiseFile false 0))) =
          .ok StatusCode.FAILURE) :=
  ⟨⟨(MassInv.initNoiseFromFile_failure _ _).1 rfl,
      (MassInv.initNoiseFromFile_failure _ _).2.2.2.2
        ((MassInv.initNoiseFromFile_failure _ _).1 rfl) (by decide)⟩,
    (MassInv.initNoiseFromFile_failure _ _).2.1 rfl,
    (MassInv.initNoiseFromFile_failure _ _).2.2.1 _ rfl rfl,
    (MassInv.initNoiseFromFile_failure _ _).2.2.2.1 _ (MassInv.exampleHisto 3) rfl rfl rfl
      (Or.inr ⟨MassInv.exampleHisto 0, rfl, by decide⟩),
    (MassInv.initNoiseFromFile_failure _ _).2.2.2.2
      ((MassInv.initNoiseFromFile_failure _ _).2.2.2.1 _ (MassInv.exampleHisto 3) rfl rfl rfl
        (Or.inr ⟨MassInv.exampleHisto 0, rfl, by decide⟩)) (by decide)⟩

/-- For a file that can not be opened `TFile::Open` hands back the null
pointer, not a zombie: with a file name that is not empty and a path that is
accessible, `initNoiseFromFile` calls `IsZombie` through the null pointer. -/
theorem MassInv.initNoiseFromFile_null_file {D : Type} (self : MassInv D)
    (svc : MassInvServices D) (hname : self.m_noiseFileName.isEmpty = false)
    (haccess : svc.accessPathName self.m_noiseFileName = false)
    (hopen : svc.openFile self.m_noiseFileName = none) :
    MassInv.initNoiseFromFile self svc = .error "null file" := by
  unfold MassInv.initNoiseFromFile
  simp [hname, haccess, hopen]

/-- C11: on the example the name of the noise file is `noise.root`, the path
is accessible and the file can not be opened, so that `TFile::Open` hands
back the null pointer. `MassInv::initNoiseFromFile` does not return FAILURE:
it calls `inFile->IsZombie()` through the null pointer, and
`MassInv::initialize`, which has reached the call, is left the same way. -/
theorem MassInv.initNoiseFromFile_unopened_file :
    (MassInv.exampleMassInv "ECalBarrelPhiEta").m_noiseFileName = "noise.root" ∧
    MassInv.exampleMassInvServices.accessPathName "noise.root" = false ∧
    (MassInv.exampleMassInvServices.openFile "noise.root").isNone = true ∧
    MassInv.errorOf (MassInv.initNoiseFromFile (MassInv.exampleMassInv "ECalBarrelPhiEta")
      MassInv.exampleMassInvServices) = some "null file" ∧
    MassInv.errorOf (MassInv.initialise (MassInv.exampleMassInv "ECalBarrelPhiEta")
      MassInv.exampleMassInvServices) = some "null file" :=
  ⟨rfl, rfl, rfl, by with_unfolding_all rfl, by with_unfolding_all rfl⟩

namespace MassInv

/-- The number of middle borders is one less than the number of eta values. -/
theorem middleBorders_length {D : Type} [Field D] (l : List D) :
    (middleBorders l).length = l.length - 1 := by
  induction l with
  | nil => rfl
  | cons a t ih =>
    cases t with
    | nil => rfl
    | cons b rest =>
      simp only [middleBorders, List.length_cons] at ih ⊢
      omega

/-- The middle border of index `i` is the middle of the eta values of indices
`i` and `i + 1`. -/
theorem middleBorders_getElem? {D : Type} [Field D] (l : List D) (i : Nat) (v w : D)
    (hv : l[i]? = some v) (hw : l[i + 1]? = some w) :
    (middleBorders l)[i]? = some (v + (1 / 2) * (w - v)) := by
  induction l generalizing i with
  | nil => simp at hv
  | cons a t ih =>
    cases t with
    | nil => simp at hw
    | cons b rest =>
      cases i with
      | zero =>
        simp only [List.getElem?_cons_zero, Option.some.injEq, zero_add,
          List.getElem?_cons_succ] at hv hw
        subst hv hw
        simp [middleBorders]
      | succ k =>
        simp only [List.getElem?_cons_succ] at hv hw
        simp only [middleBorders, List.getElem?_cons_succ]
        exact ih k hv (by simpa using hw)

/-- The last border from the last two eta values. -/
theorem lastBorder_eq {D : Type} [Field D] (l : List D) (u v : D) :
    lastBorder (l ++ [u, v]) = v + (1 / 2) * (v - u) := by
  simp [lastBorder]

/-- With less than two eta values the last border is 100. -/
theorem lastBorder_short {D : Type} [Field D] (l : List D) (h : l.length ≤ 1) :
    lastBorder l = 100 := by
  match l, h with
  | [], _ => rfl
  | [a], _ => rfl

/-- A list of at least two elements ends with its last two elements. -/
theorem exists_append_two {D : Type} (l : List D) (h : 2 ≤ l.length) :
    ∃ t u v, l = t ++ [u, v] ∧ l[l.length - 2]? = some u ∧ l[l.length - 1]? = some v := by
  induction l with
  | nil => simp at h
  | cons a t ih =>
    match t, ih with
    | [], _ => simp at h
    | [b], _ => exact ⟨[], a, b, rfl, rfl, rfl⟩
    | b :: c :: rest, ih =>
      obtain ⟨t', u, v, ht, hu, hv⟩ := ih (by simp)
      refine ⟨a :: t', u, v, by rw [ht]; rfl, ?_, ?_⟩
      · simp only [List.length_cons] at hu ⊢
        have : rest.length + 1 + 1 + 1 - 2 = (rest.length + 1 + 1 - 2) + 1 := by omega
        rw [this, List.getElem?_cons_succ]
        exact hu
      · simp only [List.length_cons] at hv ⊢
        have : rest.length + 1 + 1 + 1 - 1 = (rest.length + 1 + 1 - 1) + 1 := by omega
        rw [this, List.getElem?_cons_succ]
        exact hv

end MassInv

namespace MassInv

/-- The last border does not depend on the eta values before the last two. -/
theorem lastBorder_cons {D : Type} [Field D] (a : D) (l : List D) (h : 2 ≤ l.length) :
    lastBorder (a :: l) = lastBorder l := by
  obtain ⟨t, u, v, ht, _, _⟩ := exists_append_two l h
  rw [ht, ← List.cons_append, lastBorder_eq, lastBorder_eq]

/-- The borders of strictly increasing eta values are strictly increasing and
above the first eta value. -/
theorem borders_sorted {D : Type} [LinearOrderedField D] (a b : D) (rest : List D)
    (hs : (a :: b :: rest).Sorted (· < ·)) :
    (middleBorders (a :: b :: rest) ++ [lastBorder (a :: b :: rest)]).Sorted (· < ·) ∧
      ∀ x ∈ middleBorders (a :: b :: rest) ++ [lastBorder (a :: b :: rest)], a < x := by
  induction rest generalizing a b with
  | nil =>
    have hab : a < b := by
      have := List.rel_of_sorted_cons hs b (by simp)
      exact this
    simp only [middleBorders, lastBorder, List.reverse_cons, List.reverse_nil, List.nil_append,
      List.singleton_append, List.cons_append, List.sorted_cons, List.mem_cons, List.mem_singleton,
      List.not_mem_nil, forall_eq_or_imp, forall_eq, List.sorted_nil, and_true, List.mem_nil_iff,
      false_or, IsEmpty.forall_iff, implies_true]
    refine ⟨?_, ?_, ?_⟩ <;> linarith
  | cons c rest' ih =>
    have hab : a < b := List.rel_of_sorted_cons hs b (by simp)
    have hs' : (b :: c :: rest').Sorted (· < ·) := List.Sorted.of_cons hs
    obtain ⟨ih1, ih2⟩ := ih b c hs'
    have hl : lastBorder (a :: b :: c :: rest') = lastBorder (b :: c :: rest') :=
      lastBorder_cons a _ (by simp)
    have hm : middleBorders (a :: b :: c :: rest') ++ [lastBorder (a :: b :: c :: rest')] =
        (a + (1 / 2) * (b - a)) ::
          (middleBorders (b :: c :: rest') ++ [lastBorder (b :: c :: rest')]) := by
      rw [hl]
      rfl
    rw [hm]
    refine ⟨List.sorted_cons.mpr ⟨fun x hx => ?_, ih1⟩, fun x hx => ?_⟩
    · have := ih2 x hx
      linarith
    · rcases List.mem_cons.mp hx with hx | hx
      · rw [hx]; linarith
      · have := ih2 x hx
        linarith

/-- The members written by `initNoiseFromFile`: the vector of histograms. -/
theorem initNoiseFromFile_frame {D : Type} (self self2 : MassInv D) (svc : MassInvServices D)
    (sc : StatusCode) (h : initNoiseFromFile self svc = .ok (sc, self2)) :
    self2 = { self with m_histoPileupConst := self2.m_histoPileupConst } := by
  unfold initNoiseFromFile at h
  by_cases he : self.m_noiseFileName.isEmpty = true
  · simp only [he, if_true, Except.ok.injEq, Prod.mk.injEq] at h
    rw [← h.2]
  · simp only [he, Bool.false_eq_true, if_false] at h
    by_cases ha : svc.accessPathName self.m_noiseFileName = true
    · simp only [ha, if_true, Except.ok.injEq, Prod.mk.injEq] at h
      rw [← h.2]
    · simp only [ha, Bool.false_eq_true, if_false] at h
      cases ho : svc.openFile self.m_noiseFileName with
      | none => simp [ho] at h
      | some inFile =>
        simp only [ho] at h
        by_cases hz : inFile.isZombie = true
        · simp only [hz, if_true, Except.ok.injEq, Prod.mk.injEq] at h
          rw [← h.2]
        · simp only [hz, Bool.false_eq_true, if_false] at h
          cases hr : readPileupHistograms self.m_pileupHistoName inFile self.m_histoPileupConst
              [0, 1] with
          | error e => simp [hr] at h
          | ok r =>
            obtain ⟨sc1, histos⟩ := r
            simp only [hr] at h
            cases sc1 with
            | FAILURE =>
              simp only [Except.ok.injEq, Prod.mk.injEq] at h
              rw [← h.2]
            | SUCCESS =>
              simp only at h
              by_cases hl : histos.length = 0
              · simp only [hl, if_true, Except.ok.injEq, Prod.mk.injEq] at h
                rw [← h.2]
              · simp only [hl, if_false, Except.ok.injEq, Prod.mk.injEq] at h
                rw [← h.2]

/-- A successful `initialize` keeps the eta values and appends the middle
borders and the last border to the vector of borders. -/
theorem initialise_success_etaBorders {D : Type} [Field D] (self self' : MassInv D)
    (svc : MassInvServices D) (h : initialise self svc = .ok (StatusCode.SUCCESS, self')) :
    self'.m_etaValues = self.m_etaValues ∧
      self'.m_etaBorders =
        self.m_etaBorders ++ middleBorders self.m_etaValues ++ [lastBorder self.m_etaValues] := by
  unfold initialise at h
  cases hbase : svc.baseInitialize with
  | FAILURE => simp [hbase, StatusCode.isFailure] at h
  | SUCCESS =>
    simp only [hbase, StatusCode.isFailure, Bool.false_eq_true, if_false] at h
    split at h
    · simp at h
    · split at h
      · simp at h
      · cases hsys : initSystems svc.detector self self.m_systemId self.m_readoutName with
        | error e => simp [hsys] at h
        | ok r =>
          obtain ⟨sc, self1⟩ := r
          have hf1 := initSystems_frame _ _ _ _ _ _ hsys
          simp only [hsys] at h
          cases sc with
          | FAILURE => simp at h
          | SUCCESS =>
            simp only at h
            split at h
            · simp at h
            · cases hn : initNoiseFromFile self1 svc with
              | error e => simp [hn] at h
              | ok r2 =>
                obtain ⟨sc2, self2⟩ := r2
                have hf2 := initNoiseFromFile_frame _ _ _ _ hn
                simp only [hn] at h
                cases sc2 with
                | FAILURE => simp at h
                | SUCCESS =>
                  simp only at h
                  split at h
                  · simp at h
                  · split at h
                    · simp at h
                    · cases ht : svc.towerTool with
                      | none => simp [ht] at h
                      | some p =>
                        obtain ⟨nEta, nPhi⟩ := p
                        simp only [ht, Except.ok.injEq, Prod.mk.injEq, true_and] at h
                        have e1 : self2.m_etaValues = self.m_etaValues := by
                          rw [hf2, hf1]
                        have e2 : self2.m_etaBorders = self.m_etaBorders := by
                          rw [hf2, hf1]
                        rw [← h]
                        simp only [e1, e2, and_self]

end MassInv

/-- C18: `MassInv::initialize` does not return FAILURE on parameter vectors of
different sizes as long as one of the four presampler vectors has the size of
the eta values, the four comparisons being joined by `&&`: with one eta value,
two values of `presamplerShiftP0` and one value in each of the three other
vectors `initialize` returns SUCCESS. -/
theorem MassInv.initialise_accepts_unequal_sizes :
    (MassInv.exampleMassInvWith [0] [0, 0]).m_etaValues.length ≠
        (MassInv.exampleMassInvWith [0] [0, 0]).m_presamplerShiftP0.length ∧
      Except.map Prod.fst (MassInv.initialise (MassInv.exampleMassInvWith [0] [0, 0])
        MassInv.exampleServicesNoise) = .ok StatusCode.SUCCESS :=
  ⟨by decide, rfl⟩

/-- C20: after a successful `MassInv::initialize` on an empty vector of
borders, strictly increasing eta values of length `n ≥ 2` give `n` strictly
increasing borders, the border `i < n - 1` being the middle of the eta values
`i` and `i + 1`, strictly between them, and the border `n - 1` being the last
eta value plus half of its distance to the one before; with at most one eta
value the borders are the single value 100. -/
theorem MassInv.initialise_etaBorders_interleave {D : Type} [LinearOrderedField D]
    (self self' : MassInv D) (svc : MassInvServices D)
    (hinit : MassInv.initialise self svc = .ok (StatusCode.SUCCESS, self'))
    (hempty : self.m_etaBorders = []) :
    (2 ≤ self.m_etaValues.length → self.m_etaValues.Sorted (· < ·) →
      self'.m_etaBorders.length = self.m_etaValues.length ∧
      self'.m_etaBorders.Sorted (· < ·) ∧
      (∀ i v w, self.m_etaValues[i]? = some v → self.m_etaValues[i + 1]? = some w →
        ∃ b, self'.m_etaBorders[i]? = some b ∧ v < b ∧ b < w ∧ b = (v + w) / 2) ∧
      (∀ u v, self.m_etaValues[self.m_etaValues.length - 2]? = some u →
        self.m_etaValues[self.m_etaValues.length - 1]? = some v →
        self'.m_etaBorders[self.m_etaValues.length - 1]? = some (v + (v - u) / 2))) ∧
    (self.m_etaValues.length ≤ 1 → self'.m_etaBorders = [100]) := by
  obtain ⟨_, hb⟩ := MassInv.initialise_success_etaBorders self self' svc hinit
  rw [hempty, List.nil_append] at hb
  refine ⟨fun h2 hs => ?_, fun h1 => ?_⟩
  · have hlen : (MassInv.middleBorders self.m_etaValues).length = self.m_etaValues.length - 1 :=
      MassInv.middleBorders_length _
    refine ⟨?_, ?_, ?_, ?_⟩
    · rw [hb, List.length_append, hlen, List.length_singleton]
      omega
    · rw [hb]
      match hl : self.m_etaValues, h2 with
      | a :: b :: rest, _ =>
        rw [hl] at hs
        exact (MassInv.borders_sorted a b rest hs).1
    · intro i v w hv hw
      have hi : i + 1 < self.m_etaValues.length := by
        by_contra hcon
        rw [List.getElem?_eq_none (by omega)] at hw
        cases hw
      have hvw : v < w := by
        have hp := List.pairwise_iff_getElem.mp hs i (i + 1) (by omega) hi (by omega)
        rw [List.getElem?_eq_getElem (by omega)] at hv
        rw [List.getElem?_eq_getElem hi] at hw
        cases hv
        cases hw
        exact hp
      refine ⟨v + (1 / 2) * (w - v), ?_, by linarith, by linarith, by ring⟩
      rw [hb, List.getElem?_append_left (by rw [hlen]; omega)]
      exact MassInv.middleBorders_getElem? _ i v w hv hw
    · intro u v hu hv
      obtain ⟨t, u', v', ht, hu', hv'⟩ := MassInv.exists_append_two _ h2
      rw [hu] at hu'
      rw [hv] at hv'
      cases hu'
      cases hv'
      rw [hb, List.getElem?_append_right (by rw [hlen]), hlen]
      simp only [Nat.sub_self, List.getElem?_cons_zero, Option.some.injEq]
      rw [ht, MassInv.lastBorder_eq]
      ring
  · rw [hb]
    match hl : self.m_etaValues, h1 with
    | [], _ => simp [MassInv.middleBorders, MassInv.lastBorder]
    | [a], _ => simp [MassInv.middleBorders, MassInv.lastBorder]

/-- The borders of the eta values 0, 1, 3 after `initialize` on the example:
three increasing borders, and the border 100 for the single eta value 0. -/
theorem MassInv.initialise_etaBorders_interleave_witness :
    ((MassInv.initialised (MassInv.exampleMassInvWith [0, 1, 3] [0, 0, 0])
        MassInv.exampleServicesNoise).m_etaBorders.length = 3 ∧
      (MassInv.initialised (MassInv.exampleMassInvWith [0, 1, 3] [0, 0, 0])
        MassInv.exampleServicesNoise).m_etaBorders.Sorted (· < ·) ∧
      (∀ i v w, (MassInv.exampleMassInvWith [0, 1, 3] [0, 0, 0]).m_etaValues[i]? = some v →
        (MassInv.exampleMassInvWith [0, 1, 3] [0, 0, 0]).m_etaValues[i + 1]? = some w →
        ∃ b, (MassInv.initialised (MassInv.exampleMassInvWith [0, 1, 3] [0, 0, 0])
          MassInv.exampleServicesNoise).m_etaBorders[i]? = some b ∧ v < b ∧ b < w ∧
          b = (v + w) / 2) ∧
      (∀ u v, (MassInv.exampleMassInvWith [0, 1, 3] [0, 0, 0]).m_etaValues[3 - 2]? = some u →
        (MassInv.exampleMassInvWith [0, 1, 3] [0, 0, 0]).m_etaValues[3 - 1]? = some v →
        (MassInv.initialised (MassInv.exampleMassInvWith [0, 1, 3] [0, 0, 0])
          MassInv.exampleServicesNoise).m_etaBorders[3 - 1]? = some (v + (v - u) / 2))) ∧
    (MassInv.initialised (MassInv.exampleMassInvWith [0] [0])
      MassInv.exampleServicesNoise).m_etaBorders = [100] :=
  ⟨(MassInv.initialise_etaBorders_interleave (MassInv.exampleMassInvWith [0, 1, 3] [0, 0, 0])
      (MassInv.initialised (MassInv.exampleMassInvWith [0, 1, 3] [0, 0, 0])
        MassInv.exampleServicesNoise) MassInv.exampleServicesNoise rfl rfl).1
      (by decide) (by simp [MassInv.exampleMassInvWith, List.Sorted]),
    (MassInv.initialise_etaBorders_interleave (MassInv.exampleMassInvWith [0] [0])
      (MassInv.initialised (MassInv.exampleMassInvWith [0] [0])
        MassInv.exampleServicesNoise) MassInv.exampleServicesNoise rfl rfl).2 (by decide)⟩

/-! ## `CellPositionsCaloDiscsTool`: positions of the cells -/

/-- The value 0 is accepted by the assignment to any field. -/
theorem BitFieldElement.set_zero_ok (f : BitFieldElement) (b : Nat) :
    ∃ b', f.set b 0 = .ok b' := by
  unfold BitFieldElement.set
  have h1 : ¬ ((0 : Int) < f.minVal) := by
    unfold BitFieldElement.minVal
    split
    · have : (2 : Int) ^ (f.width - 1) ≤ 2 ^ f.width :=
        pow_le_pow_right₀ (by norm_num) (Nat.sub_le _ _)
      omega
    · simp
  have h2 : ¬ ((0 : Int) > f.maxVal) := by
    unfold BitFieldElement.maxVal
    split
    · have : (0 : Int) < 2 ^ (f.width - 1) := by positivity
      omega
    · have : (0 : Int) < 2 ^ f.width := by positivity
      omega
  simp [h1, h2]

/-- The value 0 fits every field. -/
theorem BitFieldElement.fits_zero (f : BitFieldElement) : f.fits 0 := by
  unfold BitFieldElement.fits
  have : (0 : Int) < 2 ^ f.width := by positivity
  split <;> constructor <;> omega

/-- Setting a known field to 0 returns a bit pattern, on which the field
reads 0 and the fields of other names read as before. -/
theorem BitField64.setField_zero (fields : List BitFieldElement) (id : Nat) (name : String)
    (f : BitFieldElement) (hidx : BitField64.index { fields := fields, value := id } name = .ok f) :
    ∃ id', BitField64.setField fields id name 0 = .ok id' ∧
      (BitField64.wellFormed fields → f.value id' = 0 ∧
        ∀ e ∈ fields, e.name ≠ name → e.value id' = e.value id) := by
  obtain ⟨b, hb⟩ := BitFieldElement.set_zero_ok f id
  have hassign : BitField64.assign { fields := fields, value := id } name 0 =
      .ok { fields := fields, value := b } := by
    unfold BitField64.assign
    simp only [hidx, hb]
  refine ⟨b, by unfold BitField64.setField; rw [hassign], fun hwf => ⟨?_, fun e he hne => ?_⟩⟩
  · exact (BitField64.assign_same _ _ name 0 f hwf hidx (BitFieldElement.fits_zero f)
      (by norm_num) hassign).1
  · exact (BitField64.assign_other _ _ name 0 e hwf he hne hassign).1

/-- The loop of `getPositions` appends to the output collection one hit per
cell, in order. -/
theorem CellPositionsCaloDiscsTool.getPositions_ok {D G F : Type} [Mul G] [Div G]
    (self : CellPositionsCaloDiscsTool D) (geo : DiscsGeometry G) (narrow : G → F)
    (aCells outputColl out : List (CalorimeterHit F (F × F × F)))
    (h : CellPositionsCaloDiscsTool.getPositions self geo narrow aCells outputColl = .ok out) :
    ∃ added, out = outputColl ++ added ∧
      List.Forall₂ (fun cell hit =>
        hit.cellID = cell.cellID ∧ hit.energy = cell.energy ∧
        ∃ outPos, CellPositionsCaloDiscsTool.xyzPosition self geo cell.cellID = .ok outPos ∧
          hit.position = (narrow (outPos.1 / geo.mm), narrow (outPos.2.1 / geo.mm),
            narrow (outPos.2.2 / geo.mm))) aCells added := by
  induction aCells generalizing outputColl with
  | nil =>
    simp only [CellPositionsCaloDiscsTool.getPositions, Except.ok.injEq] at h
    exact ⟨[], by simp [h], List.Forall₂.nil⟩
  | cons cell rest ih =>
    simp only [CellPositionsCaloDiscsTool.getPositions] at h
    cases hpos : CellPositionsCaloDiscsTool.xyzPosition self geo cell.cellID with
    | error e => simp [hpos] at h
    | ok outPos =>
      simp only [hpos] at h
      obtain ⟨added, hout, hall⟩ := ih _ h
      refine ⟨_ :: added, by rw [hout, List.append_assoc]; rfl, List.Forall₂.cons ?_ hall⟩
      exact ⟨rfl, rfl, outPos, hpos, rfl⟩

/-- The loop of `getPositions` returns when `xyzPosition` returns for every
cell. -/
theorem CellPositionsCaloDiscsTool.getPositions_returns {D G F : Type} [Mul G] [Div G]
    (self : CellPositionsCaloDiscsTool D) (geo : DiscsGeometry G) (narrow : G → F)
    (aCells outputColl : List (CalorimeterHit F (F × F × F)))
    (h : ∀ cell ∈ aCells, ∃ outPos,
      CellPositionsCaloDiscsTool.xyzPosition self geo cell.cellID = .ok outPos) :
    ∃ out, CellPositionsCaloDiscsTool.getPositions self geo narrow aCells outputColl = .ok out := by
  induction aCells generalizing outputColl with
  | nil => exact ⟨_, rfl⟩
  | cons cell rest ih =>
    obtain ⟨outPos, hpos⟩ := h cell (by simp)
    simp only [CellPositionsCaloDiscsTool.getPositions, hpos]
    exact ih _ (fun c hc => h c (by simp [hc]))

/-- C12: when `xyzPosition` returns for every input cell,
`CellPositionsCaloDiscsTool::getPositions` returns, and the output collection
is then the former output collection followed by one hit per input cell, in
input order, each with the cell identifier and the energy of its cell and
with the position `xyzPosition(cellID)` divided by `dd4hep::mm`, coordinate by
coordinate, in single precision. -/
theorem CellPositionsCaloDiscsTool.getPositions_appends {D G F : Type} [Mul G] [Div G]
    (self : CellPositionsCaloDiscsTool D) (geo : DiscsGeometry G) (narrow : G → F)
    (aCells outputColl : List (CalorimeterHit F (F × F × F)))
    (h : ∀ cell ∈ aCells, ∃ outPos,
      CellPositionsCaloDiscsTool.xyzPosition self geo cell.cellID = .ok outPos) :
    ∃ added, CellPositionsCaloDiscsTool.getPositions self geo narrow aCells outputColl =
        .ok (outputColl ++ added) ∧
      List.Forall₂ (fun cell hit =>
        hit.cellID = cell.cellID ∧ hit.energy = cell.energy ∧
        ∃ outPos, CellPositionsCaloDiscsTool.xyzPosition self geo cell.cellID = .ok outPos ∧
          hit.position = (narrow (outPos.1 / geo.mm), narrow (outPos.2.1 / geo.mm),
            narrow (outPos.2.2 / geo.mm))) aCells added := by
  obtain ⟨out, hout⟩ :=
    CellPositionsCaloDiscsTool.getPositions_returns self geo narrow aCells outputColl h
  obtain ⟨added, hadd, hall⟩ :=
    CellPositionsCaloDiscsTool.getPositions_ok self geo narrow aCells outputColl out hout
  exact ⟨added, by rw [hout, hadd], hall⟩

/-- The positions of the two example cells, appended to an output collection
that already holds a hit. -/
theorem CellPositionsCaloDiscsTool.getPositions_appends_witness :
    ∃ added, CellPositionsCaloDiscsTool.getPositions CellPositionsCaloDiscsTool.exampleDiscsTool
        CellPositionsCaloDiscsTool.exampleDiscsGeometry id
        CellPositionsCaloDiscsTool.exampleDiscsCells
        [{ cellID := 1, energy := 2, position := (3, 4, 5) }] =
        .ok ([{ cellID := 1, energy := 2, position := (3, 4, 5) }] ++ added) ∧
      List.Forall₂ (fun cell hit =>
        hit.cellID = cell.cellID ∧ hit.energy = cell.energy ∧
        ∃ outPos, CellPositionsCaloDiscsTool.xyzPosition
            CellPositionsCaloDiscsTool.exampleDiscsTool
            CellPositionsCaloDiscsTool.exampleDiscsGeometry cell.cellID = .ok outPos ∧
          hit.position =
            (id (outPos.1 / CellPositionsCaloDiscsTool.exampleDiscsGeometry.mm),
              id (outPos.2.1 / CellPositionsCaloDiscsTool.exampleDiscsGeometry.mm),
              id (outPos.2.2 / CellPositionsCaloDiscsTool.exampleDiscsGeometry.mm)))
        CellPositionsCaloDiscsTool.exampleDiscsCells added :=
  CellPositionsCaloDiscsTool.getPositions_appends CellPositionsCaloDiscsTool.exampleDiscsTool
    CellPositionsCaloDiscsTool.exampleDiscsGeometry id
    CellPositionsCaloDiscsTool.exampleDiscsCells
    [{ cellID := 1, energy := 2, position := (3, 4, 5) }]
    (by
      intro cell hcell
      simp only [CellPositionsCaloDiscsTool.exampleDiscsCells, List.mem_cons,
        List.mem_singleton, List.not_mem_nil, or_false] at hcell
      rcases hcell with h | h <;> subst h <;> exact ⟨_, rfl⟩)

/-- C13: for a tool with a decoder that has the fields `phi` and `eta` and
with a segmentation, `xyzPosition(c)` looks up the identifier `volumeId`
obtained from `c` by setting the field `phi` and then the field `eta` to 0 (on
a well-formed description `volumeId` reads 0 in both fields and as `c` in the
fields of other names), and with `(x, y, z)` the global origin of the volume
found it returns `(sx * r, sy * r, z)`, where `(sx, sy, _)` is the position
of the segmentation for `c` and `r = z / sinh(eta(c))`, both asked with `c`
itself; an exception of the lookup is passed on. -/
theorem CellPositionsCaloDiscsTool.xyzPosition_eq {D G : Type} [Mul G] [Div G]
    (self : CellPositionsCaloDiscsTool D) (geo : DiscsGeometry G)
    (fields : List BitFieldElement) (seg : Segmentation) (fphi feta : BitFieldElement) (c : Nat)
    (hdec : self.m_decoder = some fields) (hseg : self.m_segmentation = some seg)
    (hphi : BitField64.index { fields := fields, value := c } "phi" = .ok fphi)
    (heta : BitField64.index { fields := fields, value := c } "eta" = .ok feta) :
    ∃ volumeId,
      (BitField64.setField fields c "phi" 0).bind
        (fun v => BitField64.setField fields v "eta" 0) = .ok volumeId ∧
      (BitField64.wellFormed fields →
        fphi.value volumeId = 0 ∧ feta.value volumeId = 0 ∧
        ∀ e ∈ fields, e.name ≠ "phi" → e.name ≠ "eta" → e.value volumeId = e.value c) ∧
      CellPositionsCaloDiscsTool.xyzPosition self geo c =
        Except.map (fun o =>
          ((geo.position c).1 * (o.2.2 / geo.sinh (geo.eta c)),
            (geo.position c).2.1 * (o.2.2 / geo.sinh (geo.eta c)), o.2.2))
          (geo.originOfVolume volumeId) := by
  obtain ⟨v1, hv1, hc1⟩ := BitField64.setField_zero fields c "phi" fphi hphi
  have heta1 : BitField64.index { fields := fields, value := v1 } "eta" = .ok feta := by
    rw [← heta]
    exact BitField64.index_congr _ _ rfl _
  obtain ⟨v2, hv2, hc2⟩ := BitField64.setField_zero fields v1 "eta" feta heta1
  refine ⟨v2, by rw [hv1]; exact hv2, fun hwf => ?_, ?_⟩
  · obtain ⟨hp1, ho1⟩ := hc1 hwf
    obtain ⟨hp2, ho2⟩ := hc2 hwf
    obtain ⟨hpm, hpn⟩ := BitField64.index_mem _ _ _ hphi
    refine ⟨?_, hp2, fun e he hn1 hn2 => ?_⟩
    · rw [ho2 fphi hpm (by rw [hpn]; decide), hp1]
    · rw [ho2 e he hn2, ho1 e he hn1]
  · unfold CellPositionsCaloDiscsTool.xyzPosition
    simp only [hdec, hv1, hv2, hseg]
    cases geo.originOfVolume v2 with
    | error e => rfl
    | ok o => rfl

/-- The position of the example cell: the volume looked up is the one of
system 3 and layer 2, at `z = 120`; with `eta = 1` the radius is
`120 / (1 + 1 / 6)`. -/
theorem CellPositionsCaloDiscsTool.xyzPosition_eq_witness :
    ∃ volumeId,
      (BitField64.setField CellPositionsCaloDiscsTool.exampleDiscsFields
          CellPositionsCaloDiscsTool.exampleDiscsCell "phi" 0).bind
        (fun v => BitField64.setField CellPositionsCaloDiscsTool.exampleDiscsFields v "eta" 0) =
          .ok volumeId ∧
      (BitField64.wellFormed CellPositionsCaloDiscsTool.exampleDiscsFields →
        BitFieldElement.value { name := "phi", offset := 18, width := 10, isSigned := false }
          volumeId = 0 ∧
        BitFieldElement.value { name := "eta", offset := 9, width := 9, isSigned := true }
          volumeId = 0 ∧
        ∀ e ∈ CellPositionsCaloDiscsTool.exampleDiscsFields, e.name ≠ "phi" → e.name ≠ "eta" →
          e.value volumeId = e.value CellPositionsCaloDiscsTool.exampleDiscsCell) ∧
      CellPositionsCaloDiscsTool.xyzPosition CellPositionsCaloDiscsTool.exampleDiscsTool
          CellPositionsCaloDiscsTool.exampleDiscsGeometry
          CellPositionsCaloDiscsTool.exampleDiscsCell =
        Except.map (fun o =>
          ((CellPositionsCaloDiscsTool.exampleDiscsGeometry.position
              CellPositionsCaloDiscsTool.exampleDiscsCell).1 *
              (o.2.2 / CellPositionsCaloDiscsTool.exampleDiscsGeometry.sinh
                (CellPositionsCaloDiscsTool.exampleDiscsGeometry.eta
                  CellPositionsCaloDiscsTool.exampleDiscsCell)),
            (CellPositionsCaloDiscsTool.exampleDiscsGeometry.position
              CellPositionsCaloDiscsTool.exampleDiscsCell).2.1 *
              (o.2.2 / CellPositionsCaloDiscsTool.exampleDiscsGeometry.sinh
                (CellPositionsCaloDiscsTool.exampleDiscsGeometry.eta
                  CellPositionsCaloDiscsTool.exampleDiscsCell)), o.2.2))
          (CellPositionsCaloDiscsTool.exampleDiscsGeometry.originOfVolume volumeId) :=
  CellPositionsCaloDiscsTool.xyzPosition_eq CellPositionsCaloDiscsTool.exampleDiscsTool
    CellPositionsCaloDiscsTool.exampleDiscsGeometry CellPositionsCaloDiscsTool.exampleDiscsFields
    Segmentation.FCCSWGridPhiEta_k4geo _ _ CellPositionsCaloDiscsTool.exampleDiscsCell
    rfl rfl rfl rfl

/-- The value of `xyzPosition` on the example cell. -/
theorem CellPositionsCaloDiscsTool.xyzPosition_example :
    CellPositionsCaloDiscsTool.xyzPosition CellPositionsCaloDiscsTool.exampleDiscsTool
      CellPositionsCaloDiscsTool.exampleDiscsGeometry
      CellPositionsCaloDiscsTool.exampleDiscsCell = .ok (720 / 7, 720 / 7, 120) := by
  with_unfolding_all rfl

/-! ## `MassInv::execute`: the corrected clusters -/

namespace MassInv

/-- The loop that fills the corrected cluster appends a sub-sequence of the
cells to the hits and adds their energies to `energy`. -/
theorem addHits_spec {D V : Type} [LinearOrderedField D] [FloorRing D] (self : MassInv D)
    (tools : MassInvTools D V) (systemId : Nat) (oldEta oldPhi : D)
    (cells hits0 hits : List (CalorimeterHit D (D × D × D))) (energy0 energy : D)
    (h : addHits self tools systemId oldEta oldPhi cells hits0 energy0 = .ok (hits, energy)) :
    ∃ added, hits = hits0 ++ added ∧ added.Sublist cells ∧
      energy = energy0 + (added.map fun cell => cell.energy).sum := by
  induction cells generalizing hits0 energy0 with
  | nil =>
    simp only [addHits, Except.ok.injEq, Prod.mk.injEq] at h
    exact ⟨[], by simp [h.1], List.Sublist.slnil, by simp [h.2]⟩
  | cons cell rest ih =>
    simp only [addHits] at h
    cases hsel : selectCell self tools systemId oldEta oldPhi cell with
    | error e => simp [hsel] at h
    | ok b =>
      cases b with
      | true =>
        simp only [hsel] at h
        obtain ⟨added, h1, h2, h3⟩ := ih _ _ h
        refine ⟨cell :: added, by simp [h1], h2.cons₂ cell, ?_⟩
        rw [h3, List.map_cons, List.sum_cons, add_assoc]
      | false =>
        simp only [hsel] at h
        obtain ⟨added, h1, h2, h3⟩ := ih _ _ h
        exact ⟨added, h1, h2.cons cell, h3⟩

/-- The end of the body of the loop over the clusters passes on the hits, the
position and the local variables it is given. -/
theorem finishCluster_ok {D V : Type} [LinearOrderedField D] [FloorRing D] (self : MassInv D)
    (tools : MassInvTools D V) (particle : List (D × D × D)) (shoot oldEnergy oldPhi : D)
    (hits : List (CalorimeterHit D (D × D × D))) (position : D × D × D)
    (energy newEta energyUpstream : D) (fills : List (Fill D)) (outcome : ClusterOutcome D V)
    (h : finishCluster self tools particle shoot oldEnergy oldPhi hits position energy newEta
      energyUpstream fills = .ok outcome) :
    outcome.returned = false ∧ outcome.newCluster.hits = hits ∧
      outcome.newCluster.position = position ∧ outcome.energy = energy ∧
      outcome.newEta = newEta ∧ outcome.energyUpstream = energyUpstream := by
  unfold finishCluster at h
  simp only at h
  split at h
  · cases h
  · simp only [Except.ok.injEq] at h
    subst h
    exact ⟨rfl, rfl, rfl, rfl, rfl, rfl⟩

/-- The hits of the corrected cluster and the value of `energy` are the ones
left by the loop that fills the corrected cluster. -/
theorem processCluster_addHits {D V : Type} [LinearOrderedField D] [FloorRing D]
    (self : MassInv D) (tools : MassInvTools D V) (systemId : Nat) (particle : List (D × D × D))
    (shoot : D) (cluster : Cluster D) (outcome : ClusterOutcome D V)
    (h : processCluster self tools systemId particle shoot cluster = .ok outcome) :
    addHits self tools systemId (tools.vecEta cluster.position) (tools.vecPhi cluster.position)
      cluster.hits [] 0 = .ok (outcome.newCluster.hits, outcome.energy) := by
  unfold processCluster at h
  simp only at h
  cases hadd : addHits self tools systemId (tools.vecEta cluster.position)
      (tools.vecPhi cluster.position) cluster.hits [] 0 with
  | error e => simp [hadd] at h
  | ok r =>
    obtain ⟨hits, energy⟩ := r
    simp only [hadd] at h
    split at h
    · obtain ⟨_, h2, _, h4, _, _⟩ := finishCluster_ok _ _ _ _ _ _ _ _ _ _ _ _ _ h
      rw [h2, h4]
    · split at h
      · cases h
      · split at h
        · cases h
        · split at h
          · simp only [Except.ok.injEq] at h
            subst h
            rfl
          · obtain ⟨_, h2, _, h4, _, _⟩ := finishCluster_ok _ _ _ _ _ _ _ _ _ _ _ _ _ h
            rw [h2, h4]

/-- The hits of a corrected cluster are a sub-sequence of the hits of its input
cluster, and the local variable `energy` is the sum of their energies. -/
theorem processCluster_hits {D V : Type} [LinearOrderedField D] [FloorRing D]
    (self : MassInv D) (tools : MassInvTools D V) (systemId : Nat) (particle : List (D × D × D))
    (shoot : D) (cluster : Cluster D) (outcome : ClusterOutcome D V)
    (h : processCluster self tools systemId particle shoot cluster = .ok outcome) :
    outcome.newCluster.hits.Sublist cluster.hits ∧
      outcome.energy = (outcome.newCluster.hits.map fun cell => cell.energy).sum := by
  obtain ⟨added, h1, h2, h3⟩ :=
    addHits_spec _ _ _ _ _ _ _ _ _ _ (processCluster_addHits _ _ _ _ _ _ _ h)
  rw [List.nil_append] at h1
  rw [h1, h3, zero_add]
  exact ⟨h2, rfl⟩

/-- The loop over the input clusters leaves one outcome for each cluster it
processes, in order; it processes all the clusters unless the body leaves
`execute`. -/
theorem clusterLoop_outcomes {D V : Type} [LinearOrderedField D] [FloorRing D]
    (self : MassInv D) (tools : MassInvTools D V) (systemId : Nat) (particle : List (D × D × D))
    (gauss : Nat → D) (clusters : List (Cluster D)) (index : Nat)
    (outcomes : List (ClusterOutcome D V))
    (h : clusterLoop self tools systemId particle gauss clusters index = .ok outcomes) :
    List.Forall₂ (fun cluster outcome =>
        ∃ shoot, processCluster self tools systemId particle shoot cluster = .ok outcome)
      (clusters.take outcomes.length) outcomes ∧
    ((∀ outcome ∈ outcomes, outcome.returned = false) → outcomes.length = clusters.length) := by
  induction clusters generalizing index outcomes with
  | nil =>
    simp only [clusterLoop, Except.ok.injEq] at h
    subst h
    exact ⟨List.Forall₂.nil, fun _ => rfl⟩
  | cons cluster rest ih =>
    simp only [clusterLoop] at h
    cases hp : processCluster self tools systemId particle (gauss index) cluster with
    | error e => simp [hp] at h
    | ok outcome =>
      simp only [hp] at h
      by_cases hr : outcome.returned = true
      · simp only [hr, if_true, Except.ok.injEq] at h
        subst h
        refine ⟨List.Forall₂.cons ⟨_, hp⟩ List.Forall₂.nil, fun hall => ?_⟩
        have := hall outcome (by simp)
        rw [hr] at this
        cases this
      · simp only [hr, Bool.false_eq_true, if_false] at h
        cases hl : clusterLoop self tools systemId particle gauss rest (index + 1) with
        | error e => simp [hl] at h
        | ok outcomes1 =>
          simp only [hl, Except.ok.injEq] at h
          subst h
          obtain ⟨ih1, ih2⟩ := ih _ _ hl
          refine ⟨List.Forall₂.cons ⟨_, hp⟩ ih1, fun hall => ?_⟩
          simp only [List.length_cons]
          rw [ih2 (fun o ho => hall o (by simp [ho]))]

/-- The outcomes returned by `execute` are the ones of the loop over the input
clusters, and the status is SUCCESS exactly when no body left `execute`. -/
theorem execute_outcomes {D V : Type} [LinearOrderedField D] [FloorRing D]
    (self : MassInv D) (tools : MassInvTools D V) (inClusters : List (Cluster D))
    (particle : List (D × D × D)) (gauss : Nat → D) (sc : StatusCode) (r : ExecuteResult D V)
    (h : execute self tools inClusters particle gauss = .ok (sc, r)) :
    ∃ systemId, elemAt self.m_systemId 0 = .ok systemId ∧
      clusterLoop self tools systemId particle gauss inClusters 0 = .ok r.outcomes ∧
      (sc = StatusCode.SUCCESS ↔ ∀ outcome ∈ r.outcomes, outcome.returned = false) := by
  unfold execute at h
  cases hs : elemAt self.m_systemId 0 with
  | error e => simp [hs] at h
  | ok systemId =>
    simp only [hs] at h
    cases hl : clusterLoop self tools systemId particle gauss inClusters 0 with
    | error e => simp [hl] at h
    | ok outcomes =>
      simp only [hl] at h
      refine ⟨systemId, rfl, ?_⟩
      by_cases hany : (outcomes.any fun outcome => outcome.returned) = true
      · simp only [hany, if_true, Except.ok.injEq, Prod.mk.injEq] at h
        obtain ⟨h1, h2⟩ := h
        subst h1 h2
        refine ⟨hl, ⟨fun hc => (by cases hc), fun hall => ?_⟩⟩
        obtain ⟨o, ho, hret⟩ := List.any_eq_true.mp hany
        rw [hall o ho] at hret
        cases hret
      · have hall : ∀ outcome ∈ outcomes, outcome.returned = false := by
          intro o ho
          by_contra hc
          exact hany (List.any_eq_true.mpr ⟨o, ho, by simpa using hc⟩)
        simp only [hany, Bool.false_eq_true, if_false] at h
        split at h
        · split at h
          · cases h
          · simp only [Except.ok.injEq, Prod.mk.injEq] at h
            obtain ⟨h1, h2⟩ := h
            subst h1 h2
            exact ⟨hl, fun _ => hall, fun _ => rfl⟩
        · simp only [Except.ok.injEq, Prod.mk.injEq] at h
          obtain ⟨h1, h2⟩ := h
          subst h1 h2
          exact ⟨hl, fun _ => hall, fun _ => rfl⟩

end MassInv

/-- For every run of `MassInv::execute` that returns, with either status, the
corrected clusters are those of the first input clusters, in order: the hits
of each are a sub-sequence of the hits of its input cluster, and the energy
given to it before the corrections (the local variable `energy`) is the sum of
the energies of the hits added to it. With the status SUCCESS there is one
corrected cluster for each input cluster. -/
theorem MassInv.execute_corrected_clusters {D V : Type} [LinearOrderedField D] [FloorRing D]
    (self : MassInv D) (tools : MassInvTools D V) (inClusters : List (Cluster D))
    (particle : List (D × D × D)) (gauss : Nat → D) (sc : StatusCode) (r : ExecuteResult D V)
    (h : MassInv.execute self tools inClusters particle gauss = .ok (sc, r)) :
    (sc = StatusCode.SUCCESS → r.correctedClusters.length = inClusters.length) ∧
    List.Forall₂ (fun cluster outcome =>
        outcome.newCluster.hits.Sublist cluster.hits ∧
        outcome.energy = (outcome.newCluster.hits.map fun cell => cell.energy).sum)
      (inClusters.take r.outcomes.length) r.outcomes := by
  obtain ⟨systemId, _, hloop, hsc⟩ := MassInv.execute_outcomes _ _ _ _ _ _ _ h
  obtain ⟨hall, hlen⟩ := MassInv.clusterLoop_outcomes _ _ _ _ _ _ _ _ hloop
  refine ⟨fun hs => ?_, ?_⟩
  · have hlen1 := hlen (hsc.mp hs)
    simp [ExecuteResult.correctedClusters, hlen1]
  · exact hall.imp fun cluster outcome ⟨shoot, hp⟩ =>
      MassInv.processCluster_hits _ _ _ _ _ _ _ hp

/-- The corrected cluster of the example cluster: the two cells in the window,
with the energy 10 + 20 before the corrections. -/
theorem MassInv.execute_corrected_clusters_example :
    ((StatusCode.SUCCESS = StatusCode.SUCCESS →
      (MassInv.exampleExecuted [MassInv.exampleClusterCentral]).correctedClusters.length =
        [MassInv.exampleClusterCentral].length) ∧
    List.Forall₂ (fun cluster outcome =>
        outcome.newCluster.hits.Sublist cluster.hits ∧
        outcome.energy = (outcome.newCluster.hits.map fun cell => cell.energy).sum)
      ([MassInv.exampleClusterCentral].take
        (MassInv.exampleExecuted [MassInv.exampleClusterCentral]).outcomes.length)
      (MassInv.exampleExecuted [MassInv.exampleClusterCentral]).outcomes) ∧
    (MassInv.exampleExecuted [MassInv.exampleClusterCentral]).outcomes.map
      (fun outcome => (outcome.energy, outcome.newCluster.hits.map fun cell => cell.energy)) =
      [(30, [10, 20])] :=
  ⟨MassInv.execute_corrected_clusters MassInv.exampleInitialisedMassInv MassInv.exampleTools
    [MassInv.exampleClusterCentral] [] (fun _ => 1) StatusCode.SUCCESS
    (MassInv.exampleExecuted [MassInv.exampleClusterCentral]) (by with_unfolding_all rfl),
    by with_unfolding_all rfl⟩

/-- C14: on the event of the forward example cluster followed by the central
one, `MassInv::execute` leaves the loop over the input clusters at the first
cluster, whose pseudorapidity 1/2 is above the last eta border 3/10, with
`return StatusCode::FAILURE`: the output collection holds one corrected
cluster for the two input clusters, and the central cluster, which has its
corrected cluster when it is alone in the event, has none. -/
theorem MassInv.execute_stops_at_failed_cluster :
    [MassInv.exampleClusterForward, MassInv.exampleClusterCentral].length = 2 ∧
    MassInv.exampleInitialisedMassInv.m_etaBorders.getLast? = some (3 / 10) ∧
    Except.map (fun r => (r.1, r.2.correctedClusters.length,
        r.2.outcomes.map fun outcome => (outcome.returned, outcome.newEta)))
      (MassInv.execute MassInv.exampleInitialisedMassInv MassInv.exampleTools
        [MassInv.exampleClusterForward, MassInv.exampleClusterCentral] [] (fun _ => 1)) =
      .ok (StatusCode.FAILURE, 1, [(true, 1 / 2)]) ∧
    Except.map (fun r => (r.1, r.2.correctedClusters.length))
      (MassInv.execute MassInv.exampleInitialisedMassInv MassInv.exampleTools
        [MassInv.exampleClusterCentral] [] (fun _ => 1)) = .ok (StatusCode.SUCCESS, 1) :=
  ⟨rfl, by with_unfolding_all rfl, by with_unfolding_all rfl, by with_unfolding_all rfl⟩

/-! ## `MassInv::execute`: the correction for the energy upstream and the isolation -/

namespace MassInv

/-- While the four parameters are 0 the loop over the eta borders leaves the
energy of the corrected cluster as it is: the parameters are only set when
the loop is left, and the energy is only changed before that. -/
theorem upstreamLoop_energy {D : Type} [LinearOrderedField D] (self : MassInv D) (sqrt : D → D)
    (newEta clusterEnergy sumEnFirstLayer : D) (indices : List Nat) (st st' : UpstreamState D)
    (h0 : st.P00 = 0 ∧ st.P01 = 0 ∧ st.P10 = 0 ∧ st.P11 = 0)
    (h : upstreamLoop self sqrt newEta clusterEnergy sumEnFirstLayer indices st = .ok st') :
    st'.energy = st.energy := by
  induction indices generalizing st with
  | nil =>
    simp only [upstreamLoop, Except.ok.injEq] at h
    rw [h]
  | cons iEta rest ih =>
    simp only [upstreamLoop] at h
    split at h
    · cases h
    · split at h
      · split at h
        · simp only [Except.ok.injEq] at h
          rw [← h]
        · cases h
      · split at h
        · cases h
        · split at h
          · simp only [Except.ok.injEq] at h
            rw [← h]
          · split at h
            · cases h
            · obtain ⟨h1, h2, h3, h4⟩ := h0
              have key := fun hh => ih _ hh h
              have := key ⟨h1, h2, h3, h4⟩
              rw [this]
              simp only [h1, h2, h3, h4]
              ring

/-- For every cluster processed the energy of the corrected cluster after the
correction for the energy upstream is the energy before the corrections: the
correction adds nothing. -/
theorem processCluster_energyUpstream {D V : Type} [LinearOrderedField D] [FloorRing D]
    (self : MassInv D) (tools : MassInvTools D V) (systemId : Nat) (particle : List (D × D × D))
    (shoot : D) (cluster : Cluster D) (outcome : ClusterOutcome D V)
    (h : processCluster self tools systemId particle shoot cluster = .ok outcome) :
    outcome.energyUpstream = outcome.energy := by
  unfold processCluster at h
  simp only at h
  split at h
  · cases h
  · split at h
    · obtain ⟨_, _, _, h4, _, h6⟩ := finishCluster_ok _ _ _ _ _ _ _ _ _ _ _ _ _ h
      rw [h4, h6]
    · split at h
      · cases h
      · split at h
        · cases h
        · rename_i st hst
          have hen := upstreamLoop_energy _ _ _ _ _ _ _ _ ⟨rfl, rfl, rfl, rfl⟩ hst
          split at h
          · simp only [Except.ok.injEq] at h
            subst h
            exact hen
          · obtain ⟨_, _, _, h4, _, h6⟩ := finishCluster_ok _ _ _ _ _ _ _ _ _ _ _ _ _ h
            rw [h4, h6]
            exact hen

end MassInv

/-- C16: on the example cluster at eta 1/20, below the first eta border 1/10,
the described correction with the parameters of the eta bin 0 is 5, and
`MassInv::execute` leaves the energy of the corrected cluster after the
correction for the energy upstream at the energy 30 it had before. -/
theorem MassInv.execute_upstream_not_applied :
    MassInv.exampleInitialisedMassInv.m_etaBorders = [1 / 10, 3 / 10] ∧
    Except.map
      (fun r => (r.1, r.2.outcomes.map fun o => (o.newEta, o.energy, o.energyUpstream)))
      (MassInv.execute MassInv.exampleInitialisedMassInv MassInv.exampleTools
        [MassInv.exampleClusterCentral] [] (fun _ => 1)) =
      .ok (StatusCode.SUCCESS, [(1 / 20, 30, 30)]) ∧
    MassInv.describedEtaBin MassInv.exampleInitialisedMassInv (1 / 20) = some 0 ∧
    MassInv.describedEnergyFront MassInv.exampleInitialisedMassInv MassInv.exampleTools.sqrt 0
      MassInv.exampleClusterCentral.energy 10 = 5 :=
  ⟨by with_unfolding_all rfl, by with_unfolding_all rfl, by with_unfolding_all rfl,
    by with_unfolding_all rfl⟩

/-- C19: on the event of a central, a forward and a central example cluster,
the pseudorapidity 1/2 of the forward cluster is above the last eta border
3/10, and `MassInv::execute` returns FAILURE at that cluster: its energy stays
30, without a correction from the parameters of the last eta bin, and the
third cluster is not processed. -/
theorem MassInv.execute_fails_above_last_border :
    MassInv.exampleInitialisedMassInv.m_etaBorders.getLast? = some (3 / 10) ∧
    Except.map
      (fun r => (r.1, r.2.outcomes.map fun o =>
        (o.returned, o.newEta, o.energy, o.energyUpstream)))
      (MassInv.execute MassInv.exampleInitialisedMassInv MassInv.exampleTools
        [MassInv.exampleClusterCentral, MassInv.exampleClusterForward,
          MassInv.exampleClusterCentral] [] (fun _ => 1)) =
      .ok (StatusCode.FAILURE, [(false, 1 / 20, 30, 30), (true, 1 / 2, 30, 30)]) :=
  ⟨by with_unfolding_all rfl, by with_unfolding_all rfl⟩

/-- C17: around the tower of eta index 1 and phi index 0, with a window of 3
by 3 towers of energy 1 inside the grid of 10 by 10 towers, the described
isolation energy is 9, and `sumWindow` is 0: the lower bound
`photonIdPhi - halfPhiWin` of the loop in phi is computed in unsigned
arithmetic and is above the upper bound. In `MassInv::execute` on two
candidates with that tower every energy filled into `m_hHCalEnergy` is 0. -/
theorem MassInv.sumWindow_low_phi :
    MassInv.describedSumWindow MassInv.exampleTowers 10 1 0 3 3 = 9 ∧
    MassInv.sumWindow MassInv.exampleTowers 10 1 0 (3 / 2) (3 / 2) = .ok 0 ∧
    Except.toOption (Except.map
      (fun r => (r.1, r.2.fills.filter fun fill => fill.1 = "m_hHCalEnergy"))
      (MassInv.execute MassInv.exampleInitialisedMassInv MassInv.exampleTools
        [MassInv.exampleClusterLowPhi, MassInv.exampleClusterLowPhi] [] (fun _ => 1))) =
      some (StatusCode.SUCCESS, List.replicate 10 ("m_hHCalEnergy", [0])) :=
  ⟨by with_unfolding_all rfl, by with_unfolding_all rfl, by decide!⟩

namespace MassInv

/-- The conversion to `unsigned int` keeps a number below `2 ^ 32`. -/
theorem toUInt32_natCast (n : Nat) (h : n < 2 ^ 32) : toUInt32 (n : Int) = n := by
  unfold toUInt32
  have h2 : ((2 : Int) ^ 32) = ((2 ^ 32 : Nat) : Int) := by norm_num
  rw [h2, ← Int.natCast_mod, Int.toNat_natCast, Nat.mod_eq_of_lt h]

/-- The conversion to `int` keeps a number below `2 ^ 31`. -/
theorem toInt32_of_lt (n : Nat) (h : n < 2 ^ 31) : toInt32 n = n := by
  unfold toInt32
  have h1 : n % 2 ^ 32 = n := Nat.mod_eq_of_lt (by omega)
  rw [h1, if_pos h]

/-- On an index that is not negative `phiNeighbour` is the remainder of the
division by the number of bins. -/
theorem phiNeighbour_natCast (p n : Nat) (hp : p < 2 ^ 31) (hn : 0 < n) :
    phiNeighbour (toInt32 p) (n : Int) = p % n := by
  rw [toInt32_of_lt p hp]
  unfold phiNeighbour
  have h0 : ¬ ((p : Int) < 0) := by omega
  rw [if_neg h0]
  by_cases hge : (p : Int) ≥ (n : Int)
  · rw [if_pos hge, Int.tmod_eq_emod (by omega) (by omega), ← Int.natCast_mod]
    exact toUInt32_natCast _ (lt_of_le_of_lt (Nat.mod_le _ _) (by omega))
  · rw [if_neg hge, toUInt32_natCast _ (by omega), Nat.mod_eq_of_lt (by omega)]

/-- The indices of a loop of the isolation that starts at or above 0. -/
theorem windowIndices_eq (id half : Nat) (hlow : half ≤ id) (hhigh : id + half < 2 ^ 32) :
    windowIndices id half = List.range' (id - half) (2 * half + 1) := by
  unfold windowIndices
  have h1 : ((id : Int) - (half : Int)) = ((id - half : Nat) : Int) := by omega
  have h2 : ((id : Int) + (half : Int)) = ((id + half : Nat) : Int) := by omega
  rw [h1, h2, toUInt32_natCast _ (by omega), toUInt32_natCast _ hhigh]
  simp only
  rw [if_pos (by omega)]
  congr 1
  omega

/-- The inner loop of the isolation adds the towers of the row at the indices
taken cyclically. -/
theorem sumPhiWindow_eq {D : Type} [AddCommMonoid D] (towers : List (List D)) (nPhiTower : Nat)
    (iEtaWindow : Nat) (row : List D) (phis : List Nat) (sum : D)
    (hrow : towers[iEtaWindow]? = some row) (hlen : row.length = nPhiTower)
    (hn : 0 < nPhiTower) (hphis : ∀ p ∈ phis, p < 2 ^ 31) :
    sumPhiWindow towers nPhiTower iEtaWindow phis sum =
      .ok (sum + (phis.map fun p => row.getD (p % nPhiTower) 0).sum) := by
  induction phis generalizing sum with
  | nil => simp [sumPhiWindow]
  | cons p rest ih =>
    have hp := hphis p (by simp)
    have hlt : p % nPhiTower < row.length := by rw [hlen]; exact Nat.mod_lt _ hn
    simp only [sumPhiWindow, elemAt, hrow, phiNeighbour_natCast p nPhiTower hp hn,
      List.getElem?_eq_getElem hlt]
    rw [ih _ (fun q hq => hphis q (by simp [hq]))]
    simp only [List.map_cons, List.sum_cons, List.getD_eq_getElem?_getD,
      List.getElem?_eq_getElem hlt, Option.getD_some, add_assoc]

/-- The outer loop of the isolation adds the sums of the rows. -/
theorem sumEtaWindow_eq {D : Type} [AddCommMonoid D] (towers : List (List D)) (nPhiTower : Nat)
    (phis etas : List Nat) (sum : D) (hrows : ∀ row ∈ towers, row.length = nPhiTower)
    (hn : 0 < nPhiTower) (hphis : ∀ p ∈ phis, p < 2 ^ 31) (hetas : ∀ e ∈ etas, e < towers.length) :
    sumEtaWindow towers nPhiTower phis etas sum =
      .ok (sum + (etas.map fun e =>
        (phis.map fun p => (towers.getD e []).getD (p % nPhiTower) 0).sum).sum) := by
  induction etas generalizing sum with
  | nil => simp [sumEtaWindow]
  | cons e rest ih =>
    have he := hetas e (by simp)
    have hrow : towers[e]? = some towers[e] := List.getElem?_eq_getElem he
    simp only [sumEtaWindow]
    rw [sumPhiWindow_eq towers nPhiTower e towers[e] phis sum hrow
      (hrows _ (List.getElem_mem he)) hn hphis]
    simp only
    rw [ih _ (fun q hq => hetas q (by simp [hq]))]
    simp only [List.map_cons, List.sum_cons, List.getD_eq_getElem?_getD, hrow, Option.getD_some,
      add_assoc]

/-- Away from the low edges the energy `sumWindow` of `execute` is the
described isolation energy: for a tower `(idEta, idPhi)` with
`floor(etaSize / 2) ≤ idEta`, `floor(phiSize / 2) ≤ idPhi`, the eta range inside
the grid and rows of `nPhiTower` towers. -/
theorem sumWindow_eq_described {D : Type} [AddCommMonoid D] (towers : List (List D))
    (nPhiTower idEta idPhi etaSize phiSize : Nat)
    (hrows : ∀ row ∈ towers, row.length = nPhiTower) (hn : 0 < nPhiTower)
    (hetaLow : etaSize / 2 ≤ idEta) (hetaHigh : idEta + etaSize / 2 < towers.length)
    (hgrid : towers.length < 2 ^ 32)
    (hphiLow : phiSize / 2 ≤ idPhi) (hphiHigh : idPhi + phiSize / 2 < 2 ^ 31) :
    sumWindow towers nPhiTower idEta idPhi (etaSize / 2) (phiSize / 2) =
      .ok (describedSumWindow towers nPhiTower idEta idPhi etaSize phiSize) := by
  unfold sumWindow
  rw [windowIndices_eq idPhi _ hphiLow (by omega), windowIndices_eq idEta _ hetaLow (by omega)]
  rw [sumEtaWindow_eq towers nPhiTower _ _ 0 hrows hn
    (fun p hp => by have := (List.mem_range'_1.mp hp).2; omega)
    (fun e he => by have := (List.mem_range'_1.mp he).2; omega)]
  rw [zero_add]
  unfold describedSumWindow
  simp only [List.range'_eq_map_range, List.map_map]
  congr 2
  apply List.map_congr_left
  intro i _
  simp only [Function.comp]
  congr 1
  apply List.map_congr_left
  intro j _
  simp only [Function.comp]
  have e1 : ((idEta : Int) - ((etaSize / 2 : Nat) : Int) + (i : Int)).toNat =
      idEta - etaSize / 2 + i := by omega
  have e2 : ((idPhi : Int) - ((phiSize / 2 : Nat) : Int) + (j : Int)) =
      ((idPhi - phiSize / 2 + j : Nat) : Int) := by omega
  rw [e1, e2, ← Int.natCast_mod, Int.toNat_natCast]

end MassInv

/-! ## `MassInv::execute`: the recalculation of the pseudorapidity -/

namespace MassInv

end MassInv

namespace MassInv

end MassInv

namespace MassInv

end MassInv

namespace MassInv

/-- The conversion to `unsigned int` keeps an integer of `[0, 2 ^ 32)`. -/
theorem toUInt32_of_nonneg (v : Int) (h0 : 0 ≤ v) (h1 : v < 2 ^ 32) :
    ((toUInt32 v : Nat) : Int) = v := by
  unfold toUInt32
  rw [Int.emod_eq_of_lt h0 h1, Int.toNat_of_nonneg h0]

/-- The value of `phiNeighbour` on the arguments of the claim C25: the
remainder of the Euclidean division. -/
theorem phiNeighbour_emod (aIPhi aMaxPhi : Int) (hmax : 0 < aMaxPhi) (hint : aMaxPhi < 2 ^ 31)
    (hlow : -aMaxPhi ≤ aIPhi) (hhigh : aIPhi < 2 ^ 31) :
    ((phiNeighbour aIPhi aMaxPhi : Nat) : Int) = aIPhi % aMaxPhi := by
  unfold phiNeighbour
  by_cases hneg : aIPhi < 0
  · rw [if_pos hneg, toUInt32_of_nonneg _ (by omega) (by omega)]
    rw [← Int.add_emod_self, Int.emod_eq_of_lt (by omega) (by omega)]
    ring
  · rw [if_neg hneg]
    by_cases hge : aIPhi ≥ aMaxPhi
    · rw [if_pos hge, Int.tmod_eq_emod (by omega) (by omega)]
      have h1 := Int.emod_nonneg aIPhi (by omega : aMaxPhi ≠ 0)
      have h2 := Int.emod_lt_of_pos aIPhi hmax
      exact toUInt32_of_nonneg _ h1 (by omega)
    · rw [if_neg hge, toUInt32_of_nonneg _ (by omega) (by omega)]
      rw [Int.emod_eq_of_lt (by omega) (by omega)]

end MassInv

/-- C25: for `0 < aMaxPhi` and `aIPhi ≥ -aMaxPhi`, both of type `int`, the value
of `MassInv::phiNeighbour(aIPhi, aMaxPhi)` lies in `[0, aMaxPhi)` and is
congruent to `aIPhi` modulo `aMaxPhi`; it is `aIPhi` itself for `aIPhi` in
`[0, aMaxPhi)`, and `phiNeighbour` applied to its own value gives that value
again. -/
theorem MassInv.phiNeighbour_cyclic (aIPhi aMaxPhi : Int) (hmax : 0 < aMaxPhi)
    (hint : aMaxPhi < 2 ^ 31) (hlow : -aMaxPhi ≤ aIPhi) (hhigh : aIPhi < 2 ^ 31) :
    (0 ≤ ((MassInv.phiNeighbour aIPhi aMaxPhi : Nat) : Int) ∧
      ((MassInv.phiNeighbour aIPhi aMaxPhi : Nat) : Int) < aMaxPhi) ∧
    ((MassInv.phiNeighbour aIPhi aMaxPhi : Nat) : Int) ≡ aIPhi [ZMOD aMaxPhi] ∧
    (0 ≤ aIPhi → aIPhi < aMaxPhi → ((MassInv.phiNeighbour aIPhi aMaxPhi : Nat) : Int) = aIPhi) ∧
    MassInv.phiNeighbour (toInt32 (MassInv.phiNeighbour aIPhi aMaxPhi)) aMaxPhi =
      MassInv.phiNeighbour aIPhi aMaxPhi := by
  have h := MassInv.phiNeighbour_emod aIPhi aMaxPhi hmax hint hlow hhigh
  have h1 := Int.emod_nonneg aIPhi (by omega : aMaxPhi ≠ 0)
  have h2 := Int.emod_lt_of_pos aIPhi hmax
  refine ⟨⟨by omega, by omega⟩, ?_, fun h0 hlt => ?_, ?_⟩
  · rw [h]
    exact Int.mod_modEq aIPhi aMaxPhi
  · rw [h, Int.emod_eq_of_lt h0 hlt]
  · have hlt : MassInv.phiNeighbour aIPhi aMaxPhi < 2 ^ 31 := by omega
    rw [MassInv.toInt32_of_lt _ hlt]
    have hidem := MassInv.phiNeighbour_emod (MassInv.phiNeighbour aIPhi aMaxPhi : Nat) aMaxPhi
      hmax hint (by omega) (by omega)
    rw [h, Int.emod_emod_of_dvd aIPhi (dvd_refl aMaxPhi), ← h] at hidem
    exact_mod_cast hidem

/-- The neighbours in a ring of 64 bins: the bin 62 for the index -2, the bin
1 for the index 65. -/
theorem MassInv.phiNeighbour_cyclic_witness :
    ((0 ≤ ((MassInv.phiNeighbour (-2) 64 : Nat) : Int) ∧
        ((MassInv.phiNeighbour (-2) 64 : Nat) : Int) < 64) ∧
      ((MassInv.phiNeighbour (-2) 64 : Nat) : Int) ≡ -2 [ZMOD 64] ∧
      ((0 : Int) ≤ -2 → (-2 : Int) < 64 → ((MassInv.phiNeighbour (-2) 64 : Nat) : Int) = -2) ∧
      MassInv.phiNeighbour (toInt32 (MassInv.phiNeighbour (-2) 64)) 64 =
        MassInv.phiNeighbour (-2) 64) ∧
    MassInv.phiNeighbour (-2) 64 = 62 ∧ MassInv.phiNeighbour 65 64 = 1 :=
  ⟨MassInv.phiNeighbour_cyclic (-2) 64 (by decide) (by decide) (by decide) (by decide),
    by decide, by decide⟩

namespace MassInv

end MassInv

/-- C30: on a readout with a phi-eta segmentation whose decoder has the fields
`system`, `module` and `phi` and no field `layer`,
`CellPositionsCaloDiscsTool::initialize` returns SUCCESS, the status of the
base class; `layerId` on the tool so initialised throws. -/
theorem CellPositionsCaloDiscsTool.initialise_without_layer :
    (CellPositionsCaloDiscsTool.initialisedTool CellPositionsCaloDiscsTool.exampleToolNoLayer
        RewriteHCalBarrelBitfield.exampleServices).m_decoder.map
      (fun fields => fields.map fun f => f.name) = some ["system", "module", "phi"] ∧
    Except.map Prod.fst (CellPositionsCaloDiscsTool.initialise
      CellPositionsCaloDiscsTool.exampleToolNoLayer RewriteHCalBarrelBitfield.exampleServices) =
      .ok StatusCode.SUCCESS ∧
    CellPositionsCaloDiscsTool.layerId
      (CellPositionsCaloDiscsTool.initialisedTool CellPositionsCaloDiscsTool.exampleToolNoLayer
        RewriteHCalBarrelBitfield.exampleServices) 33 = .error "unknown field: layer" :=
  ⟨by decide, rfl, rfl⟩

/-! ## `MassInv::execute`: the window in phi and the lists of candidates -/

/-- C26: the example cluster in the phi bin 1 has a cell in that very bin, at
the eta index of the cluster, inside the described window of half sizes 3 in
eta and in phi among 64 bins in phi. The bounds of the test in phi are
`phiNeighbour(1 - 3, 64) = 62` and `phiNeighbour(1 + 3, 64) = 4`, no index is
at least 62 and at most 4, and the cell is not added to the corrected
cluster. -/
theorem MassInv.selectCell_phi_edge :
    MassInv.gridId (5 / 100 : Rat) (1 / 100) 0 = 5 ∧ MassInv.gridId (1 / 10 : Rat) (1 / 10) 0 = 1 ∧
    MassInv.exampleInitialisedMassInv.m_halfEtaFin = [3, 4] ∧
    MassInv.exampleInitialisedMassInv.m_halfPhiFin = [3, 4] ∧
    MassInv.exampleInitialisedMassInv.m_ellipseFinalCluster = false ∧
    MassInv.describedInWindow 5 1 5 1 3 3 64 = true ∧
    MassInv.phiNeighbour (1 - 3) 64 = 62 ∧ MassInv.phiNeighbour (1 + 3) 64 = 4 ∧
    MassInv.selectCell MassInv.exampleInitialisedMassInv MassInv.exampleTools 5 (1 / 20) (1 / 10)
      { cellID := MassInv.exampleCellID 0 5 1, energy := 30, position := (0, 0, 0) } =
      .ok false ∧
    Except.map (fun r => r.1.length)
      (MassInv.addHits MassInv.exampleInitialisedMassInv MassInv.exampleTools 5
        (MassInv.exampleTools.vecEta MassInv.exampleClusterPhiEdge.position)
        (MassInv.exampleTools.vecPhi MassInv.exampleClusterPhiEdge.position)
        MassInv.exampleClusterPhiEdge.hits [] 0) = .ok 0 :=
  ⟨by with_unfolding_all rfl, by with_unfolding_all rfl, by with_unfolding_all rfl,
    by with_unfolding_all rfl, by with_unfolding_all rfl, by decide, by decide, by decide,
    by with_unfolding_all rfl, by with_unfolding_all rfl⟩

/-- C28: on the event of two central example clusters there are two
candidates, so that the part under `clustersMassInvScaled.size() > 1` is
entered; the window of 3 by 3 towers of energy 1 around each candidate holds
the energy 9, above the threshold 2, and the isolation erases both
candidates from the first list; `execute` then reads the elements `[0]` and
`[1]` of a list without elements. -/
theorem MassInv.execute_reads_empty_list :
    (MassInv.exampleCandidates [MassInv.exampleClusterCentral,
      MassInv.exampleClusterCentral]).length = 2 ∧
    MassInv.exampleInitialisedMassInv.m_hcalEnergyThreshold = 2 ∧
    Except.map (fun r => (r.1, r.2))
      (MassInv.isolate MassInv.exampleTools MassInv.exampleTowers 10 (3 / 2) (3 / 2) 2
        (MassInv.exampleTools.stdSort (MassInv.ptGreater MassInv.exampleTools)
          (MassInv.exampleCandidates
          [MassInv.exampleClusterCentral, MassInv.exampleClusterCentral]))) =
      .ok ([], [("m_hHCalEnergy", [9]), ("m_hHCalEnergy", [9])]) ∧
    MassInv.errorOf (MassInv.diPhoton MassInv.exampleInitialisedMassInv MassInv.exampleTools
      ([] : List (Rat × Rat × Rat × Rat))) = some "index out of range" ∧
    MassInv.errorOf (MassInv.execute MassInv.exampleInitialisedMassInv MassInv.exampleTools
      [MassInv.exampleClusterCentral, MassInv.exampleClusterCentral] [] (fun _ => 1)) =
      some "index out of range" :=
  ⟨by with_unfolding_all rfl, by with_unfolding_all rfl, by with_unfolding_all rfl, rfl,
    by decide!⟩

/-- C29: on the event of three clusters at the pseudorapidity 0, of the
energies 25, 100 and 400 in this order, the first and the third in one
direction of the transverse plane and the second opposite to them, the
candidates are the massless four-vectors `(0, 25, 0, 25)`, `(0, -100, 0, 100)`
and `(0, 400, 0, 400)`. Every window of the isolation holds the energy 9, not
above any of the five thresholds 100, 10, 20, 30 and 40, so that no candidate
is removed. The first list is sorted and its mass is the one of the
candidates of the transverse momenta 400 and 100, which is 400; the four
other lists are in the order of the clusters and their mass is the one of the
candidates of the energies 25 and 100, which is 100. -/
theorem MassInv.execute_isolated_masses_differ :
    MassInv.exampleMassInvLoose.m_hcalEnergyThreshold = 100 ∧
    MassInv.exampleLorentzTools.lvMag (MassInv.exampleLorentzTools.lvAdd
      (0, 25, 0, 25) (0, -100, 0, 100)) = 100 ∧
    MassInv.exampleLorentzTools.lvMag (MassInv.exampleLorentzTools.lvAdd
      (0, 400, 0, 400) (0, -100, 0, 100)) = 400 ∧
    MassInv.exampleLorentzTools.lvMag (MassInv.exampleLorentzTools.lvAdd
      (0, 25, 0, 25) (0, 400, 0, 400)) = 0 ∧
    Except.toOption (Except.map
      (fun r => (r.1, r.2.outcomes.filterMap fun outcome => outcome.candidate.map Prod.snd))
      (MassInv.execute MassInv.exampleMassInvLoose MassInv.exampleLorentzTools
        MassInv.exampleEventBackToBack [] (fun _ => 1))) =
      some (StatusCode.SUCCESS, [(0, 25, 0, 25), (0, -100, 0, 100), (0, 400, 0, 400)]) ∧
    Except.toOption (Except.map
      (fun r => (r.2.fills.filter (fun fill => fill.1 = "m_hHCalEnergy"),
        r.2.fills.filter (fun fill => fill.1 = "m_hMassInvScaledIsolated" ∨
          fill.1 = "m_hMassInvScaledIsolated2" ∨ fill.1 = "m_hMassInvScaledIsolated3" ∨
          fill.1 = "m_hMassInvScaledIsolated4" ∨ fill.1 = "m_hMassInvScaledIsolated5")))
      (MassInv.execute MassInv.exampleMassInvLoose MassInv.exampleLorentzTools
        MassInv.exampleEventBackToBack [] (fun _ => 1))) =
      some (List.replicate 15 ("m_hHCalEnergy", [9]),
        [("m_hMassInvScaledIsolated", [400]), ("m_hMassInvScaledIsolated2", [100]),
          ("m_hMassInvScaledIsolated3", [100]), ("m_hMassInvScaledIsolated4", [100]),
          ("m_hMassInvScaledIsolated5", [100])]) :=
  ⟨by with_unfolding_all rfl, by decide!, by decide!, by decide!, by decide!, by decide!⟩

/-! ## `MassInv::execute`: the mass of the two leading candidates -/

namespace MassInv

/-- The loop over the isolation windows appends its calls of `Fill` to the
ones made before. -/
theorem isolationWindows_fills {D V : Type} [LinearOrderedField D] (self : MassInv D)
    (tools : MassInvTools D V) (towers : List (List D)) (indices : List Nat)
    (lists lists' : IsolationLists V) (fills fills' : List (Fill D))
    (h : isolationWindows self tools towers indices lists fills = .ok (lists', fills')) :
    ∃ more, fills' = fills ++ more := by
  induction indices generalizing lists fills with
  | nil =>
    simp only [isolationWindows, Except.ok.injEq, Prod.mk.injEq] at h
    exact ⟨[], by simp [h.2]⟩
  | cons iCluster rest ih =>
    simp only [isolationWindows] at h
    split at h
    · split at h
      · obtain ⟨more, hmore⟩ := ih _ _ h
        exact ⟨_, by rw [hmore]; simp only [List.append_assoc]; rfl⟩
      · cases h
    · cases h

/-- The part of `execute` under `clustersMassInvScaled.size() > 1` starts with
the calls of `Fill` of `sortedMass`. -/
theorem diPhotonMasses_ok {D V : Type} [LinearOrderedField D] (self : MassInv D)
    (tools : MassInvTools D V) (clustersMassInvScaled : List V) (fills : List (Fill D))
    (h : diPhotonMasses self tools clustersMassInvScaled = .ok fills) :
    ∃ sorted fills0 after, sortedMass self tools clustersMassInvScaled = .ok (sorted, fills0) ∧
      fills = fills0 ++ after := by
  unfold diPhotonMasses at h
  split at h
  · cases h
  · rename_i sorted fills0 hsorted
    simp only at h
    split at h
    · cases h
    · rename_i lists fills1 hiso
      obtain ⟨more, hmore⟩ := isolationWindows_fills _ _ _ _ _ _ _ _ hiso
      split at h
      · simp only [Except.ok.injEq] at h
        exact ⟨sorted, fills0, _, hsorted, by
          rw [← h, hmore]
          simp only [List.append_assoc]
          rfl⟩
      · cases h

/-- The calls of `Fill` of a run of `execute` that returns SUCCESS with more
than one candidate end with the ones of the part under
`clustersMassInvScaled.size() > 1`. -/
theorem execute_success_fills {D V : Type} [LinearOrderedField D] [FloorRing D]
    (self : MassInv D) (tools : MassInvTools D V) (inClusters : List (Cluster D))
    (particle : List (D × D × D)) (gauss : Nat → D) (r : ExecuteResult D V)
    (h : execute self tools inClusters particle gauss = .ok (StatusCode.SUCCESS, r))
    (htwo : 1 < (r.outcomes.filterMap fun outcome => outcome.candidate.map Prod.snd).length) :
    ∃ before fills2,
      diPhotonMasses self tools
        (r.outcomes.filterMap fun outcome => outcome.candidate.map Prod.snd) = .ok fills2 ∧
      r.fills = before ++ fills2 := by
  unfold execute at h
  split at h
  · cases h
  · split at h
    · cases h
    · rename_i outcomes _
      simp only at h
      split at h
      · cases h
      · split at h
        · split at h
          · cases h
          · rename_i fills2 hdi
            simp only [Except.ok.injEq, Prod.mk.injEq, true_and] at h
            subst h
            exact ⟨_, fills2, hdi, rfl⟩
        · rename_i hlen
          simp only [Except.ok.injEq, Prod.mk.injEq, true_and] at h
          subst h
          exact absurd htwo hlen


/-- The comparator of the call of `std::sort` is a strict weak ordering. -/
theorem ptGreater_strict_weak {D V : Type} [LinearOrderedField D] (tools : MassInvTools D V) :
    (∀ a, ptGreater tools a a = false) ∧
    (∀ a b c, ptGreater tools a b = true → ptGreater tools b c = true →
      ptGreater tools a c = true) ∧
    (∀ a b c, ptGreater tools a b = false → ptGreater tools b c = false →
      ptGreater tools a c = false) := by
  unfold ptGreater
  refine ⟨fun a => ?_, fun a b c hab hbc => ?_, fun a b c hab hbc => ?_⟩
  · simp
  · simp only [gt_iff_lt, decide_eq_true_eq] at hab hbc ⊢
    exact lt_trans hbc hab
  · simp only [gt_iff_lt, decide_eq_false_iff_not, not_lt] at hab hbc ⊢
    exact le_trans hab hbc

/-- With a library sort that keeps its contract, the list sorted by the call
of `std::sort` is a permutation of the candidates in non-increasing order of
`Pt()`. -/
theorem stdSort_ptGreater {D V : Type} [LinearOrderedField D] (tools : MassInvTools D V)
    (hsort : StdSortContract tools.stdSort) (l : List V) :
    (tools.stdSort (ptGreater tools) l).Perm l ∧
    (tools.stdSort (ptGreater tools) l).Pairwise fun a b => tools.lvPt a ≥ tools.lvPt b := by
  obtain ⟨h1, h2, h3⟩ := ptGreater_strict_weak tools
  obtain ⟨hperm, hpair⟩ := hsort (ptGreater tools) l h1 h2 h3
  refine ⟨hperm, hpair.imp ?_⟩
  intro a b hab
  unfold ptGreater at hab
  simpa using hab

/-- A merge sort on the negation of the comparator keeps the contract of
`std::sort`. -/
theorem mergeSort_contract {V : Type} :
    StdSortContract (fun (comp : V → V → Bool) (l : List V) =>
      l.mergeSort (fun a b => !comp b a)) := by
  intro comp l hirr htrans hneg
  refine ⟨List.mergeSort_perm l _, ?_⟩
  have hsorted := @List.sorted_mergeSort V (fun a b => !comp b a)
    (fun a b c hab hbc => by
      simp only [Bool.not_eq_true'] at hab hbc ⊢
      exact hneg c b a hbc hab)
    (fun a b => by
      cases hba : comp b a with
      | false => simp [hba]
      | true =>
        cases hab : comp a b with
        | false => simp [hab]
        | true =>
          have := htrans a b a hab hba
          rw [hirr a] at this
          cases this) l
  exact hsorted.imp (by
    intro a b hab
    simpa using hab)

end MassInv

/-- C23: with a `std::sort` that keeps the contract of the C++ standard, the
call of `std::sort` with the comparator `photon1.Pt() > photon2.Pt()` leaves,
of every list of at least two scaled candidates, a permutation in
non-increasing order of `Pt()`; it starts with two candidates `c0` and `c1`
whose transverse momenta are at least the one of every other candidate, and
the statements that follow the sort fill `(c0 + c1).Pt()` into
`m_hDiPTScaled` and `(c0 + c1).Mag() * m_massInvCorrection` into
`m_hMassInvScaled`, whatever the isolation does afterwards. A run of
`MassInv::execute` that returns SUCCESS with at least two candidates holds
these calls of `Fill`. -/
theorem MassInv.execute_leading_candidates {D V : Type} [LinearOrderedField D] [FloorRing D]
    (self : MassInv D) (tools : MassInvTools D V)
    (hsort : MassInv.StdSortContract tools.stdSort) :
    (∀ clustersMassInvScaled : List V, 2 ≤ clustersMassInvScaled.length →
      ∃ c0 c1 rest,
        tools.stdSort (MassInv.ptGreater tools) clustersMassInvScaled = c0 :: c1 :: rest ∧
        (c0 :: c1 :: rest).Perm clustersMassInvScaled ∧
        (c0 :: c1 :: rest).Pairwise (fun a b => tools.lvPt a ≥ tools.lvPt b) ∧
        tools.lvPt c0 ≥ tools.lvPt c1 ∧ (∀ c ∈ rest, tools.lvPt c1 ≥ tools.lvPt c) ∧
        MassInv.sortedMass self tools clustersMassInvScaled =
          .ok (c0 :: c1 :: rest,
            [("m_hDiPTScaled", [tools.lvPt (tools.lvAdd c0 c1)]),
              ("m_hMassInvScaled",
                [tools.lvMag (tools.lvAdd c0 c1) * self.m_massInvCorrection]),
              ("m_hMassInvScaledPt",
                [tools.lvMag (tools.lvAdd c0 c1) * self.m_massInvCorrection,
                  tools.lvPt (tools.lvAdd c0 c1)])] ++
              MassInv.thresholdFills "m_hMassInvScaled"
                (tools.lvMag (tools.lvAdd c0 c1) * self.m_massInvCorrection)
                (tools.lvPt (tools.lvAdd c0 c1)))) ∧
    ∀ (inClusters : List (Cluster D)) (particle : List (D × D × D)) (gauss : Nat → D)
      (r : ExecuteResult D V),
      MassInv.execute self tools inClusters particle gauss = .ok (StatusCode.SUCCESS, r) →
      2 ≤ (r.outcomes.filterMap fun outcome => outcome.candidate.map Prod.snd).length →
      ∃ sorted fills0 before after,
        MassInv.sortedMass self tools
          (r.outcomes.filterMap fun outcome => outcome.candidate.map Prod.snd) =
          .ok (sorted, fills0) ∧
        r.fills = before ++ fills0 ++ after := by
  refine ⟨fun l hl => ?_, fun inClusters particle gauss r h htwo => ?_⟩
  · obtain ⟨hperm, hpair⟩ := MassInv.stdSort_ptGreater tools hsort l
    have hlen := hperm.length_eq
    cases hs : tools.stdSort (MassInv.ptGreater tools) l with
    | nil =>
      rw [hs] at hlen
      simp only [List.length_nil] at hlen
      omega
    | cons c0 t =>
      cases t with
      | nil =>
        rw [hs] at hlen
        simp only [List.length_cons, List.length_nil] at hlen
        omega
      | cons c1 rest =>
        rw [hs] at hperm hpair
        refine ⟨c0, c1, rest, rfl, hperm, hpair, ?_, ?_, ?_⟩
        · exact List.rel_of_pairwise_cons hpair (by simp)
        · intro c hc
          exact List.rel_of_pairwise_cons (List.Pairwise.of_cons hpair) hc
        · unfold MassInv.sortedMass
          simp only [hs, MassInv.diPhoton]
  · obtain ⟨before, fills2, hdi, hfills⟩ :=
      MassInv.execute_success_fills _ _ _ _ _ _ h (by omega)
    obtain ⟨sorted, fills0, after, hs, hf⟩ := MassInv.diPhotonMasses_ok _ _ _ _ hdi
    exact ⟨sorted, fills0, before, after, hs, by rw [hfills, hf, List.append_assoc]⟩

/-- On the event of three clusters at the pseudorapidity 0, of the energies
25, 100 and 400 in this order, the first and the third in one direction and
the second opposite to them, the candidates are massless four-vectors of the
transverse momenta 25, 100 and 400; the sorted list starts with the
candidates of the transverse momenta 400 and 100, and `execute` fills their
mass 400 and their transverse momentum 300. With the threshold 2 of the
isolation `execute` is left through the read of an empty list after these
calls of `Fill`. -/
theorem MassInv.execute_leading_candidates_witness :
    MassInv.StdSortContract MassInv.exampleLorentzTools.stdSort ∧
    Except.toOption (Except.map
      (fun r => (r.1, r.2.outcomes.filterMap fun outcome => outcome.candidate.map Prod.snd))
      (MassInv.execute MassInv.exampleMassInvLoose MassInv.exampleLorentzTools
        MassInv.exampleEventBackToBack [] (fun _ => 1))) =
      some (StatusCode.SUCCESS, MassInv.exampleLorentzCandidates) ∧
    Except.toOption (Except.map
      (fun r => r.2.fills.filter
        (fun fill => fill.1 = "m_hMassInvScaled" ∨ fill.1 = "m_hDiPTScaled"))
      (MassInv.execute MassInv.exampleMassInvLoose MassInv.exampleLorentzTools
        MassInv.exampleEventBackToBack [] (fun _ => 1))) =
      some [("m_hDiPTScaled", [300]), ("m_hMassInvScaled", [400])] ∧
    MassInv.exampleLorentzCandidates.map MassInv.exampleLorentzTools.lvPt = [25, 100, 400] ∧
    Except.toOption (MassInv.sortedMass (MassInv.exampleMassInvQuiet 2)
      MassInv.exampleLorentzTools MassInv.exampleLorentzCandidates) =
      some ([(0, 400, 0, 400), (0, -100, 0, 100), (0, 25, 0, 25)],
        [("m_hDiPTScaled", [300]), ("m_hMassInvScaled", [400]),
          ("m_hMassInvScaledPt", [400, 300]), ("m_hMassInvScaled100", [400]),
          ("m_hMassInvScaled200", [400])]) ∧
    MassInv.errorOf (MassInv.execute (MassInv.exampleMassInvQuiet 2)
      MassInv.exampleLorentzTools MassInv.exampleEventBackToBack [] (fun _ => 1)) =
      some "index out of range" ∧
    ((∀ clustersMassInvScaled : List (Rat × Rat × Rat × Rat),
      2 ≤ clustersMassInvScaled.length →
      ∃ c0 c1 rest,
        MassInv.exampleLorentzTools.stdSort (MassInv.ptGreater MassInv.exampleLorentzTools)
          clustersMassInvScaled = c0 :: c1 :: rest ∧
        (c0 :: c1 :: rest).Perm clustersMassInvScaled ∧
        (c0 :: c1 :: rest).Pairwise
          (fun a b => MassInv.exampleLorentzTools.lvPt a ≥ MassInv.exampleLorentzTools.lvPt b) ∧
        MassInv.exampleLorentzTools.lvPt c0 ≥ MassInv.exampleLorentzTools.lvPt c1 ∧
        (∀ c ∈ rest, MassInv.exampleLorentzTools.lvPt c1 ≥ MassInv.exampleLorentzTools.lvPt c) ∧
        MassInv.sortedMass MassInv.exampleMassInvLoose MassInv.exampleLorentzTools
            clustersMassInvScaled =
          .ok (c0 :: c1 :: rest,
            [("m_hDiPTScaled",
                [MassInv.exampleLorentzTools.lvPt (MassInv.exampleLorentzTools.lvAdd c0 c1)]),
              ("m_hMassInvScaled",
                [MassInv.exampleLorentzTools.lvMag (MassInv.exampleLorentzTools.lvAdd c0 c1) *
                  MassInv.exampleMassInvLoose.m_massInvCorrection]),
              ("m_hMassInvScaledPt",
                [MassInv.exampleLorentzTools.lvMag (MassInv.exampleLorentzTools.lvAdd c0 c1) *
                    MassInv.exampleMassInvLoose.m_massInvCorrection,
                  MassInv.exampleLorentzTools.lvPt
                    (MassInv.exampleLorentzTools.lvAdd c0 c1)])] ++
              MassInv.thresholdFills "m_hMassInvScaled"
                (MassInv.exampleLorentzTools.lvMag (MassInv.exampleLorentzTools.lvAdd c0 c1) *
                  MassInv.exampleMassInvLoose.m_massInvCorrection)
                (MassInv.exampleLorentzTools.lvPt
                  (MassInv.exampleLorentzTools.lvAdd c0 c1)))) ∧
    ∀ (inClusters : List (Cluster Rat)) (particle : List (Rat × Rat × Rat)) (gauss : Nat → Rat)
      (r : ExecuteResult Rat (Rat × Rat × Rat × Rat)),
      MassInv.execute MassInv.exampleMassInvLoose MassInv.exampleLorentzTools inClusters
        particle gauss = .ok (StatusCode.SUCCESS, r) →
      2 ≤ (r.outcomes.filterMap fun outcome => outcome.candidate.map Prod.snd).length →
      ∃ sorted fills0 before after,
        MassInv.sortedMass MassInv.exampleMassInvLoose MassInv.exampleLorentzTools
          (r.outcomes.filterMap fun outcome => outcome.candidate.map Prod.snd) =
          .ok (sorted, fills0) ∧
        r.fills = before ++ fills0 ++ after) :=
  ⟨MassInv.mergeSort_contract, by decide!, by decide!, by decide!, by decide!, by decide!,
    MassInv.execute_leading_candidates MassInv.exampleMassInvLoose MassInv.exampleLorentzTools
      MassInv.mergeSort_contract⟩

/-! ## `MassInv::execute`: the pseudorapidity of cells of equal pseudorapidity -/

namespace MassInv

end MassInv

namespace MuonCaloHitDigi

/-- A successful `initialize` of a digitiser whose vector of layer positions
is empty: where the readout and the layers come from, and what is stored. -/
theorem initialise_success {D : Type} [Add D] [Div D] [OfNat D 2] (self0 self : MuonCaloHitDigi D)
    (det : Detector D) (hempty : self0.m_layerPositions = [])
    (hinit : initialise self0 det = .ok (StatusCode.SUCCESS, self)) :
    ∃ readout seg barrel endcap barrelLayers endcapLayers,
      det.readout self0.m_readoutName = .ok readout ∧
      det.detector self0.m_barrelDetectorName = some barrel ∧
      det.detector self0.m_endcapDetectorName = some endcap ∧
      barrel.extension = some barrelLayers ∧ endcap.extension = some endcapLayers ∧
      self.m_decoder = some readout.idSpec ∧ self.m_segmentation = some seg ∧
      self.m_barrelSysId = self0.m_barrelSysId ∧
      self.m_layerPositions = [layerCentres barrelLayers, layerCentres endcapLayers] := by
  unfold initialise at hinit
  split at hinit
  · simp at hinit
  · split at hinit
    · simp at hinit
    · rename_i readout hr
      split at hinit
      · simp at hinit
      · rename_i seg hseg
        split at hinit
        · simp at hinit
        · rename_i barrel hb
          split at hinit
          · simp at hinit
          · rename_i endcap he
            split at hinit
            · rename_i barrelLayers endcapLayers hbl hel
              simp only [Except.ok.injEq, Prod.mk.injEq, true_and] at hinit
              subst hinit
              refine ⟨readout, seg, barrel, endcap, barrelLayers, endcapLayers, hr, hb, he, hbl,
                hel, rfl, rfl, rfl, ?_⟩
              simp [hempty, resizeTwo]
            · simp at hinit

/-- An entry of the layer centres is the centre of the layer of that index. -/
theorem layerCentres_getElem? {D : Type} [Add D] [Div D] [OfNat D 2] (layers : List (Layer D))
    (i : Nat) (position : D) (h : (layerCentres layers)[i]? = some position) :
    ∃ theLayer, layers[i]? = some theLayer ∧
      position = theLayer.distance + theLayer.sensitive_thickness / 2 := by
  unfold layerCentres at h
  rw [List.getElem?_map] at h
  cases hl : layers[i]? with
  | none => simp [hl] at h
  | some theLayer =>
    simp [hl] at h
    exact ⟨theLayer, rfl, h.symm⟩

/-- Every hit of `createCells` belongs to a cell of the traversal and has the
position computed for its cell identifier. -/
theorem createCells_mem {F D : Type} [LT D] [DecidableRel (fun a b : D => a < b)] [Mul D]
    [Div D] [Sub D] [OfNat D 2] (self : MuonCaloHitDigi D) (geo : PhiThetaGeometry D)
    (narrow : D → F) (cells : List (Nat × D)) (hits : List (CalorimeterHit F (F × F × F)))
    (h : createCells self geo narrow cells = .ok hits) :
    ∀ hit ∈ hits, hitPosition self geo narrow hit.cellID = .ok hit.position := by
  induction cells generalizing hits with
  | nil =>
    simp only [createCells, Except.ok.injEq] at h
    subst h
    simp
  | cons cell rest ih =>
    simp only [createCells] at h
    split at h
    · simp at h
    · rename_i position hp
      split at h
      · simp at h
      · rename_i more hmore
        simp only [Except.ok.injEq] at h
        subst h
        intro hit hmem
        rcases List.mem_cons.mp hmem with rfl | hmem
        · exact hp
        · exact ih more hmore hit hmem

/-- The layer position read by `layerPosition`. -/
theorem layerPosition_ok {D : Type} (self : MuonCaloHitDigi D) (iDet : Nat) (layer : Int)
    (position : D) (h : layerPosition self iDet layer = .ok position) :
    0 ≤ layer ∧ ∃ positions, self.m_layerPositions[iDet]? = some positions ∧
      positions[layer.toNat]? = some position := by
  unfold layerPosition at h
  split at h
  · simp at h
  · rename_i positions hpos
    split at h
    · simp at h
    · rename_i hl
      split at h
      · simp at h
      · rename_i p hp
        simp only [Except.ok.injEq] at h
        subst h
        exact ⟨not_lt.mp hl, positions, hpos, hp⟩

/-- The conversion to `int` keeps an integer of `[0, 2 ^ 31)`. -/
theorem toInt_of_range (v : Int) (h0 : 0 ≤ v) (h1 : v < 2 ^ 31) : toInt v = v := by
  unfold toInt
  rw [Int.emod_eq_of_lt (by omega) (by omega)]
  ring

/-- What a position returned by `hitPosition` is made of. -/
theorem hitPosition_ok {F D : Type} [LinearOrder D] [Mul D] [Div D] [Sub D] [OfNat D 2]
    (self : MuonCaloHitDigi D) (geo : PhiThetaGeometry D) (narrow : D → F) (cellID : Nat)
    (fields : List BitFieldElement) (position : F × F × F)
    (hdec : self.m_decoder = some fields)
    (h : hitPosition self geo narrow cellID = .ok position) :
    ∃ systemValue layerValue centre,
      BitField64.decode fields "system" cellID = .ok systemValue ∧
      BitField64.decode fields "layer" cellID = .ok layerValue ∧
      0 ≤ toInt layerValue ∧
      (∃ positions,
        self.m_layerPositions[if toUInt32 (toInt systemValue) = self.m_barrelSysId
          then 0 else 1]? = some positions ∧
        positions[(toInt layerValue).toNat]? = some centre) ∧
      position =
        (narrow ((geo.position cellID).1 *
            (if toUInt32 (toInt systemValue) = self.m_barrelSysId then centre
              else geo.sin (if geo.theta cellID ≤ geo.pi / 2 then geo.theta cellID
                  else geo.pi - geo.theta cellID) /
                geo.cos (if geo.theta cellID ≤ geo.pi / 2 then geo.theta cellID
                  else geo.pi - geo.theta cellID) * centre)),
          narrow ((geo.position cellID).2.1 *
            (if toUInt32 (toInt systemValue) = self.m_barrelSysId then centre
              else geo.sin (if geo.theta cellID ≤ geo.pi / 2 then geo.theta cellID
                  else geo.pi - geo.theta cellID) /
                geo.cos (if geo.theta cellID ≤ geo.pi / 2 then geo.theta cellID
                  else geo.pi - geo.theta cellID) * centre)),
          narrow ((geo.position cellID).2.2 *
            (if toUInt32 (toInt systemValue) = self.m_barrelSysId then centre
              else geo.sin (if geo.theta cellID ≤ geo.pi / 2 then geo.theta cellID
                  else geo.pi - geo.theta cellID) /
                geo.cos (if geo.theta cellID ≤ geo.pi / 2 then geo.theta cellID
                  else geo.pi - geo.theta cellID) * centre))) := by
  have htheta : (if geo.theta cellID > geo.pi / 2 then geo.pi - geo.theta cellID
      else geo.theta cellID) =
      (if geo.theta cellID ≤ geo.pi / 2 then geo.theta cellID
        else geo.pi - geo.theta cellID) := by
    by_cases hle : geo.theta cellID ≤ geo.pi / 2
    · rw [if_pos hle, if_neg (not_lt.mpr hle)]
    · rw [if_neg hle, if_pos (not_le.mp hle)]
  unfold hitPosition at h
  rw [hdec] at h
  simp only at h
  split at h
  · simp at h
  · rename_i systemValue hs
    split at h
    · simp at h
    · rename_i layerValue hl
      split at h
      · simp at h
      · rename_i rho hrho
        split at h
        · simp at h
        · simp only [Except.ok.injEq] at h
          subst h
          unfold radius at hrho
          by_cases hb : toUInt32 (toInt systemValue) = self.m_barrelSysId
          · rw [if_pos hb] at hrho
            obtain ⟨h0, positions, hp1, hp2⟩ := layerPosition_ok self 0 _ _ hrho
            refine ⟨systemValue, layerValue, rho, hs, hl, h0, ⟨positions, ?_, hp2⟩, ?_⟩
            · rw [if_pos hb]; exact hp1
            · simp only [if_pos hb]
          · rw [if_neg hb] at hrho
            split at hrho
            · simp at hrho
            · simp only at hrho
              split at hrho
              · simp at hrho
              · rename_i centre hcentre
                simp only [Except.ok.injEq] at hrho
                subst hrho
                obtain ⟨h0, positions, hp1, hp2⟩ := layerPosition_ok self 1 _ _ hcentre
                refine ⟨systemValue, layerValue, centre, hs, hl, h0, ⟨positions, ?_, hp2⟩, ?_⟩
                · rw [if_neg hb]; exact hp1
                · simp only [if_neg hb, htheta]

/-- C21: after a successful `initialize` of a digitiser whose vector of layer
positions was empty, every hit returned by `MuonCaloHitDigi::execute` has the
position `localPos * rho` (narrowed to single precision), where `localPos` is
the position the segmentation gives for the cell and, with the system `s` and
the layer `l` decoded from the cell identifier as the code holds them (`s` is
compared as an unsigned number, `l` is an `int`), `rho` is
`distance + sensitive_thickness / 2` of the layer `l` of the barrel when
`s = barrelSysId`, and otherwise `tan(theta') * (distance +
sensitive_thickness / 2)` of the layer `l` of the endcap, with `theta' = theta`
when `theta <= pi / 2` and `pi - theta` otherwise, the tangent being
`sin / cos`; every other system is treated as the endcap. The values `s` and
`l` are the decoded fields whenever these are in `[0, 2 ^ 31)`. -/
theorem execute_hit_position {F D : Type} [LinearOrder D] [Add D] [Zero D] [Mul D] [Div D]
    [Sub D] [OfNat D 2] (widen : F → D) (narrow : D → F) (geo : PhiThetaGeometry D)
    (iter : List (Nat × D) → List (Nat × D)) (self0 self self1 : MuonCaloHitDigi D)
    (det : Detector D) (input_sim_hits : List (SimTrackerHit F)) (sc : StatusCode)
    (hits : List (CalorimeterHit F (F × F × F)))
    (hempty : self0.m_layerPositions = [])
    (hinit : initialise self0 det = .ok (StatusCode.SUCCESS, self))
    (h : execute widen narrow geo iter self input_sim_hits =
      .ok (sc, hits, self1)) :
    ∃ readout barrel endcap barrelLayers endcapLayers,
      det.readout self0.m_readoutName = .ok readout ∧
      det.detector self0.m_barrelDetectorName = some barrel ∧
      det.detector self0.m_endcapDetectorName = some endcap ∧
      barrel.extension = some barrelLayers ∧ endcap.extension = some endcapLayers ∧
      ∀ hit ∈ hits, ∃ systemValue layerValue s l theLayer,
        BitField64.decode readout.idSpec "system" hit.cellID = .ok systemValue ∧
        BitField64.decode readout.idSpec "layer" hit.cellID = .ok layerValue ∧
        s = toUInt32 (toInt systemValue) ∧ l = toInt layerValue ∧
        (0 ≤ systemValue → systemValue < 2 ^ 31 → (s : Int) = systemValue) ∧
        (0 ≤ layerValue → layerValue < 2 ^ 31 → l = layerValue) ∧
        0 ≤ l ∧
        (if s = self0.m_barrelSysId then barrelLayers else endcapLayers)[l.toNat]? =
          some theLayer ∧
        hit.position =
          (narrow ((geo.position hit.cellID).1 *
              describedRho geo self0.m_barrelSysId s hit.cellID theLayer),
            narrow ((geo.position hit.cellID).2.1 *
              describedRho geo self0.m_barrelSysId s hit.cellID theLayer),
            narrow ((geo.position hit.cellID).2.2 *
              describedRho geo self0.m_barrelSysId s hit.cellID theLayer)) := by
  obtain ⟨readout, seg, barrel, endcap, barrelLayers, endcapLayers, hr, hb, he, hbl, hel, hdec,
    _, hsys, hpos⟩ := initialise_success self0 self det hempty hinit
  refine ⟨readout, barrel, endcap, barrelLayers, endcapLayers, hr, hb, he, hbl, hel, ?_⟩
  unfold execute at h
  simp only at h
  split at h
  · simp at h
  · rename_i created hcreated
    simp only [Except.ok.injEq, Prod.mk.injEq] at h
    obtain ⟨_, hhits, _⟩ := h
    subst hhits
    intro hit hmem
    have hp := createCells_mem self geo narrow _ _ hcreated hit hmem
    obtain ⟨systemValue, layerValue, centre, hs, hl, h0, ⟨positions, hp1, hp2⟩, hposition⟩ :=
      hitPosition_ok self geo narrow hit.cellID readout.idSpec hit.position hdec hp
    rw [hsys] at hp1 hposition
    have hlayer : ∃ theLayer,
        (if toUInt32 (toInt systemValue) = self0.m_barrelSysId then barrelLayers
          else endcapLayers)[(toInt layerValue).toNat]? = some theLayer ∧
        centre = theLayer.distance + theLayer.sensitive_thickness / 2 := by
      by_cases hbar : toUInt32 (toInt systemValue) = self0.m_barrelSysId
      · rw [if_pos hbar] at hp1 ⊢
        rw [hpos] at hp1
        simp only [List.getElem?_cons_zero, Option.some.injEq] at hp1
        subst hp1
        exact layerCentres_getElem? _ _ _ hp2
      · rw [if_neg hbar] at hp1 ⊢
        rw [hpos] at hp1
        simp only [List.getElem?_cons_succ, List.getElem?_cons_zero, Option.some.injEq] at hp1
        subst hp1
        exact layerCentres_getElem? _ _ _ hp2
    obtain ⟨theLayer, hget, hcentre⟩ := hlayer
    refine ⟨systemValue, layerValue, _, _, theLayer, hs, hl, rfl, rfl, ?_, ?_, h0, hget, ?_⟩
    · intro hs0 hs1
      rw [toInt_of_range _ hs0 hs1]
      exact MassInv.toUInt32_of_nonneg _ hs0 (by omega)
    · intro hl0 hl1
      exact toInt_of_range _ hl0 hl1
    · rw [hposition, hcentre]
      unfold describedRho
      rfl

/-- The theorem `execute_hit_position` applies to the example event: the hit
of the barrel cell 28 (layer 1, centre 4610) is at `(3/5, 4/5, 0) * 4610` and
the hit of the endcap cell 13 (layer 0, centre 6020, tangent 2) is at
`(0, 3/5, -4/5) * 12040`. -/
theorem execute_hit_position_witness :
    exampleMuonDigi.m_layerPositions = [] ∧
    initialise exampleMuonDigi exampleMuonDetector =
      .ok (StatusCode.SUCCESS, exampleInitialisedDigi) ∧
    execute id id exampleGeometry id exampleInitialisedDigi exampleMuonHits =
      .ok (StatusCode.SUCCESS, examplePositionedHits,
        { exampleInitialisedDigi with m_cellsMap := [(28, 8), (13, 7)] }) ∧
    examplePositionedHits.map (fun hit => hit.position) =
      [(3 / 5 * 4610, 4 / 5 * 4610, 0 * 4610), (0 * 12040, 3 / 5 * 12040, -4 / 5 * 12040)] ∧
    ∃ readout barrel endcap barrelLayers endcapLayers,
      exampleMuonDetector.readout exampleMuonDigi.m_readoutName = .ok readout ∧
      exampleMuonDetector.detector exampleMuonDigi.m_barrelDetectorName = some barrel ∧
      exampleMuonDetector.detector exampleMuonDigi.m_endcapDetectorName = some endcap ∧
      barrel.extension = some barrelLayers ∧ endcap.extension = some endcapLayers ∧
      ∀ hit ∈ examplePositionedHits, ∃ systemValue layerValue s l theLayer,
        BitField64.decode readout.idSpec "system" hit.cellID = .ok systemValue ∧
        BitField64.decode readout.idSpec "layer" hit.cellID = .ok layerValue ∧
        s = toUInt32 (toInt systemValue) ∧ l = toInt layerValue ∧
        (0 ≤ systemValue → systemValue < 2 ^ 31 → (s : Int) = systemValue) ∧
        (0 ≤ layerValue → layerValue < 2 ^ 31 → l = layerValue) ∧
        0 ≤ l ∧
        (if s = exampleMuonDigi.m_barrelSysId then barrelLayers else endcapLayers)[l.toNat]? =
          some theLayer ∧
        hit.position =
          (id ((exampleGeometry.position hit.cellID).1 *
              describedRho exampleGeometry exampleMuonDigi.m_barrelSysId s hit.cellID theLayer),
            id ((exampleGeometry.position hit.cellID).2.1 *
              describedRho exampleGeometry exampleMuonDigi.m_barrelSysId s hit.cellID theLayer),
            id ((exampleGeometry.position hit.cellID).2.2 *
              describedRho exampleGeometry exampleMuonDigi.m_barrelSysId s hit.cellID
                theLayer)) :=
  ⟨rfl, by with_unfolding_all rfl, by with_unfolding_all rfl, by with_unfolding_all rfl,
    execute_hit_position id id exampleGeometry id exampleMuonDigi exampleInitialisedDigi _
      exampleMuonDetector exampleMuonHits _ _ rfl (by with_unfolding_all rfl)
      (by with_unfolding_all rfl)⟩

end MuonCaloHitDigi
end K4RecCalorimeter
